import Mathlib

/-!
# VideoChatModal: call session, peer registry and teardown

A shallow embedding of `src/components/Meetings/VideoChatModal.jsx`.

Conventions of the embedding.

* The component's React state and refs are the fields of `State`.  A state
  setter called with a value, or with an updater function by an event handler
  (`setParticipants(prev => ...)`), is applied at the point of the call, in
  program order.  The two updaters of `cleanupConnections`, whose side effects
  are steps 2 and 3 of the teardown, are treated as React treats them: run
  during the call when no state change is pending, queued in
  `State.pendingUpdaters` otherwise, and then run by `render` or dropped by
  `unmount`.
* Browser objects with identity (media tracks, peer connections, media
  recorders) live in stores inside `State` and are referred to by their index.
* The calls the component makes on collaborators outside of it (media
  devices, recorder stop, track stop, peer connection teardown, channel,
  download, UI setters) are appended to `State.log`, oldest first, when they
  return.
* `Platform` collects what the browser decides: which MIME types are
  supported, the clock, and which calls throw.
* An `async` function runs to completion inside the handler that starts it;
  only `setTimeout` callbacks are separate events.
* Console output and toast messages are not modelled: the calls of `console`
  and of `antdMessage` are taken to return.
-/

namespace VideoChat

/-! ## Data model -/

abbrev UserId := String
abbrev TrackId := Nat
abbrev PcId := Nat
abbrev RecorderId := Nat

inductive TrackKind where
  | audio
  | video
deriving DecidableEq, Repr

/-- A `MediaStreamTrack`: `ended` is `readyState === 'ended'`. -/
structure Track where
  kind : TrackKind
  enabled : Bool
  ended : Bool
deriving DecidableEq, Repr

/-- A `MediaStream` holding local tracks, as the list of its tracks. -/
abbrev MediaStream := List TrackId

inductive SignalingState where
  | stable
  | haveLocalOffer
  | haveRemoteOffer
  | closed
deriving DecidableEq, Repr

inductive SdpType where
  | offer
  | answer
deriving DecidableEq, Repr

/-- A session description: its type and its (uninterpreted) body. -/
structure Sdp where
  type : SdpType
  sdp : Nat
deriving DecidableEq, Repr

/-- An `RTCPeerConnection`.  The four Boolean fields say whether the handler
installed by `createPeerConnection` is still attached. -/
structure PeerConn where
  remoteUserId : UserId
  signalingState : SignalingState
  onicecandidate : Bool
  ontrack : Bool
  oniceconnectionstatechange : Bool
  onconnectionstatechange : Bool
  senders : List TrackId
  localDescription : Option Sdp
  remoteDescription : Option Sdp
  iceCandidates : List Nat
deriving DecidableEq, Repr

/-- An entry of the `participants` state: `{ id, name, pc, stream }`.  The
remote stream is the list of the ids of its tracks. -/
structure Participant where
  id : UserId
  name : String
  pc : Option PcId
  stream : Option (List Nat)
deriving DecidableEq, Repr

/-- The `participants` object: keys with their entries, in insertion order. -/
abbrev Registry := List (UserId × Participant)

inductive RecorderState where
  | inactive
  | recording
  | paused
deriving DecidableEq, Repr

/-- Which closure is installed as a recorder handler: the one assigned in
`startRecording` or the one assigned in `cleanupConnections`. -/
inductive HandlerSrc where
  | start
  | cleanup
deriving DecidableEq, Repr

/-- A `MediaRecorder` with its `onstop` and `onerror` handlers. -/
structure Recorder where
  state : RecorderState
  onstop : HandlerSrc
  onerror : HandlerSrc
  stream : List TrackId
  mimeType : String
deriving DecidableEq, Repr

inductive WhisperKind where
  | offer
  | answer
  | candidate
deriving DecidableEq, Repr

inductive Payload where
  | sdp (d : Option Sdp)
  | candidate (c : Nat)
deriving DecidableEq, Repr

/-- A whisper sent on the presence channel. -/
structure Whisper where
  kind : WhisperKind
  senderId : UserId
  recipientId : UserId
  payload : Payload
deriving DecidableEq, Repr

structure MediaError where
  name : String
  message : String
deriving DecidableEq, Repr

/-- A member record delivered by the presence channel. -/
structure User where
  id : UserId
  name : Option String
deriving DecidableEq, Repr

inductive PcHandler where
  | onicecandidate
  | ontrack
  | oniceconnectionstatechange
  | onconnectionstatechange
deriving DecidableEq, Repr

/-- Calls of the five UI state setters. -/
inductive UiUpdate where
  | isConnecting (b : Bool)
  | mediaError (e : Option MediaError)
  | isAudioMuted (b : Bool)
  | isVideoMuted (b : Bool)
  | showResumeGenerator (b : Bool)
deriving DecidableEq, Repr

/-- A call on a collaborator, as recorded in `State.log`. -/
inductive Effect where
  | recorderStop (r : RecorderId)
  | download (chunks : List Nat) (mimeType : String) (filename : String)
  | trackStop (t : TrackId)
  | pcDetach (p : PcId) (h : PcHandler)
  | pcClose (p : PcId)
  | stopListening (k : WhisperKind)
  | leave (channel : String)
  | whisper (w : Whisper)
  | ui (u : UiUpdate)
  | onClose
  | getUserMedia
  | join (channel : String)
deriving DecidableEq, Repr

/-- The continuation `handleOffer` hands to `setTimeout(..., 100)`. -/
structure PendingOffer where
  senderId : UserId
  offer : Option Sdp
  pc : Option PcId
deriving DecidableEq, Repr

/-- The two state updater functions with side effects, which `cleanupConnections`
passes to `setLocalStream` and to `setParticipants`. -/
inductive Updater where
  | localStream
  | participants
deriving DecidableEq, Repr

/-- The component's props that the modelled functions read. -/
structure Props where
  visible : Bool
  meetingId : Option String
  echo : Bool
deriving DecidableEq, Repr

/-- What the browser decides. -/
structure Platform where
  isTypeSupported : String → Bool
  now : Nat
  offerSdp : PcId → Nat
  answerSdp : PcId → Nat
  recorderStopThrows : Bool
  blobThrows : Bool
  trackStopThrows : TrackId → Bool
  pcCloseThrows : PcId → Bool
  stopListeningThrows : WhisperKind → Bool
  leaveThrows : Bool
  pcCtorThrows : UserId → Bool
  addTrackThrows : TrackId → Bool
  recorderCtorThrows : Bool
  recorderStartThrows : Bool
  joinThrows : Bool

/-- The state of one mounted `VideoChatModal`. -/
structure State where
  isConnecting : Bool
  mediaError : Option MediaError
  localStream : Option MediaStream
  participants : Registry
  isAudioMuted : Bool
  isVideoMuted : Bool
  showResumeGenerator : Bool
  presenceChannel : Bool
  participantVideoRefs : List UserId
  mediaRecorderRef : Option RecorderId
  recordedChunks : List Nat
  isCleanupScheduled : Bool
  isEffectActive : Bool
  acquiredStream : Option MediaStream
  closureParticipants : Registry
  tracks : List Track
  pcs : List PeerConn
  recorders : List Recorder
  whisperListeners : List WhisperKind
  subscribed : Bool
  guardTimers : Nat
  pendingOffers : List PendingOffer
  pendingUpdaters : List Updater
  log : List Effect
deriving DecidableEq, Repr

/-! ## Small helpers -/

def State.emit (s : State) (e : Effect) : State :=
  { s with log := s.log ++ [e] }

/-- Update the object stored at index `i`, if there is one. -/
def modifyAt {α : Type} (l : List α) (i : Nat) (f : α → α) : List α :=
  match l[i]? with
  | some a => l.set i (f a)
  | none => l

/-- The string `presence-meeting.${meeting?.id}`. -/
def meetingChannelName (props : Props) : String :=
  "presence-meeting." ++ props.meetingId.getD "undefined"

/-- The value of `prev[id]`. -/
def regGet (r : Registry) (id : UserId) : Option Participant :=
  match r with
  | [] => none
  | e :: es => if e.1 = id then some e.2 else regGet es id

/-- Whether `id` is a key of the registry. -/
def regHas (r : Registry) (id : UserId) : Bool :=
  (regGet r id).isSome

/-- The object `{ ...prev, [id]: p }`. -/
def regSet (r : Registry) (id : UserId) (p : Participant) : Registry :=
  if regHas r id then r.map (fun e => if e.1 = id then (id, p) else e)
  else r ++ [(id, p)]

/-- The object `rest` of `const { [id]: _, ...rest } = prev`. -/
def regErase (r : Registry) (id : UserId) : Registry :=
  r.filter (fun e => e.1 ≠ id)

/-- The object `{ ...prev, ...setup }`. -/
def regMerge (r : Registry) (setup : Registry) : Registry :=
  match setup with
  | [] => r
  | e :: es => regMerge (regSet r e.1 e.2) es

/-- The array index that a property key is, if it is one: decimal digits
without a leading zero, of a value below `2^32 - 1`. -/
def arrayIndex (k : String) : Option Nat :=
  let cs := k.data
  let n : Nat := cs.foldl (fun acc c => 10 * acc + (c.toNat - 48)) 0
  if cs.all (fun c => decide (48 ≤ c.toNat) && decide (c.toNat ≤ 57)) && !cs.isEmpty &&
      (cs.head? != some '0' || cs.length == 1) && decide (n < 4294967295) then some n
  else none

/-- Insert an entry before the first entry of a larger index. -/
def insertByIndex (e : Nat × Participant) :
    List (Nat × Participant) → List (Nat × Participant)
  | [] => [e]
  | x :: xs => if e.1 < x.1 then e :: x :: xs else x :: insertByIndex e xs

/-- The array `Object.values(participants)`: the entries whose key is an array
index come first, by ascending index, then the other entries in insertion
order. -/
def regValues (r : Registry) : List Participant :=
  let indexed := r.filterMap (fun e => (arrayIndex e.1).map (fun n => (n, e.2)))
  let named := r.filter (fun e => (arrayIndex e.1).isNone)
  (indexed.foldl (fun acc e => insertByIndex e acc) ([] : List (Nat × Participant))).map Prod.snd ++
    named.map Prod.snd

def setShowResumeGenerator (b : Bool) (s : State) : State :=
  { s with showResumeGenerator := b }.emit (.ui (.showResumeGenerator b))

def setIsConnecting (b : Bool) (s : State) : State :=
  { s with isConnecting := b }.emit (.ui (.isConnecting b))

def setMediaError (e : Option MediaError) (s : State) : State :=
  { s with mediaError := e }.emit (.ui (.mediaError e))

def setIsAudioMuted (b : Bool) (s : State) : State :=
  { s with isAudioMuted := b }.emit (.ui (.isAudioMuted b))

def setIsVideoMuted (b : Bool) (s : State) : State :=
  { s with isVideoMuted := b }.emit (.ui (.isVideoMuted b))

/-! ## Recording -/

def supportedTypes : List String :=
  ["audio/webm;codecs=opus", "audio/webm", "audio/ogg;codecs=opus", "audio/ogg"]

/-- The value `meeting?.id || 'rec'`. -/
def meetingIdOrRec (props : Props) : String :=
  match props.meetingId with
  | some id => if id = "" then "rec" else id
  | none => "rec"

/-- The MIME type `downloadRecording` gives the blob:
`supportedTypes.find(isTypeSupported) || 'audio/webm'`. -/
def downloadMimeType (P : Platform) : String :=
  (supportedTypes.find? P.isTypeSupported).getD "audio/webm"

/-- The value `mimeType.startsWith('audio/ogg') ? 'ogg' : 'webm'`. -/
def fileExtension (mimeType : String) : String :=
  if "audio/ogg".data.isPrefixOf mimeType.data then "ogg" else "webm"

/-- The name of the downloaded file. -/
def downloadFilename (P : Platform) (props : Props) : String :=
  "meeting-audio-" ++ meetingIdOrRec props ++ "-" ++ toString P.now ++ "." ++
    fileExtension (downloadMimeType P)

/-- The function `downloadRecording`. -/
def downloadRecording (P : Platform) (props : Props) (s : State) : State :=
  let canUpdateState := s.isEffectActive || props.visible
  if s.recordedChunks.length = 0 then
    if canUpdateState then setShowResumeGenerator true s else s
  else
    let s1 :=
      if P.blobThrows then s
      else s.emit (.download s.recordedChunks (downloadMimeType P) (downloadFilename P props))
    let s2 := if canUpdateState then setShowResumeGenerator true s1 else s1
    { s2 with recordedChunks := [] }

def setRecorderState (r : RecorderId) (st : RecorderState) (s : State) : State :=
  { s with recorders := modifyAt s.recorders r (fun x => { x with state := st }) }

def setRecorderHandlers (r : RecorderId) (h : HandlerSrc) (s : State) : State :=
  { s with recorders := modifyAt s.recorders r (fun x => { x with onstop := h, onerror := h }) }

/-- Whether `mediaRecorderRef.current.state === 'recording'` for recorder `r`. -/
def isRecording (s : State) (r : RecorderId) : Bool :=
  match s.recorders[r]? with
  | some rec => decide (rec.state = .recording)
  | none => false

/-! ## Teardown: `cleanupConnections` -/

/-- Step 1 of `cleanupConnections`: stop the media recorder. -/
def cleanupRecorder (P : Platform) (props : Props) (s : State) : State :=
  match s.mediaRecorderRef with
  | some r =>
    if isRecording s r then
      let s1 := setRecorderHandlers r .cleanup s
      if P.recorderStopThrows then
        { downloadRecording P props s1 with mediaRecorderRef := none }
      else
        (setRecorderState r .inactive s1).emit (.recorderStop r)
    else
      { s with mediaRecorderRef := none }
  | none =>
    { downloadRecording P props s with mediaRecorderRef := none }

/-- A track after `track.stop()`. -/
def Track.stopped (tr : Track) : Track :=
  { tr with ended := true }

/-- The call `track.stop()`. -/
def stopTrack (t : TrackId) (s : State) : State :=
  ({ s with tracks := modifyAt s.tracks t Track.stopped }).emit (.trackStop t)

/-- The loop `getTracks().forEach(track => track.stop())`; the flag says
whether a call threw. -/
def stopTracks (P : Platform) : List TrackId → State → State × Bool
  | [], s => (s, false)
  | t :: ts, s => if P.trackStopThrows t then (s, true) else stopTracks P ts (stopTrack t s)

/-- The updater that step 2 of `cleanupConnections` passes to `setLocalStream`;
the flag says whether it threw. -/
def cleanupLocalStream (P : Platform) (s : State) : State × Bool :=
  match s.localStream with
  | some stream =>
    let r := stopTracks P stream s
    if r.2 then r else ({ r.1 with localStream := none }, false)
  | none => ({ s with localStream := none }, false)

def setPc (p : PcId) (c : PeerConn) (s : State) : State :=
  { s with pcs := s.pcs.set p c }

/-- A connection after `pc.<handler> = null`. -/
def PeerConn.detach (h : PcHandler) (c : PeerConn) : PeerConn :=
  match h with
  | .onicecandidate => { c with onicecandidate := false }
  | .ontrack => { c with ontrack := false }
  | .oniceconnectionstatechange => { c with oniceconnectionstatechange := false }
  | .onconnectionstatechange => { c with onconnectionstatechange := false }

/-- A connection after `pc.close()`. -/
def PeerConn.close (c : PeerConn) : PeerConn :=
  { c with signalingState := .closed }

/-- The assignment `pc.<handler> = null`. -/
def detachHandler (p : PcId) (h : PcHandler) (s : State) : State :=
  ({ s with pcs := modifyAt s.pcs p (PeerConn.detach h) }).emit (.pcDetach p h)

/-- The call `pc.close()`; the flag says whether it threw. -/
def closePc (P : Platform) (p : PcId) (s : State) : State × Bool :=
  if P.pcCloseThrows p then (s, true)
  else (({ s with pcs := modifyAt s.pcs p PeerConn.close }).emit (.pcClose p), false)

/-- The body of the `forEach` of step 3 for an entry that has a connection. -/
def detachAndClose (P : Platform) (p : PcId) (s : State) : State × Bool :=
  closePc P p
    (detachHandler p .onconnectionstatechange
      (detachHandler p .oniceconnectionstatechange
        (detachHandler p .ontrack
          (detachHandler p .onicecandidate s))))

/-- The loop `Object.values(currentParticipants).forEach(...)` of step 3. -/
def closeParticipants (P : Platform) : List Participant → State → State × Bool
  | [], s => (s, false)
  | q :: qs, s =>
    match q.pc with
    | some p =>
      let r := detachAndClose P p s
      if r.2 then r else closeParticipants P qs r.1
    | none => closeParticipants P qs s

/-- The updater that step 3 of `cleanupConnections` passes to `setParticipants`;
the flag says whether it threw. -/
def cleanupParticipants (P : Platform) (s : State) : State × Bool :=
  let r := closeParticipants P (regValues s.participants) s
  if r.2 then r else ({ r.1 with participants := [] }, false)

/-- The call `presenceChannel.current.stopListeningForWhisper(k)`. -/
def stopListeningForWhisper (P : Platform) (k : WhisperKind) (s : State) : State × Bool :=
  if P.stopListeningThrows k then (s, true)
  else (({ s with whisperListeners := s.whisperListeners.filter (fun j => j ≠ k) }).emit
    (.stopListening k), false)

/-- The call `echo?.leave(meetingChannelName)`. -/
def echoLeave (P : Platform) (props : Props) (s : State) : State × Bool :=
  if props.echo then
    if P.leaveThrows then (s, true)
    else (({ s with subscribed := false }).emit (.leave (meetingChannelName props)), false)
  else (s, false)

/-- Step 4 of `cleanupConnections`: leave the Echo channel. -/
def cleanupChannel (P : Platform) (props : Props) (s : State) : State × Bool :=
  if s.presenceChannel then
    let r1 := stopListeningForWhisper P .offer s
    if r1.2 then r1 else
    let r2 := stopListeningForWhisper P .answer r1.1
    if r2.2 then r2 else
    let r3 := stopListeningForWhisper P .candidate r2.1
    if r3.2 then r3 else
    let r4 := echoLeave P props r3.1
    if r4.2 then r4 else
    ({ r4.1 with presenceChannel := false }, false)
  else (s, false)

/-- Step 5 of `cleanupConnections`, with the `setTimeout` that follows it. -/
def resetUi (s : State) : State :=
  let s1 := setIsVideoMuted false (setIsAudioMuted false (setMediaError none (setIsConnecting true s)))
  { s1 with participantVideoRefs := [], guardTimers := s1.guardTimers + 1 }

/-- React is handed the updater `u`, to run it when the component renders. -/
def enqueueUpdater (u : Updater) (s : State) : State :=
  { s with pendingUpdaters := s.pendingUpdaters ++ [u] }

/-- The call `setLocalStream(currentLocalStream => ...)` of step 2.  `dirty`
says whether a state change of the component is pending.  If none is, React
runs the updater during the call; an exception it throws is swallowed by React
and the updater is queued to run again at the render.  If one is, the updater
is queued.  The flag of the result says whether a state change is pending
afterwards (the updater returns `null`: a change unless the stream was `null`). -/
def setLocalStreamUpdater (P : Platform) (dirty : Bool) (s : State) : State × Bool :=
  if dirty then (enqueueUpdater .localStream s, true)
  else
    let r := cleanupLocalStream P s
    if r.2 then (enqueueUpdater .localStream r.1, true)
    else (r.1, s.localStream.isSome)

/-- The call `setParticipants(currentParticipants => ...)` of step 3, as
`setLocalStreamUpdater`; the updater returns a new object, so a state change is
pending afterwards. -/
def setParticipantsUpdater (P : Platform) (dirty : Bool) (s : State) : State × Bool :=
  if dirty then (enqueueUpdater .participants s, true)
  else
    let r := cleanupParticipants P s
    if r.2 then (enqueueUpdater .participants r.1, true)
    else (r.1, true)

/-- The function `cleanupConnections`.  When it is called React has rendered
the state changes of the earlier events, so a state change is pending at step 2
only if an updater is still queued or step 1 made one
(`setShowResumeGenerator(true)` on a flag that was `false`).  The flag of the
result says whether the call ended by an exception leaving the function. -/
def cleanupConnections (P : Platform) (props : Props) (s : State) : State × Bool :=
  if s.isCleanupScheduled then (s, false)
  else
    let s1 := cleanupRecorder P props { s with isCleanupScheduled := true }
    let r2 := setLocalStreamUpdater P
      (!s.pendingUpdaters.isEmpty || (s1.showResumeGenerator != s.showResumeGenerator)) s1
    let r3 := setParticipantsUpdater P r2.2 r2.1
    let r4 := cleanupChannel P props r3.1
    if r4.2 then r4 else
    (resetUi r4.1, false)

/-- The callback of `setTimeout(() => { isCleanupScheduledRef.current = false }, 500)`. -/
def guardTimerFires (s : State) : State :=
  if s.guardTimers = 0 then s
  else { s with isCleanupScheduled := false, guardTimers := s.guardTimers - 1 }

/-- The function `handleLeaveCall`: cleanup, then the parent's `onClose`. -/
def handleLeaveCall (P : Platform) (props : Props) (s : State) : State × Bool :=
  let r := cleanupConnections P props s
  if r.2 then r else (r.1.emit .onClose, false)

/-- Calling `stop()` `n` times in a row, no timer firing in between. -/
def stopTimes (P : Platform) (props : Props) : Nat → State → State
  | 0, s => s
  | n + 1, s => stopTimes P props n (cleanupConnections P props s).1

/-! ## Recorder handlers and `startRecording` -/

/-- The handler `recorder.ondataavailable`. -/
def onDataAvailable (size : Nat) (s : State) : State :=
  if size > 0 then { s with recordedChunks := s.recordedChunks ++ [size] } else s

/-- Whether `mediaRecorderRef.current.state !== 'inactive'` for recorder `r`. -/
def isNotInactive (s : State) (r : RecorderId) : Bool :=
  match s.recorders[r]? with
  | some rec => decide (rec.state ≠ .inactive)
  | none => false

/-- The handler `recorder.onstop` assigned in `startRecording`. -/
def onStopFromStart (P : Platform) (props : Props) (s : State) : State :=
  let s1 := if !s.isCleanupScheduled then downloadRecording P props s else s
  { s1 with mediaRecorderRef := none }

/-- The handler `recorder.onerror` assigned in `startRecording`. -/
def onErrorFromStart (P : Platform) (props : Props) (s : State) : State :=
  let s1 :=
    match s.mediaRecorderRef with
    | some r =>
      if isNotInactive s r then
        if P.recorderStopThrows then s
        else (setRecorderState r .inactive s).emit (.recorderStop r)
      else if !s.isCleanupScheduled then downloadRecording P props s
      else s
    | none => if !s.isCleanupScheduled then downloadRecording P props s else s
  { s1 with mediaRecorderRef := none }

/-- The handlers `onstop` and `onerror` assigned in `cleanupConnections`
(both call `downloadRecording` and clear the ref). -/
def onStopFromCleanup (P : Platform) (props : Props) (s : State) : State :=
  { downloadRecording P props s with mediaRecorderRef := none }

/-- The recorder `r` fires `dataavailable` with a blob of `size` bytes. -/
def recorderDataEvent (r : RecorderId) (size : Nat) (s : State) : State :=
  match s.recorders[r]? with
  | some _ => onDataAvailable size s
  | none => s

/-- The recorder `r` fires `stop` (it is inactive by then). -/
def recorderStopEvent (P : Platform) (props : Props) (r : RecorderId) (s : State) : State :=
  match s.recorders[r]? with
  | some rec =>
    let s1 := setRecorderState r .inactive s
    match rec.onstop with
    | .start => onStopFromStart P props s1
    | .cleanup => onStopFromCleanup P props s1
  | none => s

/-- The recorder `r` fires `error`. -/
def recorderErrorEvent (P : Platform) (props : Props) (r : RecorderId) (s : State) : State :=
  match s.recorders[r]? with
  | some rec =>
    match rec.onerror with
    | .start => onErrorFromStart P props s
    | .cleanup => onStopFromCleanup P props s
  | none => s

/-- The array `stream.getAudioTracks()`. -/
def getAudioTracks (s : State) (stream : MediaStream) : List TrackId :=
  stream.filter (fun t =>
    match s.tracks[t]? with
    | some tr => decide (tr.kind = .audio)
    | none => false)

/-- The array `stream.getVideoTracks()`. -/
def getVideoTracks (s : State) (stream : MediaStream) : List TrackId :=
  stream.filter (fun t =>
    match s.tracks[t]? with
    | some tr => decide (tr.kind = .video)
    | none => false)

/-- The function `startRecording`. -/
def startRecording (P : Platform) (stream : Option MediaStream) (s : State) : State :=
  match stream with
  | none => s
  | some st =>
    if s.mediaRecorderRef.isSome then s
    else
      let audioTracks := getAudioTracks s st
      if audioTracks.length = 0 then s
      else
        let mimeType := (supportedTypes.find? P.isTypeSupported).getD ""
        if P.recorderCtorThrows then { s with mediaRecorderRef := none }
        else
          let recorder : Recorder :=
            { state := .inactive, onstop := .start, onerror := .start,
              stream := audioTracks, mimeType := mimeType }
          let r := s.recorders.length
          let s1 := { s with recorders := s.recorders ++ [recorder], mediaRecorderRef := some r,
                             recordedChunks := [] }
          if P.recorderStartThrows then { s1 with mediaRecorderRef := none }
          else setRecorderState r .recording s1

/-! ## Peer connections -/

/-- The connection `new RTCPeerConnection(iceServers)` with the four handlers
of `createPeerConnection` attached. -/
def PeerConn.fresh (remoteUserId : UserId) : PeerConn :=
  { remoteUserId := remoteUserId, signalingState := .stable,
    onicecandidate := true, ontrack := true,
    oniceconnectionstatechange := true, onconnectionstatechange := true,
    senders := [], localDescription := none, remoteDescription := none, iceCandidates := [] }

/-- The call `pc.createOffer()`: rejected on a closed connection. -/
def pcCreateOffer (P : Platform) (p : PcId) (c : PeerConn) : Option Sdp :=
  if c.signalingState = .closed then none else some { type := .offer, sdp := P.offerSdp p }

/-- The call `pc.createAnswer()`: needs a remote offer. -/
def pcCreateAnswer (P : Platform) (p : PcId) (c : PeerConn) : Option Sdp :=
  if c.signalingState = .haveRemoteOffer then some { type := .answer, sdp := P.answerSdp p }
  else none

/-- The call `pc.setLocalDescription(d)`; `none` when the promise rejects. -/
def pcSetLocalDescription (d : Sdp) (c : PeerConn) : Option PeerConn :=
  match d.type, c.signalingState with
  | .offer, .stable => some { c with signalingState := .haveLocalOffer, localDescription := some d }
  | .offer, .haveLocalOffer => some { c with localDescription := some d }
  | .answer, .haveRemoteOffer => some { c with signalingState := .stable, localDescription := some d }
  | _, _ => none

/-- The call `pc.setRemoteDescription(d)`; `none` when the promise rejects. -/
def pcSetRemoteDescription (d : Sdp) (c : PeerConn) : Option PeerConn :=
  match d.type, c.signalingState with
  | .offer, .stable => some { c with signalingState := .haveRemoteOffer, remoteDescription := some d }
  | .offer, .haveRemoteOffer => some { c with remoteDescription := some d }
  | .answer, .haveLocalOffer => some { c with signalingState := .stable, remoteDescription := some d }
  | _, _ => none

/-- The call `pc.addIceCandidate(cand)`; `none` when the promise rejects. -/
def pcAddIceCandidate (cand : Nat) (c : PeerConn) : Option PeerConn :=
  if c.signalingState = .closed then none
  else if c.remoteDescription.isNone then none
  else some { c with iceCandidates := c.iceCandidates ++ [cand] }

/-- The body of the `forEach` that adds the local tracks to a connection. -/
def addLocalTrack (P : Platform) (c : PeerConn) (t : TrackId) : PeerConn :=
  if c.senders.contains t then c
  else if P.addTrackThrows t then c
  else { c with senders := c.senders ++ [t] }

/-- The connection `createPeerConnection` returns: a fresh one to which the
tracks of the stream were added in turn. -/
def newConn (P : Platform) (remoteUserId : UserId) (stream : MediaStream) : PeerConn :=
  stream.foldl (addLocalTrack P) (PeerConn.fresh remoteUserId)

/-- The function `createPeerConnection`: the new connection, if any, is
stored at the end of `pcs`. -/
def createPeerConnection (P : Platform) (remoteUserId : UserId)
    (streamToAddTracksFrom : Option MediaStream) (s : State) : State × Option PcId :=
  match streamToAddTracksFrom with
  | none => (s, none)
  | some stream =>
    if P.pcCtorThrows remoteUserId then (s, none)
    else ({ s with pcs := s.pcs ++ [newConn P remoteUserId stream] }, some s.pcs.length)

/-- The characters that fit in `n` UTF-16 code units: a character outside the
Basic Multilingual Plane takes two, and one that would be cut in half is left
out. -/
def takeUnits : Nat → List Char → List Char
  | _, [] => []
  | n, c :: cs =>
    if (if c.toNat < 65536 then 1 else 2) ≤ n then
      c :: takeUnits (n - (if c.toNat < 65536 then 1 else 2)) cs
    else []

/-- The string `User ${id.substring(0, 4)}`. -/
def defaultName (id : UserId) : String :=
  "User " ++ String.mk (takeUnits 4 id.data)

/-- The string `user.name || defaultName`. -/
def displayName (u : User) : String :=
  match u.name with
  | some n => if n = "" then defaultName u.id else n
  | none => defaultName u.id

/-- The call `presenceChannel.current.whisper(...)` guarded by
`if (presenceChannel.current)`. -/
def whisperIfJoined (w : Whisper) (s : State) : State :=
  if s.presenceChannel then s.emit (.whisper w) else s

/-- The function `sendOffer`. -/
def sendOffer (P : Platform) (self : UserId) (pc : Option PcId) (remoteUserId : UserId)
    (s : State) : State :=
  match pc with
  | none => s
  | some p =>
    match s.pcs[p]? with
    | none => s
    | some c =>
      match pcCreateOffer P p c with
      | none => s
      | some offer =>
        match pcSetLocalDescription offer c with
        | none => s
        | some c1 =>
          whisperIfJoined
            { kind := .offer, senderId := self, recipientId := remoteUserId,
              payload := .sdp c1.localDescription }
            (setPc p c1 s)

/-- The synchronous part of `handleOffer`: the `setParticipants` updater, then
the `setTimeout` that queues the rest. -/
def handleOffer (P : Platform) (senderId : UserId) (offer : Option Sdp)
    (currentLocalStream : Option MediaStream) (s : State) : State :=
  let existingPc := (regGet s.participants senderId).bind (fun e => e.pc)
  let r : State × Option PcId :=
    match existingPc with
    | some p => (s, some p)
    | none =>
      match createPeerConnection P senderId currentLocalStream s with
      | (s1, some newPc) =>
        let entry : Participant :=
          { id := senderId, name := defaultName senderId, pc := some newPc, stream := none }
        ({ s1 with participants := regSet s1.participants senderId entry }, some newPc)
      | (s1, none) => (s1, none)
  { r.1 with pendingOffers := r.1.pendingOffers ++
      [{ senderId := senderId, offer := offer, pc := r.2 }] }

/-- The `try` block of the callback `handleOffer` passes to `setTimeout`, on
connection `p`: set the offer, create the answer, set it, whisper it.  A
rejected promise ends the block. -/
def answerOffer (P : Platform) (self : UserId) (p : PcId) (senderId : UserId)
    (offer : Option Sdp) (s0 : State) : State :=
  match s0.pcs[p]?, offer with
  | some c, some offer =>
    match pcSetRemoteDescription offer c with
    | none => s0
    | some c1 =>
      match pcCreateAnswer P p c1 with
      | none => setPc p c1 s0
      | some answer =>
        match pcSetLocalDescription answer c1 with
        | none => setPc p c1 s0
        | some c2 =>
          whisperIfJoined
            { kind := .answer, senderId := self, recipientId := senderId,
              payload := .sdp c2.localDescription }
            (setPc p c2 s0)
  | _, _ => s0

/-- The callback `handleOffer` passed to `setTimeout`: the oldest pending one. -/
def offerTimerFires (P : Platform) (self : UserId) (s : State) : State :=
  match s.pendingOffers with
  | [] => s
  | po :: rest =>
    let s0 := { s with pendingOffers := rest }
    let closurePc := (regGet s0.closureParticipants po.senderId).bind (fun e => e.pc)
    let currentPC := match closurePc with
      | some p => some p
      | none => po.pc
    match currentPC with
    | none => s0
    | some p => answerOffer P self p po.senderId po.offer s0

/-- The function `handleAnswer`. -/
def handleAnswer (senderId : UserId) (answer : Option Sdp) (s : State) : State :=
  match (regGet s.participants senderId).bind (fun e => e.pc) with
  | some p =>
    match s.pcs[p]? with
    | some c =>
      if c.signalingState = .haveLocalOffer then
        match answer.bind (fun a => pcSetRemoteDescription a c) with
        | some c1 => setPc p c1 s
        | none => s
      else s
    | none => s
  | none => s

/-- The function `handleIceCandidate`. -/
def handleIceCandidate (senderId : UserId) (candidate : Option Nat) (s : State) : State :=
  match (regGet s.participants senderId).bind (fun e => e.pc), candidate with
  | some p, some cand =>
    match s.pcs[p]? with
    | some c =>
      if c.signalingState ≠ .closed then
        match pcAddIceCandidate cand c with
        | some c1 => setPc p c1 s
        | none => s
      else s
    | none => s
  | _, _ => s

/-- The handler `pc.ontrack` of the connection created for `remoteUserId`. -/
def onTrack (remoteUserId : UserId) (track : Nat) (s : State) : State :=
  match regGet s.participants remoteUserId with
  | none => s
  | some existingParticipant =>
    let stream := existingParticipant.stream.getD []
    let updatedStream := if stream.contains track then stream else stream ++ [track]
    let entry : Participant := { existingParticipant with stream := some updatedStream }
    { s with participants := regSet s.participants remoteUserId entry }

/-- The handler `pc.onicecandidate` of the connection created for `remoteUserId`. -/
def onIceCandidate (self : UserId) (remoteUserId : UserId) (candidate : Option Nat)
    (s : State) : State :=
  match candidate with
  | some cand =>
    whisperIfJoined
      { kind := .candidate, senderId := self, recipientId := remoteUserId,
        payload := .candidate cand } s
  | none => s

/-! ## Presence channel handlers -/

/-- The `forEach` of the `here` handler: the state and `initialParticipantsSetup`. -/
def hereLoop (P : Platform) (self : UserId) : List User → State → Registry → State × Registry
  | [], s, setup => (s, setup)
  | user :: users, s, setup =>
    if user.id ≠ self then
      match createPeerConnection P user.id s.acquiredStream s with
      | (s1, some pc) =>
        hereLoop P self users (sendOffer P self (some pc) user.id s1)
          (regSet setup user.id
            { id := user.id, name := displayName user, pc := some pc, stream := none })
      | (s1, none) => hereLoop P self users s1 setup
    else hereLoop P self users s setup

/-- The handler passed to `channel.here`. -/
def onHere (P : Platform) (self : UserId) (users : List User) (s : State) : State :=
  if !s.isEffectActive || s.acquiredStream.isNone then s
  else
    let r := hereLoop P self users s []
    setIsConnecting false { r.1 with participants := regMerge r.1.participants r.2 }

/-- The handler passed to `channel.joining`. -/
def onJoining (P : Platform) (self : UserId) (user : User) (s : State) : State :=
  if !s.isEffectActive || s.acquiredStream.isNone || user.id = self then s
  else
    match (regGet s.participants user.id).bind (fun e => e.pc) with
    | some _ => s
    | none =>
      match createPeerConnection P user.id s.acquiredStream s with
      | (s1, some pc) =>
        let entry : Participant :=
          { id := user.id, name := displayName user, pc := some pc, stream := none }
        { s1 with participants := regSet s1.participants user.id entry }
      | (s1, none) => s1

/-- The handler passed to `channel.leaving`.  When `pc.close()` throws, the
updater and the rest of the handler are abandoned. -/
def onLeaving (P : Platform) (self : UserId) (user : User) (s : State) : State :=
  if !s.isEffectActive || user.id = self then s
  else
    let r : State × Bool :=
      match (regGet s.participants user.id).bind (fun e => e.pc) with
      | some p => closePc P p s
      | none => (s, false)
    if r.2 then r.1
    else
      { r.1 with participants := regErase r.1.participants user.id,
                 participantVideoRefs := r.1.participantVideoRefs.filter (fun k => k ≠ user.id) }

/-- The field `p.offer` or `p.answer` of a received whisper. -/
def Whisper.sdpField (w : Whisper) : Option Sdp :=
  match w.payload with
  | .sdp d => d
  | .candidate _ => none

/-- The field `p.candidate` of a received whisper. -/
def Whisper.candidateField (w : Whisper) : Option Nat :=
  match w.payload with
  | .sdp _ => none
  | .candidate c => some c

/-- The three callbacks passed to `channel.listenForWhisper`. -/
def onWhisper (P : Platform) (self : UserId) (w : Whisper) (s : State) : State :=
  if s.isEffectActive && decide (w.senderId ≠ self) then
    match w.kind with
    | .offer => handleOffer P w.senderId w.sdpField s.acquiredStream s
    | .answer => handleAnswer w.senderId w.sdpField s
    | .candidate => handleIceCandidate w.senderId w.candidateField s
  else s

/-- The callback passed to `channel.error`. -/
def onChannelError (s : State) : State :=
  if s.isEffectActive then
    setMediaError (some { name := "ChannelError", message := "Connection to meeting server failed." }) s
  else s

/-! ## Mute toggles -/

/-- The loop `tracks.forEach(track => { track.enabled = b })`. -/
def setEnabled (b : Bool) : List TrackId → State → State
  | [], s => s
  | t :: ts, s =>
    setEnabled b ts { s with tracks := modifyAt s.tracks t (fun tr => { tr with enabled := b }) }

/-- The function `toggleAudio`. -/
def toggleAudio (s : State) : State :=
  match s.localStream with
  | none => s
  | some stream =>
    let audioTracks := getAudioTracks s stream
    if audioTracks.length = 0 then s
    else
      let shouldEnable := s.isAudioMuted
      setIsAudioMuted (!shouldEnable) (setEnabled shouldEnable audioTracks s)

/-- The function `toggleVideo`. -/
def toggleVideo (s : State) : State :=
  match s.localStream with
  | none => s
  | some stream =>
    let videoTracks := getVideoTracks s stream
    if videoTracks.length = 0 then s
    else
      let shouldEnable := s.isVideoMuted
      setIsVideoMuted (!shouldEnable) (setEnabled shouldEnable videoTracks s)

/-! ## The main effect -/

/-- The values of `useState` and `useRef` at mount, with empty object stores. -/
def State.mounted : State :=
  { isConnecting := true, mediaError := none, localStream := none, participants := [],
    isAudioMuted := false, isVideoMuted := false, showResumeGenerator := false,
    presenceChannel := false, participantVideoRefs := [], mediaRecorderRef := none,
    recordedChunks := [], isCleanupScheduled := false, isEffectActive := false,
    acquiredStream := none, closureParticipants := [], tracks := [], pcs := [],
    recorders := [], whisperListeners := [], subscribed := false, guardTimers := 0,
    pendingOffers := [], pendingUpdaters := [], log := [] }

/-- Whether `meeting?.id` is truthy. -/
def hasMeetingId (props : Props) : Bool :=
  match props.meetingId with
  | some id => decide (id ≠ "")
  | none => false

/-- The body of the main effect up to the call of `getUserMedia`; the flag
says whether the media devices were requested. -/
def effectInit (props : Props) (currentUser : Option UserId) (s : State) : State × Bool :=
  let s0 := { s with isEffectActive := true }
  if !props.visible then (s0, false)
  else
    let s1 := setShowResumeGenerator false (setMediaError none (setIsConnecting true s0))
    let s2 := { s1 with isCleanupScheduled := false, participants := [], localStream := none }
    if !props.echo || currentUser.isNone || !hasMeetingId props then
      let s3 := setMediaError
        (some { name := "ConfigError", message := "Missing required configuration or user data." })
        (setIsConnecting false s2)
      ({ s3 with isEffectActive := false }, false)
    else
      let s3 : State := { s2 with acquiredStream := none, closureParticipants := s.participants }
      (s3.emit .getUserMedia, true)

/-- The cleanup function returned by the main effect. -/
def effectCleanup (s : State) : State :=
  { s with isEffectActive := false }

/-- The `then` callback of `getUserMedia`: the browser hands over a stream of
new tracks. -/
def onMediaResolved (P : Platform) (props : Props) (newTracks : List Track) (s : State) :
    State :=
  let stream : MediaStream := List.range' s.tracks.length newTracks.length
  let s0 := { s with tracks := s.tracks ++ newTracks }
  if !s0.isEffectActive then (stopTracks P stream s0).1
  else
    let s1 := setMediaError none { s0 with acquiredStream := some stream, localStream := some stream }
    let s2 := startRecording P (some stream) s1
    if P.joinThrows then
      setMediaError
        (some { name := "ChannelJoinError", message := "Could not connect to the meeting channel." })
        (setIsConnecting false s2)
    else
      let s3 : State :=
        { s2 with presenceChannel := true, subscribed := true,
                  whisperListeners := s2.whisperListeners ++ [.offer, .answer, .candidate] }
      s3.emit (.join (meetingChannelName props))

/-- The `catch` callback of `getUserMedia`. -/
def onMediaRejected (error : MediaError) (s : State) : State :=
  if !s.isEffectActive then s
  else
    let s1 := setMediaError (some { name := error.name, message := error.message }) s
    setIsConnecting false { s1 with localStream := none }

/-! ## Events of a session -/

/-- What can happen to a mounted component once its effect has run. -/
inductive Event where
  | mediaResolved (newTracks : List Track)
  | mediaRejected (error : MediaError)
  | here (users : List User)
  | joining (user : User)
  | leaving (user : User)
  | whisper (w : Whisper)
  | channelError
  | remoteTrack (p : PcId) (track : Nat)
  | iceCandidate (p : PcId) (candidate : Option Nat)
  | recorderData (r : RecorderId) (size : Nat)
  | recorderStop (r : RecorderId)
  | recorderError (r : RecorderId)
  | toggleAudio
  | toggleVideo
  | stop
  | offerTimer
  | guardTimer
deriving DecidableEq, Repr

/-- A connection fires `track`: its `ontrack` handler runs if still attached. -/
def pcTrackEvent (p : PcId) (track : Nat) (s : State) : State :=
  match s.pcs[p]? with
  | some c =>
    if c.ontrack && decide (c.signalingState ≠ .closed) then onTrack c.remoteUserId track s else s
  | none => s

/-- A connection fires `icecandidate`: its handler runs if still attached. -/
def pcIceEvent (self : UserId) (p : PcId) (candidate : Option Nat) (s : State) : State :=
  match s.pcs[p]? with
  | some c =>
    if c.onicecandidate && decide (c.signalingState ≠ .closed) then
      onIceCandidate self c.remoteUserId candidate s
    else s
  | none => s

/-- One event.  Channel events are delivered while the channel is subscribed,
whispers while their listener is registered. -/
def step (P : Platform) (props : Props) (self : UserId) (e : Event) (s : State) : State :=
  match e with
  | .mediaResolved newTracks => onMediaResolved P props newTracks s
  | .mediaRejected error => onMediaRejected error s
  | .here users => if s.subscribed then onHere P self users s else s
  | .joining user => if s.subscribed then onJoining P self user s else s
  | .leaving user => if s.subscribed then onLeaving P self user s else s
  | .whisper w =>
    if s.subscribed && s.whisperListeners.contains w.kind then onWhisper P self w s else s
  | .channelError => if s.subscribed then onChannelError s else s
  | .remoteTrack p track => pcTrackEvent p track s
  | .iceCandidate p candidate => pcIceEvent self p candidate s
  | .recorderData r size => recorderDataEvent r size s
  | .recorderStop r => recorderStopEvent P props r s
  | .recorderError r => recorderErrorEvent P props r s
  | .toggleAudio => toggleAudio s
  | .toggleVideo => toggleVideo s
  | .stop => (handleLeaveCall P props s).1
  | .offerTimer => offerTimerFires P self s
  | .guardTimer => guardTimerFires s

/-- A sequence of events, oldest first. -/
def run (P : Platform) (props : Props) (self : UserId) : List Event → State → State
  | [], s => s
  | e :: es, s => run P props self es (step P props self e s)

/-! ## Concrete platforms and sessions -/

/-- A browser in which no call throws and every MIME type is supported. -/
def Platform.nominal : Platform :=
  { isTypeSupported := fun _ => true, now := 0,
    offerSdp := fun p => p, answerSdp := fun p => p,
    recorderStopThrows := false, blobThrows := false,
    trackStopThrows := fun _ => false, pcCloseThrows := fun _ => false,
    stopListeningThrows := fun _ => false, leaveThrows := false,
    pcCtorThrows := fun _ => false, addTrackThrows := fun _ => false,
    recorderCtorThrows := false, recorderStartThrows := false, joinThrows := false }

/-- Props of a visible call of meeting `m1`. -/
def demoProps : Props :=
  { visible := true, meetingId := some "m1", echo := true }

/-- A microphone track and a camera track as `getUserMedia` delivers them. -/
def demoTracks : List Track :=
  [{ kind := .audio, enabled := true, ended := false },
   { kind := .video, enabled := true, ended := false }]

/-- The session of user `me` right after the media was acquired: recorder
running, channel joined, nobody in the registry. -/
def sessionStart : State :=
  onMediaResolved Platform.nominal demoProps demoTracks
    (effectInit demoProps (some "me") State.mounted).1

/-- The part of the log written between state `s` and a later state `s1`. -/
def newLog (s s1 : State) : List Effect :=
  s1.log.drop s.log.length

/-- The step of `cleanupConnections` an effect belongs to (1 to 5); 0 for
whispers and for the calls that start a session, 6 for the parent's `onClose`. -/
def teardownPhase : Effect → Nat
  | .recorderStop _ => 1
  | .download _ _ _ => 1
  | .ui (.showResumeGenerator _) => 1
  | .trackStop _ => 2
  | .pcDetach _ _ => 3
  | .pcClose _ => 3
  | .stopListening _ => 4
  | .leave _ => 4
  | .ui _ => 5
  | .whisper _ => 0
  | .onClose => 6
  | .getUserMedia => 0
  | .join _ => 0

/-- The track store after `track.stop()` on each of `ts`. -/
def stopAll (ts : List TrackId) (tracks : List Track) : List Track :=
  ts.foldl (fun acc t => modifyAt acc t Track.stopped) tracks

/-- A connection after step 3 of teardown: four handlers detached, then closed. -/
def PeerConn.shut (c : PeerConn) : PeerConn :=
  ((((c.detach .onicecandidate).detach .ontrack).detach .oniceconnectionstatechange).detach
    .onconnectionstatechange).close

/-- The connection store after step 3 of teardown ran over the connections `ps`. -/
def shutAll (ps : List PcId) (pcs : List PeerConn) : List PeerConn :=
  ps.foldl (fun acc p => modifyAt acc p PeerConn.shut) pcs

/-- The calls step 3 of teardown makes on one connection. -/
def closeEffects (p : PcId) : List Effect :=
  [.pcDetach p .onicecandidate, .pcDetach p .ontrack, .pcDetach p .oniceconnectionstatechange,
   .pcDetach p .onconnectionstatechange, .pcClose p]

/-- The connections of the registry entries, in the order of `Object.values`. -/
def connsOf (r : Registry) : List PcId :=
  (regValues r).filterMap (fun q => q.pc)

/-- The calls step 4 of teardown makes when the channel reference is set. -/
def channelEffects (props : Props) (s : State) : List Effect :=
  if s.presenceChannel then
    [.stopListening .offer, .stopListening .answer, .stopListening .candidate] ++
      (if props.echo then [.leave (meetingChannelName props)] else [])
  else []

/-- The calls of step 5 of teardown. -/
def resetEffects : List Effect :=
  [.ui (.isConnecting true), .ui (.mediaError none), .ui (.isAudioMuted false),
   .ui (.isVideoMuted false)]

/-- The session of `sessionStart` after an empty `here` snapshot: active,
nobody else in the call. -/
def activeSession : State :=
  run Platform.nominal demoProps "me" [.here []] sessionStart

/-- The session of `sessionStart` after a `here` snapshot listing `bob`: one
registry entry, one connection with a pending local offer. -/
def callWithBob : State :=
  run Platform.nominal demoProps "me" [.here [{ id := "bob", name := some "Bob" }]] sessionStart

/-- The session of `activeSession` after `stop()`: the guard flag is set. -/
def stoppedSession : State :=
  (cleanupConnections Platform.nominal demoProps activeSession).1

/-- A browser in which `echo.leave` throws. -/
def leaveThrowsPlatform : Platform :=
  { Platform.nominal with leaveThrows := true }

/-- A browser in which `MediaRecorder.stop` throws. -/
def recorderStopThrowsPlatform : Platform :=
  { Platform.nominal with recorderStopThrows := true }

/-- The chunk lists of the download artifacts recorded in a log. -/
def downloads (log : List Effect) : List (List Nat) :=
  log.filterMap (fun e =>
    match e with
    | .download chunks _ _ => some chunks
    | _ => none)

/-- The connection of participant `id` in the registry, `prev[id]?.pc`. -/
def connOf (r : Registry) (id : UserId) : Option PcId :=
  (regGet r id).bind (fun e => e.pc)

/-- Whether some connection created for `id` is in the store and not closed. -/
def hasLiveConn (s : State) (id : UserId) : Bool :=
  s.pcs.any (fun c => decide (c.remoteUserId = id) && decide (c.signalingState ≠ .closed))

/-- Whether an effect is an offer whisper addressed to `id`. -/
def isOfferTo (id : UserId) (e : Effect) : Bool :=
  match e with
  | .whisper w => decide (w.kind = .offer) && decide (w.recipientId = id)
  | _ => false

/-- Whether an effect is a whisper. -/
def isWhisper (e : Effect) : Bool :=
  match e with
  | .whisper _ => true
  | _ => false

/-- An answer whisper from `bob` carrying an SDP answer. -/
def bobAnswer : Option Sdp :=
  some { type := .answer, sdp := 42 }

/-- The connection `sendOffer` leaves behind for a member just set up by the
`here` handler: the new connection with its offer as local description. -/
def offeredConn (P : Platform) (p : PcId) (remoteUserId : UserId) (stream : MediaStream) :
    PeerConn :=
  { newConn P remoteUserId stream with
    signalingState := .haveLocalOffer,
    localDescription := some { type := .offer, sdp := P.offerSdp p } }

/-- The whisper `sendOffer` sends for connection `p` to `remoteUserId`. -/
def offerWhisper (P : Platform) (self : UserId) (p : PcId) (remoteUserId : UserId) : Effect :=
  .whisper { kind := .offer, senderId := self, recipientId := remoteUserId,
             payload := .sdp (some { type := .offer, sdp := P.offerSdp p }) }

/-- The registry entry the `here` and `joining` handlers write for a member. -/
def memberEntry (user : User) (p : PcId) : Participant :=
  { id := user.id, name := displayName user, pc := some p, stream := none }

/-- An offer whisper from the local user `me` to `bob`, as the channel would
echo it. -/
def echoedOffer : Whisper :=
  { kind := .offer, senderId := "me", recipientId := "bob",
    payload := .sdp (some { type := .offer, sdp := 7 }) }

/-- The session `callWithBob` after a remote audio track 11 of `bob` arrived. -/
def callWithBobTrack : State :=
  onTrack "bob" 11 callWithBob

/-- The tracks of a remote stream after the `ontrack` handler saw `track`:
the stream is created when absent, the track added unless already there. -/
def withTrack (stream : Option (List Nat)) (track : Nat) : List Nat :=
  if (stream.getD []).contains track then stream.getD [] else stream.getD [] ++ [track]

/-- The entry `{ ...existingParticipant, stream: updatedStream }`. -/
def Participant.withStream (e : Participant) (st : List Nat) : Participant :=
  { e with stream := some st }

/-- A track after `track.enabled = b`. -/
def Track.withEnabled (b : Bool) (tr : Track) : Track :=
  { tr with enabled := b }

/-- The track store after `track.enabled = b` on each of `ts`. -/
def enableAll (b : Bool) (ts : List TrackId) (tracks : List Track) : List Track :=
  ts.foldl (fun acc t => modifyAt acc t (Track.withEnabled b)) tracks

/-- The toggle of one kind: `toggleAudio` or `toggleVideo`. -/
def toggled (k : TrackKind) (s : State) : State :=
  match k with
  | .audio => toggleAudio s
  | .video => toggleVideo s

/-- The muted flag of one kind: `isAudioMuted` or `isVideoMuted`. -/
def mutedFlag (k : TrackKind) (s : State) : Bool :=
  match k with
  | .audio => s.isAudioMuted
  | .video => s.isVideoMuted

/-- The tracks of one kind: `getAudioTracks()` or `getVideoTracks()`. -/
def tracksOfKind (k : TrackKind) (s : State) (stream : MediaStream) : List TrackId :=
  match k with
  | .audio => getAudioTracks s stream
  | .video => getVideoTracks s stream

/-- The session `sessionStart` after the microphone was muted. -/
def mutedSession : State :=
  toggleAudio sessionStart

/-- A whisper from `bob` whose payload cannot be applied: an SDP answer sent
as an offer. -/
def badOffer : Whisper :=
  { kind := .offer, senderId := "bob", recipientId := "me",
    payload := .sdp (some { type := .answer, sdp := 9 }) }

/-- The session `callWithBob` after `carol` joined: two registry entries. -/
def callWithBobAndCarol : State :=
  onJoining Platform.nominal "me" { id := "carol", name := some "Carol" } callWithBob

/-- A connection after an offer `o` was applied and answered on it. -/
def answered (P : Platform) (p : PcId) (o : Sdp) (c : PeerConn) : PeerConn :=
  { c with signalingState := .stable, remoteDescription := some o,
           localDescription := some { type := .answer, sdp := P.answerSdp p } }

/-- The answer whisper for the offer handled on connection `p`. -/
def answerWhisper (P : Platform) (self : UserId) (p : PcId) (senderId : UserId) : Effect :=
  .whisper { kind := .answer, senderId := self, recipientId := senderId,
             payload := .sdp (some { type := .answer, sdp := P.answerSdp p }) }

/-- The registry entry `handleOffer` writes for a sender it did not know. -/
def offerEntry (senderId : UserId) (p : PcId) : Participant :=
  { id := senderId, name := defaultName senderId, pc := some p, stream := none }

/-- An SDP offer as `carol` would send it. -/
def carolOffer : Sdp :=
  { type := .offer, sdp := 77 }

/-- The whispers a node sent between two of its states that are addressed to
`recipient` (point-to-point delivery). -/
def outbox (s s1 : State) (recipient : UserId) : List Whisper :=
  (newLog s s1).filterMap (fun e =>
    match e with
    | .whisper w => if w.recipientId = recipient then some w else none
    | _ => none)

/-- A node receives whispers in order; after each, the `setTimeout` callback
that an offer queued runs. -/
def receive (P : Platform) (props : Props) (self : UserId) (ws : List Whisper) (s : State) :
    State :=
  ws.foldl (fun acc w => run P props self [.whisper w, .offerTimer] acc) s

/-- Member A of the mesh scenario. -/
def userA : User :=
  { id := "A", name := some "Ann" }

/-- Member B of the mesh scenario. -/
def userB : User :=
  { id := "B", name := some "Ben" }

/-- Member C of the mesh scenario. -/
def userC : User :=
  { id := "C", name := some "Cy" }

/-- The two-party part of the mesh scenario: A alone, B joins and offers, A
answers.  Every node starts from `sessionStart` (media acquired, channel
joined) and runs the handlers with its own id.  The states of A and B at the
end. -/
def pairScenario : State × State :=
  let a1 := run Platform.nominal demoProps "A" [.here [userA], .joining userB] sessionStart
  let b1 := run Platform.nominal demoProps "B" [.here [userA, userB]] sessionStart
  let a2 := receive Platform.nominal demoProps "A" (outbox sessionStart b1 "A") a1
  let b2 := receive Platform.nominal demoProps "B" (outbox a1 a2 "B") b1
  (a2, b2)

/-- The three-party mesh scenario, continuing `pairScenario`: C joins, A and B
prepare a connection, C offers to both, both answer.  The states of A, B and C
at the end. -/
def meshScenario : State × State × State :=
  let a2 := pairScenario.1
  let b2 := pairScenario.2
  let a3 := run Platform.nominal demoProps "A" [.joining userC] a2
  let b3 := run Platform.nominal demoProps "B" [.joining userC] b2
  let c1 := run Platform.nominal demoProps "C" [.here [userA, userB, userC]] sessionStart
  let a4 := receive Platform.nominal demoProps "A" (outbox sessionStart c1 "A") a3
  let b4 := receive Platform.nominal demoProps "B" (outbox sessionStart c1 "B") b3
  let c2 := receive Platform.nominal demoProps "C" (outbox a3 a4 "C") c1
  let c3 := receive Platform.nominal demoProps "C" (outbox b3 b4 "C") c2
  (a4, b4, c3)

/-- The registry keys of a node with the signaling state of each entry's
connection. -/
def meshView (s : State) : List (UserId × Option SignalingState) :=
  s.participants.map (fun e =>
    (e.1, (e.2.pc.bind (fun p => s.pcs[p]?)).map (fun c => c.signalingState)))

/-- Whether every connection of the store has both descriptions set. -/
def allNegotiated (s : State) : Bool :=
  s.pcs.all (fun c => c.localDescription.isSome && c.remoteDescription.isSome)

/-! ## The effect's life cycle and handler frames -/

/-- A dependency of the main effect changed (`visible`, the user, the
meeting): React runs the cleanup function of the previous run, then the effect
again with the new props. -/
def effectRerun (props : Props) (currentUser : Option UserId) (s : State) : State × Bool :=
  effectInit props currentUser (effectCleanup s)

/-- React runs a queued updater: the body of the function, on the current
state. -/
def runUpdater (P : Platform) (u : Updater) (s : State) : State × Bool :=
  match u with
  | .localStream => cleanupLocalStream P s
  | .participants => cleanupParticipants P s

/-- React runs queued updaters in turn; one that throws fails the render, and
the updaters after it are not run. -/
def runUpdaters (P : Platform) : List Updater → State → State
  | [], s => s
  | u :: us, s =>
    let r := runUpdater P u s
    if r.2 then r.1 else runUpdaters P us r.1

/-- React renders the mounted component after an event: the queued updaters
run, those of `localStream` before those of `participants` (the order of the
`useState` calls). -/
def render (P : Platform) (s : State) : State :=
  runUpdaters P
    (s.pendingUpdaters.filter (fun u => u = .localStream) ++
      s.pendingUpdaters.filter (fun u => u = .participants))
    { s with pendingUpdaters := [] }

/-- React unmounts the component (the parent no longer renders it): the
cleanup function of the effect runs, the queued updaters are dropped. -/
def unmount (s : State) : State :=
  { effectCleanup s with pendingUpdaters := [] }

/-- The calls a handler other than the media callback may make: no media
request, no channel join, and a download carries the MIME type and the file
name that `downloadRecording` computes. -/
def handlerEffect (P : Platform) (props : Props) (e : Effect) : Bool :=
  match e with
  | .getUserMedia => false
  | .join _ => false
  | .download _ m f => decide (m = downloadMimeType P) && decide (f = downloadFilename P props)
  | _ => true

/-- What the handlers other than the media callback have in common: between
`s` and `s1` no recorder was created, no channel was subscribed to, and the
calls made are those of `handlerEffect`. -/
def Quiet (P : Platform) (props : Props) (s s1 : State) : Prop :=
  s1.recorders.length = s.recorders.length ∧
  (s1.subscribed = true → s.subscribed = true) ∧
  (s1.presenceChannel = true → s.presenceChannel = true) ∧
  ∃ l, s1.log = s.log ++ l ∧ ∀ e ∈ l, handlerEffect P props e = true

/-- A `Quiet` transition that also leaves the teardown guard flag as it was. -/
def Still (P : Platform) (props : Props) (s s1 : State) : Prop :=
  Quiet P props s s1 ∧ s1.isCleanupScheduled = s.isCleanupScheduled

/-- The session of user `me` right after the effect ran for a visible call:
the media devices are requested, the promise is pending. -/
def startingSession : State :=
  (effectInit demoProps (some "me") State.mounted).1

/-- The error of `getUserMedia` when the user denies the permission. -/
def permissionDenied : MediaError :=
  { name := "NotAllowedError", message := "Permission denied" }

/-- A state with the tracks of `demoTracks` in the store, nothing recorded and
no recorder. -/
def tracksOnly : State :=
  { State.mounted with tracks := demoTracks }

/-- What steps 2 to 5 of `cleanupConnections` and the parent's `onClose` leave
alone: the recording buffer, the recorders, the recorder reference, the
post-call summary flag and the effect flag; none of their calls belongs to
step 1. -/
def PastRecording (s s1 : State) : Prop :=
  s1.recordedChunks = s.recordedChunks ∧ s1.recorders = s.recorders ∧
  s1.mediaRecorderRef = s.mediaRecorderRef ∧
  s1.showResumeGenerator = s.showResumeGenerator ∧
  s1.isEffectActive = s.isEffectActive ∧
  ∃ l, s1.log = s.log ++ l ∧ ∀ e ∈ l, 2 ≤ teardownPhase e

/-- The session of a user whose camera is the only device: no audio track, so
no recorder was started. -/
def cameraOnlySession : State :=
  run Platform.nominal demoProps "me"
    [.mediaResolved [{ kind := .video, enabled := true, ended := false }], .here []]
    startingSession

/-- Whether a MIME type is an `audio/ogg` type: `mimeType.startsWith('audio/ogg')`. -/
def isOggType (mimeType : String) : Bool :=
  "audio/ogg".data.isPrefixOf mimeType.data

/-- A browser that records Ogg only, at a later time of day. -/
def oggPlatform : Platform :=
  { Platform.nominal with
    isTypeSupported := fun t => t == "audio/ogg;codecs=opus" || t == "audio/ogg",
    now := 1700000000000 }

/-- A session on `oggPlatform` that recorded one chunk and was stopped; the
recorder's `stop` event is still to come. -/
def oggStopped : State :=
  run oggPlatform demoProps "me" [.mediaResolved demoTracks, .recorderData 0 5, .stop]
    startingSession

/-- The props of the call of meeting `m1` while its view is hidden. -/
def hiddenProps : Props :=
  { demoProps with visible := false }

/-- The session `activeSession` after the user left the call (`stop()` and the
parent's `onClose`), the view then hidden by the parent: the guard flag is
set and its cooldown timer is pending. -/
def leftSession : State :=
  (effectRerun hiddenProps (some "me")
    (run Platform.nominal demoProps "me" [.stop] activeSession)).1

/-- The session `startingSession` after the parent hid the view while the
media request was pending: the cleanup of the effect ran, then the effect ran
again with `visible` false. -/
def closedWhilePending : State :=
  (effectRerun hiddenProps (some "me") startingSession).1

/-- The session `startingSession` after the component was unmounted while the
media request was pending: only the cleanup of the effect ran. -/
def unmountedWhilePending : State :=
  effectCleanup startingSession

/-- Whether the muted flag of kind `k` agrees with the local stream: each
track of that kind is disabled exactly when the flag is set.  Holds when there
is no local stream. -/
def muteConsistent (k : TrackKind) (s : State) : Bool :=
  match s.localStream with
  | none => true
  | some stream =>
    (tracksOfKind k s stream).all (fun t =>
      match s.tracks[t]? with
      | some tr => tr.enabled == !mutedFlag k s
      | none => true)

/-- The session `mutedSession` (microphone muted) after the parent hid the
view and showed it again, and the media devices delivered the new stream. -/
def reopenedMuted : State :=
  onMediaResolved Platform.nominal demoProps demoTracks
    (effectRerun demoProps (some "me")
      (effectRerun hiddenProps (some "me") mutedSession).1).1

/-- The session `mutedSession` after the user left the call with `stop()`, the
view was hidden and shown again, and the media devices delivered the new
stream. -/
def reopenedAfterStop : State :=
  onMediaResolved Platform.nominal demoProps demoTracks
    (effectRerun demoProps (some "me")
      (effectRerun hiddenProps (some "me")
        (run Platform.nominal demoProps "me" [.stop] mutedSession)).1).1

/-- The call with `bob` after the user pressed Leave: `handleLeaveCall` has
returned (`stop()`, then the parent's `onClose`), React has not rendered yet. -/
def leftCallWithBob : State :=
  (handleLeaveCall Platform.nominal demoProps callWithBob).1

/-- The call with `bob` after the user pressed Leave on a browser where
`MediaRecorder.stop` throws; React has not rendered yet. -/
def leftCallRecorderThrows : State :=
  (handleLeaveCall recorderStopThrowsPlatform demoProps callWithBob).1

/-- What is seen of each connection of the store: its signaling state and
whether each of the four handlers is attached. -/
def connView (s : State) : List (SignalingState × Bool × Bool × Bool × Bool) :=
  s.pcs.map (fun c => (c.signalingState, c.onicecandidate, c.ontrack,
    c.oniceconnectionstatechange, c.onconnectionstatechange))

/-! ## Theorems -/

theorem newLog_of_append {s s1 : State} {l : List Effect} (h : s1.log = s.log ++ l) :
    newLog s s1 = l := by
  simp [newLog, h]

theorem stopTrack_shape (t : TrackId) (s : State) :
    ∃ X, stopTrack t s = { s with tracks := X, log := s.log ++ [.trackStop t] } := by
  exact ⟨_, rfl⟩

theorem stopTracks_shape (P : Platform) (ts : List TrackId) (s : State) :
    ∃ X l, (stopTracks P ts s).1 = { s with tracks := X, log := s.log ++ l } ∧
      ∀ e ∈ l, teardownPhase e = 2 := by
  induction ts generalizing s with
  | nil => exact ⟨s.tracks, [], by simp [stopTracks], by simp⟩
  | cons t ts ih =>
    unfold stopTracks
    cases ht : P.trackStopThrows t with
    | true => exact ⟨s.tracks, [], by simp, by simp⟩
    | false =>
      obtain ⟨X0, h0⟩ := stopTrack_shape t s
      obtain ⟨X, l, h1, h2⟩ := ih (stopTrack t s)
      refine ⟨X, .trackStop t :: l, ?_, ?_⟩
      · simp only [Bool.false_eq_true, ↓reduceIte]
        rw [h1, h0]
        simp
      · intro e he
        rcases List.mem_cons.mp he with rfl | he
        · rfl
        · exact h2 e he

theorem cleanupLocalStream_shape (P : Platform) (s : State) :
    ∃ X Y l, (cleanupLocalStream P s).1 =
        { s with localStream := X, tracks := Y, log := s.log ++ l } ∧
      ∀ e ∈ l, teardownPhase e = 2 := by
  unfold cleanupLocalStream
  cases hs : s.localStream with
  | none => exact ⟨none, s.tracks, [], by simp [hs], by simp⟩
  | some stream =>
    obtain ⟨X, l, h1, h2⟩ := stopTracks_shape P stream s
    cases hthrow : (stopTracks P stream s).2 with
    | true =>
      refine ⟨some stream, X, l, ?_, h2⟩
      simp only [hthrow, ↓reduceIte]
      rw [h1, hs]
    | false =>
      refine ⟨none, X, l, ?_, h2⟩
      simp only [hthrow, Bool.false_eq_true, ↓reduceIte]
      rw [h1]

theorem detachHandler_shape (p : PcId) (h : PcHandler) (s : State) :
    ∃ X, detachHandler p h s = { s with pcs := X, log := s.log ++ [.pcDetach p h] } := by
  exact ⟨_, rfl⟩

theorem closePc_shape (P : Platform) (p : PcId) (s : State) :
    ∃ X l, (closePc P p s).1 = { s with pcs := X, log := s.log ++ l } ∧
      ∀ e ∈ l, teardownPhase e = 3 := by
  unfold closePc
  cases ht : P.pcCloseThrows p with
  | true => exact ⟨s.pcs, [], by simp, by simp⟩
  | false => exact ⟨_, [.pcClose p], by simp [State.emit]; rfl, by simp [teardownPhase]⟩

theorem detachAndClose_shape (P : Platform) (p : PcId) (s : State) :
    ∃ X l, (detachAndClose P p s).1 = { s with pcs := X, log := s.log ++ l } ∧
      ∀ e ∈ l, teardownPhase e = 3 := by
  unfold detachAndClose
  obtain ⟨X1, h1⟩ := detachHandler_shape p .onicecandidate s
  obtain ⟨X2, h2⟩ := detachHandler_shape p .ontrack (detachHandler p .onicecandidate s)
  obtain ⟨X3, h3⟩ := detachHandler_shape p .oniceconnectionstatechange
    (detachHandler p .ontrack (detachHandler p .onicecandidate s))
  obtain ⟨X4, h4⟩ := detachHandler_shape p .onconnectionstatechange
    (detachHandler p .oniceconnectionstatechange
      (detachHandler p .ontrack (detachHandler p .onicecandidate s)))
  obtain ⟨X, l, h5, h6⟩ := closePc_shape P p
    (detachHandler p .onconnectionstatechange
      (detachHandler p .oniceconnectionstatechange
        (detachHandler p .ontrack (detachHandler p .onicecandidate s))))
  refine ⟨X, [.pcDetach p .onicecandidate, .pcDetach p .ontrack,
    .pcDetach p .oniceconnectionstatechange, .pcDetach p .onconnectionstatechange] ++ l, ?_, ?_⟩
  · rw [h5, h4, h3, h2, h1]
    simp
  · intro e he
    rcases List.mem_append.mp he with he | he
    · simp at he
      rcases he with rfl | rfl | rfl | rfl <;> rfl
    · exact h6 e he

theorem closeParticipants_shape (P : Platform) (qs : List Participant) (s : State) :
    ∃ X l, (closeParticipants P qs s).1 = { s with pcs := X, log := s.log ++ l } ∧
      ∀ e ∈ l, teardownPhase e = 3 := by
  induction qs generalizing s with
  | nil => exact ⟨s.pcs, [], by simp [closeParticipants], by simp⟩
  | cons q qs ih =>
    unfold closeParticipants
    cases hq : q.pc with
    | none => simpa using ih s
    | some p =>
      obtain ⟨X1, l1, h1, h2⟩ := detachAndClose_shape P p s
      cases hthrow : (detachAndClose P p s).2 with
      | true =>
        refine ⟨X1, l1, ?_, h2⟩
        simp only [hthrow, ↓reduceIte]
        exact h1
      | false =>
        obtain ⟨X, l, h3, h4⟩ := ih (detachAndClose P p s).1
        refine ⟨X, l1 ++ l, ?_, ?_⟩
        · simp only [hthrow, Bool.false_eq_true, ↓reduceIte]
          rw [h3, h1]
          simp
        · intro e he
          rcases List.mem_append.mp he with he | he
          · exact h2 e he
          · exact h4 e he

theorem cleanupParticipants_shape (P : Platform) (s : State) :
    ∃ R X l, (cleanupParticipants P s).1 =
        { s with participants := R, pcs := X, log := s.log ++ l } ∧
      ∀ e ∈ l, teardownPhase e = 3 := by
  unfold cleanupParticipants
  obtain ⟨X, l, h1, h2⟩ := closeParticipants_shape P (regValues s.participants) s
  cases hthrow : (closeParticipants P (regValues s.participants) s).2 with
  | true =>
    refine ⟨s.participants, X, l, ?_, h2⟩
    simp only [hthrow, ↓reduceIte]
    rw [h1]
  | false =>
    refine ⟨[], X, l, ?_, h2⟩
    simp only [hthrow, Bool.false_eq_true, ↓reduceIte]
    rw [h1]

theorem stopListening_shape (P : Platform) (k : WhisperKind) (s : State) :
    ∃ W l, (stopListeningForWhisper P k s).1 = { s with whisperListeners := W, log := s.log ++ l } ∧
      ∀ e ∈ l, teardownPhase e = 4 := by
  unfold stopListeningForWhisper
  cases ht : P.stopListeningThrows k with
  | true => exact ⟨s.whisperListeners, [], by simp, by simp⟩
  | false => exact ⟨_, [.stopListening k], by simp [State.emit]; rfl, by simp [teardownPhase]⟩

theorem echoLeave_shape (P : Platform) (props : Props) (s : State) :
    ∃ B l, (echoLeave P props s).1 = { s with subscribed := B, log := s.log ++ l } ∧
      ∀ e ∈ l, teardownPhase e = 4 := by
  unfold echoLeave
  cases he : props.echo with
  | false => exact ⟨s.subscribed, [], by simp, by simp⟩
  | true =>
    cases ht : P.leaveThrows with
    | true => exact ⟨s.subscribed, [], by simp, by simp⟩
    | false => exact ⟨false, [.leave (meetingChannelName props)], by simp [State.emit],
        by simp [teardownPhase]⟩

theorem cleanupChannel_shape (P : Platform) (props : Props) (s : State) :
    ∃ C W B l, (cleanupChannel P props s).1 =
        { s with presenceChannel := C, whisperListeners := W, subscribed := B,
                 log := s.log ++ l } ∧
      ∀ e ∈ l, teardownPhase e = 4 := by
  unfold cleanupChannel
  cases hc : s.presenceChannel with
  | false => exact ⟨s.presenceChannel, s.whisperListeners, s.subscribed, [], by simp, by simp⟩
  | true =>
    simp only [↓reduceIte]
    obtain ⟨W1, l1, h1, p1⟩ := stopListening_shape P .offer s
    cases t1 : (stopListeningForWhisper P .offer s).2 with
    | true =>
      refine ⟨s.presenceChannel, W1, s.subscribed, l1, ?_, p1⟩
      simp only [↓reduceIte]
      exact h1
    | false =>
      simp only [Bool.false_eq_true, ↓reduceIte]
      obtain ⟨W2, l2, h2, p2⟩ := stopListening_shape P .answer (stopListeningForWhisper P .offer s).1
      cases t2 : (stopListeningForWhisper P .answer (stopListeningForWhisper P .offer s).1).2 with
      | true =>
        refine ⟨s.presenceChannel, W2, s.subscribed, l1 ++ l2, ?_, ?_⟩
        · simp only [↓reduceIte]
          rw [h2, h1]
          simp
        · intro e he
          rcases List.mem_append.mp he with he | he
          · exact p1 e he
          · exact p2 e he
      | false =>
        simp only [Bool.false_eq_true, ↓reduceIte]
        obtain ⟨W3, l3, h3, p3⟩ := stopListening_shape P .candidate
          (stopListeningForWhisper P .answer (stopListeningForWhisper P .offer s).1).1
        cases t3 : (stopListeningForWhisper P .candidate
            (stopListeningForWhisper P .answer (stopListeningForWhisper P .offer s).1).1).2 with
        | true =>
          refine ⟨s.presenceChannel, W3, s.subscribed, l1 ++ l2 ++ l3, ?_, ?_⟩
          · simp only [↓reduceIte]
            rw [h3, h2, h1]
            simp
          · intro e he
            simp only [List.mem_append] at he
            rcases he with (he | he) | he
            · exact p1 e he
            · exact p2 e he
            · exact p3 e he
        | false =>
          simp only [Bool.false_eq_true, ↓reduceIte]
          obtain ⟨B, l4, h4, p4⟩ := echoLeave_shape P props
            (stopListeningForWhisper P .candidate
              (stopListeningForWhisper P .answer (stopListeningForWhisper P .offer s).1).1).1
          have hp : ∀ e ∈ l1 ++ l2 ++ l3 ++ l4, teardownPhase e = 4 := by
            intro e he
            simp only [List.mem_append] at he
            rcases he with ((he | he) | he) | he
            · exact p1 e he
            · exact p2 e he
            · exact p3 e he
            · exact p4 e he
          cases t4 : (echoLeave P props
              (stopListeningForWhisper P .candidate
                (stopListeningForWhisper P .answer (stopListeningForWhisper P .offer s).1).1).1).2 with
          | true =>
            refine ⟨s.presenceChannel, W3, B, l1 ++ l2 ++ l3 ++ l4, ?_, hp⟩
            simp only [↓reduceIte]
            rw [h4, h3, h2, h1]
            simp
          | false =>
            refine ⟨false, W3, B, l1 ++ l2 ++ l3 ++ l4, ?_, hp⟩
            simp only [Bool.false_eq_true, ↓reduceIte]
            rw [h4, h3, h2, h1]
            simp

theorem downloadRecording_shape (P : Platform) (props : Props) (s : State) :
    ∃ B C l, downloadRecording P props s =
        { s with showResumeGenerator := B, recordedChunks := C, log := s.log ++ l } ∧
      ∀ e ∈ l, teardownPhase e = 1 := by
  unfold downloadRecording
  by_cases h0 : s.recordedChunks.length = 0
  · cases hc : (s.isEffectActive || props.visible) with
    | false => exact ⟨s.showResumeGenerator, s.recordedChunks, [], by simp [h0, hc], by simp⟩
    | true =>
      exact ⟨true, s.recordedChunks, [.ui (.showResumeGenerator true)],
        by simp [h0, hc, setShowResumeGenerator, State.emit], by simp [teardownPhase]⟩
  · cases hc : (s.isEffectActive || props.visible) <;> cases hb : P.blobThrows
    · exact ⟨s.showResumeGenerator, [], [.download _ _ _],
        by simp [h0, hc, hb, State.emit]; exact ⟨rfl, rfl, rfl⟩, by simp [teardownPhase]⟩
    · exact ⟨s.showResumeGenerator, [], [], by simp [h0, hc, hb], by simp⟩
    · exact ⟨true, [], [.download _ _ _, .ui (.showResumeGenerator true)],
        by simp [h0, hc, hb, setShowResumeGenerator, State.emit]; exact ⟨rfl, rfl, rfl⟩,
        by simp [teardownPhase]⟩
    · exact ⟨true, [], [.ui (.showResumeGenerator true)],
        by simp [h0, hc, hb, setShowResumeGenerator, State.emit], by simp [teardownPhase]⟩

theorem setRecorderState_shape (r : RecorderId) (st : RecorderState) (s : State) :
    ∃ X, setRecorderState r st s = { s with recorders := X } := by
  exact ⟨_, rfl⟩

theorem setRecorderHandlers_shape (r : RecorderId) (h : HandlerSrc) (s : State) :
    ∃ X, setRecorderHandlers r h s = { s with recorders := X } := by
  exact ⟨_, rfl⟩

theorem cleanupRecorder_shape (P : Platform) (props : Props) (s : State) :
    ∃ X M B C l, cleanupRecorder P props s =
        { s with recorders := X, mediaRecorderRef := M, showResumeGenerator := B,
                 recordedChunks := C, log := s.log ++ l } ∧
      ∀ e ∈ l, teardownPhase e = 1 := by
  unfold cleanupRecorder
  cases hm : s.mediaRecorderRef with
  | none =>
    obtain ⟨B, C, l, h1, h2⟩ := downloadRecording_shape P props s
    exact ⟨s.recorders, none, B, C, l, by simp only [h1], h2⟩
  | some r =>
    cases hr : isRecording s r with
    | false =>
      exact ⟨s.recorders, none, s.showResumeGenerator, s.recordedChunks, [], by simp [hr],
        by simp⟩
    | true =>
      simp only [hr, ↓reduceIte]
      obtain ⟨X1, h1⟩ := setRecorderHandlers_shape r .cleanup s
      cases ht : P.recorderStopThrows with
      | true =>
        obtain ⟨B, C, l, h2, h3⟩ := downloadRecording_shape P props (setRecorderHandlers r .cleanup s)
        refine ⟨X1, none, B, C, l, ?_, h3⟩
        simp only [↓reduceIte]
        rw [h2, h1]
      | false =>
        obtain ⟨X2, h2⟩ := setRecorderState_shape r .inactive (setRecorderHandlers r .cleanup s)
        refine ⟨X2, some r, s.showResumeGenerator, s.recordedChunks, [.recorderStop r], ?_,
          by simp [teardownPhase]⟩
        simp only [Bool.false_eq_true, ↓reduceIte, State.emit]
        rw [h2, h1]
        simp [hm]

theorem resetUi_shape (s : State) :
    resetUi s =
      { s with isConnecting := true, mediaError := none, isAudioMuted := false,
               isVideoMuted := false, participantVideoRefs := [],
               guardTimers := s.guardTimers + 1,
               log := s.log ++ [.ui (.isConnecting true), .ui (.mediaError none),
                 .ui (.isAudioMuted false), .ui (.isVideoMuted false)] } := by
  simp [resetUi, setIsConnecting, setMediaError, setIsAudioMuted, setIsVideoMuted, State.emit]

theorem enqueueUpdater_shape (u : Updater) (s : State) :
    enqueueUpdater u s = { s with pendingUpdaters := s.pendingUpdaters ++ [u] } :=
  rfl

/-- The call of `setLocalStream` with the updater of step 2, as a chain: a
relation that holds across queuing an updater and across running the updater
holds across the call. -/
theorem setLocalStreamUpdater_rel (P : Platform) (R : State → State → Prop)
    (htrans : ∀ a b c, R a b → R b c → R a c)
    (hq : ∀ u a, R a (enqueueUpdater u a)) (h2 : ∀ a, R a (cleanupLocalStream P a).1)
    (dirty : Bool) (s : State) : R s (setLocalStreamUpdater P dirty s).1 := by
  unfold setLocalStreamUpdater
  cases dirty with
  | true => exact hq _ s
  | false =>
    simp only [Bool.false_eq_true, ↓reduceIte]
    cases t : (cleanupLocalStream P s).2 with
    | true => simp only [↓reduceIte]; exact htrans _ _ _ (h2 s) (hq _ _)
    | false => simp only [Bool.false_eq_true, ↓reduceIte]; exact h2 s

/-- The call of `setParticipants` with the updater of step 3, as a chain. -/
theorem setParticipantsUpdater_rel (P : Platform) (R : State → State → Prop)
    (htrans : ∀ a b c, R a b → R b c → R a c)
    (hq : ∀ u a, R a (enqueueUpdater u a)) (h3 : ∀ a, R a (cleanupParticipants P a).1)
    (dirty : Bool) (s : State) : R s (setParticipantsUpdater P dirty s).1 := by
  unfold setParticipantsUpdater
  cases dirty with
  | true => exact hq _ s
  | false =>
    simp only [Bool.false_eq_true, ↓reduceIte]
    cases t : (cleanupParticipants P s).2 with
    | true => simp only [↓reduceIte]; exact htrans _ _ _ (h3 s) (hq _ _)
    | false => simp only [Bool.false_eq_true, ↓reduceIte]; exact h3 s

/-- Steps 2 to 5 of `cleanupConnections` as a chain: a relation that holds
across queuing an updater, across running either updater, across step 4 and
across step 5 holds from the end of step 1 to the end of the call. -/
theorem cleanupConnections_steps (P : Platform) (props : Props) (R : State → State → Prop)
    (htrans : ∀ a b c, R a b → R b c → R a c)
    (hq : ∀ u a, R a (enqueueUpdater u a))
    (h2 : ∀ a, R a (cleanupLocalStream P a).1) (h3 : ∀ a, R a (cleanupParticipants P a).1)
    (h4 : ∀ a, R a (cleanupChannel P props a).1) (h5 : ∀ a, R a (resetUi a))
    (s : State) (hf : s.isCleanupScheduled = false) :
    R (cleanupRecorder P props { s with isCleanupScheduled := true })
      (cleanupConnections P props s).1 := by
  unfold cleanupConnections
  simp only [hf, Bool.false_eq_true, ↓reduceIte]
  generalize cleanupRecorder P props { s with isCleanupScheduled := true } = s1
  generalize (!s.pendingUpdaters.isEmpty || (s1.showResumeGenerator != s.showResumeGenerator)) = d1
  have r2 := setLocalStreamUpdater_rel P R htrans hq h2 d1 s1
  generalize setLocalStreamUpdater P d1 s1 = x2 at r2 ⊢
  have r3 := htrans _ _ _ r2 (setParticipantsUpdater_rel P R htrans hq h3 x2.2 x2.1)
  generalize setParticipantsUpdater P x2.2 x2.1 = x3 at r3 ⊢
  have r4 := htrans _ _ _ r3 (h4 x3.1)
  cases t4 : (cleanupChannel P props x3.1).2 with
  | true => simp only [↓reduceIte]; exact r4
  | false =>
    simp only [Bool.false_eq_true, ↓reduceIte]
    exact htrans _ _ _ r4 (h5 _)

/-- After any call of `cleanupConnections` the guard flag is set. -/
theorem cleanupConnections_flag (P : Platform) (props : Props) (s : State) :
    (cleanupConnections P props s).1.isCleanupScheduled = true := by
  cases hf : s.isCleanupScheduled with
  | true => simp [cleanupConnections, hf]
  | false =>
    have h := cleanupConnections_steps P props
      (fun a b => b.isCleanupScheduled = a.isCleanupScheduled)
      (fun _ _ _ h1 h2 => h2.trans h1) (fun _ _ => rfl)
      (fun a => by obtain ⟨X, Y, l, h, -⟩ := cleanupLocalStream_shape P a; rw [h])
      (fun a => by obtain ⟨R, X, l, h, -⟩ := cleanupParticipants_shape P a; rw [h])
      (fun a => by obtain ⟨C, W, B, l, h, -⟩ := cleanupChannel_shape P props a; rw [h])
      (fun a => by rw [resetUi_shape]) s hf
    rw [h]
    obtain ⟨X1, M1, B1, C1, l1, h1, -⟩ :=
      cleanupRecorder_shape P props { s with isCleanupScheduled := true }
    rw [h1]

theorem cleanupConnections_guarded (P : Platform) (props : Props) (s : State)
    (h : s.isCleanupScheduled = true) : cleanupConnections P props s = (s, false) := by
  simp [cleanupConnections, h]

theorem stopTimes_guarded (P : Platform) (props : Props) (n : Nat) (s : State)
    (h : s.isCleanupScheduled = true) : stopTimes P props n s = s := by
  induction n with
  | zero => rfl
  | succ n ih => simp [stopTimes, cleanupConnections_guarded P props s h, ih]

/-! ### Object stores -/

theorem length_modifyAt {α : Type} (l : List α) (i : Nat) (f : α → α) :
    (modifyAt l i f).length = l.length := by
  unfold modifyAt
  cases l[i]? <;> simp

theorem getElem?_modifyAt {α : Type} (l : List α) (i j : Nat) (f : α → α) :
    (modifyAt l i f)[j]? = if j = i then (l[j]?).map f else l[j]? := by
  unfold modifyAt
  cases h : l[i]? with
  | none =>
    by_cases hj : j = i
    · subst hj; simp [h]
    · simp [hj]
  | some a =>
    by_cases hj : j = i
    · subst hj
      have hlt : j < l.length := by
        rcases List.getElem?_eq_some_iff.mp h with ⟨hlt, _⟩
        exact hlt
      simp [h, hlt]
    · have hji : ¬ i = j := fun e => hj e.symm
      simp [hj, List.getElem?_set, hji]

theorem modifyAt_modifyAt {α : Type} (l : List α) (i : Nat) (f g : α → α) :
    modifyAt (modifyAt l i f) i g = modifyAt l i (fun a => g (f a)) := by
  apply List.ext_getElem?
  intro j
  simp only [getElem?_modifyAt]
  by_cases hj : j = i
  · simp [hj]; rfl
  · simp [hj]

theorem getElem?_foldl_modifyAt {α : Type} (f : α → α) (hf : ∀ a, f (f a) = f a)
    (ps : List Nat) (l : List α) (j : Nat) :
    (ps.foldl (fun acc p => modifyAt acc p f) l)[j]? =
      if j ∈ ps then (l[j]?).map f else l[j]? := by
  induction ps generalizing l with
  | nil => simp
  | cons p ps ih =>
    simp only [List.foldl_cons, ih, getElem?_modifyAt, List.mem_cons]
    by_cases hj : j = p
    · subst hj
      by_cases hm : j ∈ ps
      · cases l[j]? <;> simp [hm, hf]
      · simp [hm]
    · by_cases hm : j ∈ ps
      · simp [hj, hm]
      · simp [hj, hm]

theorem Track.stopped_idem (tr : Track) : tr.stopped.stopped = tr.stopped := rfl

theorem PeerConn.shut_idem (c : PeerConn) : c.shut.shut = c.shut := rfl

theorem getElem?_stopAll (ts : List TrackId) (tracks : List Track) (j : Nat) :
    (stopAll ts tracks)[j]? = if j ∈ ts then (tracks[j]?).map Track.stopped else tracks[j]? :=
  getElem?_foldl_modifyAt Track.stopped Track.stopped_idem ts tracks j

theorem getElem?_shutAll (ps : List PcId) (pcs : List PeerConn) (j : Nat) :
    (shutAll ps pcs)[j]? = if j ∈ ps then (pcs[j]?).map PeerConn.shut else pcs[j]? :=
  getElem?_foldl_modifyAt PeerConn.shut PeerConn.shut_idem ps pcs j

/-! ### Teardown when no call throws -/

theorem stopTracks_ok (P : Platform) (h : ∀ t, P.trackStopThrows t = false)
    (ts : List TrackId) (s : State) :
    stopTracks P ts s =
      ({ s with tracks := stopAll ts s.tracks, log := s.log ++ ts.map Effect.trackStop }, false) := by
  induction ts generalizing s with
  | nil => simp [stopTracks, stopAll]
  | cons t ts ih =>
    simp [stopTracks, h, ih, stopTrack, State.emit, stopAll]

theorem detachAndClose_ok (P : Platform) (p : PcId) (h : P.pcCloseThrows p = false) (s : State) :
    detachAndClose P p s =
      ({ s with pcs := modifyAt s.pcs p PeerConn.shut, log := s.log ++ closeEffects p }, false) := by
  simp [detachAndClose, closePc, h, detachHandler, State.emit, modifyAt_modifyAt, closeEffects]
  rfl

theorem closeParticipants_ok (P : Platform) (h : ∀ p, P.pcCloseThrows p = false)
    (qs : List Participant) (s : State) :
    closeParticipants P qs s =
      ({ s with pcs := shutAll (qs.filterMap (fun q => q.pc)) s.pcs,
                log := s.log ++ (qs.filterMap (fun q => q.pc)).flatMap closeEffects }, false) := by
  induction qs generalizing s with
  | nil => simp [closeParticipants, shutAll]
  | cons q qs ih =>
    unfold closeParticipants
    cases hq : q.pc with
    | none => simp [ih, hq]
    | some p =>
      simp [detachAndClose_ok P p (h p), ih, hq, shutAll]

theorem cleanupLocalStream_ok (P : Platform) (h : ∀ t, P.trackStopThrows t = false) (s : State) :
    cleanupLocalStream P s =
      ({ s with localStream := none, tracks := stopAll (s.localStream.getD []) s.tracks,
                log := s.log ++ (s.localStream.getD []).map Effect.trackStop }, false) := by
  unfold cleanupLocalStream
  cases hs : s.localStream with
  | none => simp [stopAll]
  | some stream => simp [stopTracks_ok P h]

theorem cleanupParticipants_ok (P : Platform) (h : ∀ p, P.pcCloseThrows p = false) (s : State) :
    cleanupParticipants P s =
      ({ s with participants := [], pcs := shutAll (connsOf s.participants) s.pcs,
                log := s.log ++ (connsOf s.participants).flatMap closeEffects }, false) := by
  simp [cleanupParticipants, closeParticipants_ok P h, connsOf]

theorem cleanupChannel_ok (P : Platform) (props : Props)
    (hl : ∀ k, P.stopListeningThrows k = false) (hv : P.leaveThrows = false) (s : State) :
    cleanupChannel P props s =
      ({ s with
          presenceChannel := false,
          whisperListeners :=
            if s.presenceChannel then
              s.whisperListeners.filter (fun j => j ≠ .offer ∧ j ≠ .answer ∧ j ≠ .candidate)
            else s.whisperListeners,
          subscribed := if s.presenceChannel && props.echo then false else s.subscribed,
          log := s.log ++ channelEffects props s }, false) := by
  unfold cleanupChannel
  cases hc : s.presenceChannel with
  | false => simp [channelEffects, hc]; rw [← hc]
  | true =>
    cases he : props.echo <;>
      simp [stopListeningForWhisper, echoLeave, hl, hv, he, hc, channelEffects, State.emit,
        List.filter_filter] <;>
      (congr 1; funext a; cases a <;> rfl)

/-! ### C1 -/

/-- C1. Teardown is idempotent.  While the guard flag is set, `stop()` is a
no-op: it returns the state unchanged (no recorder stopped, no finalization, no
connection closed, no channel left: the log is part of the state), however
often it is called; and from any state, `n + 1` calls in a row leave the same
state as one call. -/
theorem stop_idempotent (P : Platform) (props : Props) (s : State) (n : Nat)
    (h : s.isCleanupScheduled = true) :
    cleanupConnections P props s = (s, false) ∧
    stopTimes P props n s = s ∧
    ∀ s0 : State, stopTimes P props (n + 1) s0 = stopTimes P props 1 s0 := by
  refine ⟨cleanupConnections_guarded P props s h, stopTimes_guarded P props n s h, ?_⟩
  intro s0
  have hflag := cleanupConnections_flag P props s0
  simp only [stopTimes]
  exact stopTimes_guarded P props n _ hflag

theorem stop_idempotent_witness :
    stoppedSession.isCleanupScheduled = true ∧
    cleanupConnections Platform.nominal demoProps stoppedSession = (stoppedSession, false) ∧
    stopTimes Platform.nominal demoProps 3 stoppedSession = stoppedSession ∧
    stopTimes Platform.nominal demoProps 4 activeSession = stoppedSession :=
  have h : stoppedSession.isCleanupScheduled = true := by decide
  have w := stop_idempotent Platform.nominal demoProps stoppedSession 3 h
  ⟨h, w.1, w.2.1, (w.2.2 activeSession).trans rfl⟩

/-! ### C3 -/

/-- C3 at a failing input: the user leaves the call with `bob`, and on
`onClose` the parent stops rendering the modal (as `Meetings` and
`User_Schedule` do).  `stop()` has stopped the tracks, cleared the stream,
left the channel and reset the UI state, but the closing of the connections is
inside the updater it passed to `setParticipants`, which React has queued.
The unmount drops the queue: the connection of `bob` is never closed, its
handlers stay attached, the registry still holds `bob`.  Only when the
component stays mounted does React run the updater, at the render. -/
theorem stop_leaves_connections_open :
    callWithBob.isCleanupScheduled = false ∧
    connOf callWithBob.participants "bob" = some 0 ∧
    leftCallWithBob.localStream = none ∧
    leftCallWithBob.tracks.map (fun t => t.ended) = [true, true] ∧
    leftCallWithBob.presenceChannel = false ∧
    leftCallWithBob.whisperListeners = [] ∧
    leftCallWithBob.isConnecting = true ∧
    leftCallWithBob.pendingUpdaters = [.participants] ∧
    (unmount leftCallWithBob).pendingUpdaters = [] ∧
    connView (unmount leftCallWithBob) = [(.haveLocalOffer, true, true, true, true)] ∧
    Effect.pcClose 0 ∉ (unmount leftCallWithBob).log ∧
    regHas (unmount leftCallWithBob).participants "bob" = true ∧
    connView (render Platform.nominal leftCallWithBob) = [(.closed, false, false, false, false)] ∧
    (render Platform.nominal leftCallWithBob).participants = [] := by
  decide

/-! ### C4 -/

/-- C4 at a failing input: the user leaves the call with `bob` and the
component stays mounted.  The calls of step 3 (detach and close of `bob`'s
connection) are made by React at the render, after the calls of steps 4 and 5
and after `onClose`: the steps occur in the order 1, 2, 4, 5, 3.  When
`MediaRecorder.stop` throws, the finalization in step 1 makes a state change
pending and the updater of step 2 is queued as well: the order is
1, 4, 5, 2, 3.  When the parent unmounts the modal on `onClose`, steps 2 and 3
of the second run and step 3 of the first never occur. -/
theorem stop_closes_connections_last :
    newLog callWithBob (render Platform.nominal leftCallWithBob) =
      [Effect.recorderStop 0, Effect.trackStop 0, Effect.trackStop 1,
       Effect.stopListening .offer, Effect.stopListening .answer, Effect.stopListening .candidate,
       Effect.leave "presence-meeting.m1",
       Effect.ui (.isConnecting true), Effect.ui (.mediaError none),
       Effect.ui (.isAudioMuted false), Effect.ui (.isVideoMuted false),
       Effect.onClose,
       Effect.pcDetach 0 .onicecandidate, Effect.pcDetach 0 .ontrack,
       Effect.pcDetach 0 .oniceconnectionstatechange, Effect.pcDetach 0 .onconnectionstatechange,
       Effect.pcClose 0] ∧
    (newLog callWithBob (render Platform.nominal leftCallWithBob)).map teardownPhase =
      [1, 2, 2, 4, 4, 4, 4, 5, 5, 5, 5, 6, 3, 3, 3, 3, 3] ∧
    (newLog callWithBob (render recorderStopThrowsPlatform leftCallRecorderThrows)).map
        teardownPhase =
      [1, 4, 4, 4, 4, 5, 5, 5, 5, 6, 2, 2, 3, 3, 3, 3, 3] ∧
    (newLog callWithBob (unmount leftCallWithBob)).map teardownPhase =
      [1, 2, 2, 4, 4, 4, 4, 5, 5, 5, 5, 6] ∧
    (newLog callWithBob (unmount leftCallRecorderThrows)).map teardownPhase =
      [1, 4, 4, 4, 4, 5, 5, 5, 5, 6] := by
  decide

/-- The order of `Object.values`: an entry whose key is an array index comes
before the entries with other keys, the smaller index first. -/
theorem regValues_indexed_first :
    (regValues [("10", offerEntry "10" 0), ("bob", offerEntry "bob" 1), ("9", offerEntry "9" 2)]).map
      (fun q => q.id) = ["9", "10", "bob"] := by
  decide

/-! ### C5 -/

theorem downloadRecording_chunks (P : Platform) (props : Props) (s : State) :
    (downloadRecording P props s).recordedChunks = [] := by
  unfold downloadRecording
  by_cases h0 : s.recordedChunks.length = 0
  · have h1 : s.recordedChunks = [] := List.length_eq_zero.mp h0
    cases hcu : (s.isEffectActive || props.visible) <;>
      simp [h0, hcu, setShowResumeGenerator, State.emit, h1]
  · cases hcu : (s.isEffectActive || props.visible) <;>
      simp [h0, hcu, setShowResumeGenerator, State.emit]

theorem downloadRecording_download (P : Platform) (props : Props) (s : State)
    (hne : s.recordedChunks ≠ []) (hb : P.blobThrows = false) :
    ∃ m f, Effect.download s.recordedChunks m f ∈ newLog s (downloadRecording P props s) := by
  have h0 : ¬ s.recordedChunks.length = 0 := fun h => hne (List.length_eq_zero.mp h)
  refine ⟨downloadMimeType P, downloadFilename P props, ?_⟩
  unfold downloadRecording
  cases hcu : (s.isEffectActive || props.visible)
  · simp only [h0, hcu, hb, ↓reduceIte, Bool.false_eq_true, State.emit, newLog]
    simp only [List.drop_left, List.mem_singleton]
  · simp only [h0, hcu, hb, ↓reduceIte, Bool.false_eq_true, State.emit, newLog,
      setShowResumeGenerator]
    simp

theorem cleanupRecorder_throw (P : Platform) (props : Props) (s : State) (r : RecorderId)
    (hr : s.mediaRecorderRef = some r) (hrec : isRecording s r = true)
    (hthrow : P.recorderStopThrows = true) :
    cleanupRecorder P props s =
      { downloadRecording P props (setRecorderHandlers r .cleanup s) with
        mediaRecorderRef := none } := by
  unfold cleanupRecorder
  rw [hr]
  simp only [hrec, hthrow, ↓reduceIte]

theorem cleanupRecorder_throw_download (P : Platform) (props : Props) (s : State)
    (r : RecorderId) (hr : s.mediaRecorderRef = some r) (hrec : isRecording s r = true)
    (hthrow : P.recorderStopThrows = true) (hne : s.recordedChunks ≠ [])
    (hb : P.blobThrows = false) :
    ∃ m f, Effect.download s.recordedChunks m f ∈ newLog s (cleanupRecorder P props s) := by
  obtain ⟨m, f, hm⟩ :=
    downloadRecording_download P props (setRecorderHandlers r .cleanup s) hne hb
  refine ⟨m, f, ?_⟩
  rw [cleanupRecorder_throw P props s r hr hrec hthrow]
  exact hm

/-- The call of `setLocalStream` with the updater of step 2: it touches the
stream, the tracks, React's queue and the log, and afterwards the updater has
run to its end (the stream is `null`) or is queued. -/
theorem setLocalStreamUpdater_shape (P : Platform) (dirty : Bool) (s : State) :
    ∃ LS T Q l,
      (setLocalStreamUpdater P dirty s).1 =
        { s with localStream := LS, tracks := T, pendingUpdaters := s.pendingUpdaters ++ Q,
                 log := s.log ++ l } ∧
      (∀ e ∈ l, teardownPhase e = 2) ∧ (LS = none ∨ Updater.localStream ∈ Q) := by
  unfold setLocalStreamUpdater
  cases dirty with
  | true =>
    exact ⟨s.localStream, s.tracks, [.localStream], [], by simp [enqueueUpdater], by simp,
      Or.inr (by simp)⟩
  | false =>
    simp only [Bool.false_eq_true, ↓reduceIte]
    obtain ⟨X, Y, l, h, hp⟩ := cleanupLocalStream_shape P s
    cases t : (cleanupLocalStream P s).2 with
    | true =>
      simp only [↓reduceIte]
      rw [h]
      exact ⟨X, Y, [.localStream], l, by simp [enqueueUpdater], hp, Or.inr (by simp)⟩
    | false =>
      simp only [Bool.false_eq_true, ↓reduceIte]
      refine ⟨none, Y, [], l, ?_, hp, Or.inl rfl⟩
      have hnone : (cleanupLocalStream P s).1.localStream = none := by
        unfold cleanupLocalStream at t ⊢
        cases hs : s.localStream with
        | none => rfl
        | some stream =>
          simp only [hs] at t ⊢
          cases t2 : (stopTracks P stream s).2 with
          | true => simp [t2] at t
          | false => simp [t2]
      rw [h] at hnone ⊢
      simp only at hnone
      simp [hnone]

/-- The call of `setParticipants` with the updater of step 3: it touches the
registry, the connections, React's queue and the log, and afterwards the
updater has run to its end (the registry is empty) or is queued. -/
theorem setParticipantsUpdater_shape (P : Platform) (dirty : Bool) (s : State) :
    ∃ R X Q l,
      (setParticipantsUpdater P dirty s).1 =
        { s with participants := R, pcs := X, pendingUpdaters := s.pendingUpdaters ++ Q,
                 log := s.log ++ l } ∧
      (∀ e ∈ l, teardownPhase e = 3) ∧ (R = [] ∨ Updater.participants ∈ Q) := by
  unfold setParticipantsUpdater
  cases dirty with
  | true =>
    exact ⟨s.participants, s.pcs, [.participants], [], by simp [enqueueUpdater], by simp,
      Or.inr (by simp)⟩
  | false =>
    simp only [Bool.false_eq_true, ↓reduceIte]
    obtain ⟨R, X, l, h, hp⟩ := cleanupParticipants_shape P s
    cases t : (cleanupParticipants P s).2 with
    | true =>
      simp only [↓reduceIte]
      rw [h]
      exact ⟨R, X, [.participants], l, by simp [enqueueUpdater], hp, Or.inr (by simp)⟩
    | false =>
      simp only [Bool.false_eq_true, ↓reduceIte]
      refine ⟨[], X, [], l, ?_, hp, Or.inl rfl⟩
      have hnil : (cleanupParticipants P s).1.participants = [] := by
        unfold cleanupParticipants at t ⊢
        simp only at t ⊢
        cases t2 : (closeParticipants P (regValues s.participants) s).2 with
        | true => simp [t2] at t
        | false => simp [t2]
      rw [h] at hnil ⊢
      simp only at hnil
      simp [hnil]

/-- C5, as the code has it.  The one teardown failure `stop()` catches is that
of the recorder stop.  When `mediaRecorderRef.current.stop()` throws, and
removing the whisper listeners and leaving the channel do not throw,
`cleanupConnections` returns normally: the recording is finalized on the spot
(buffer emptied, recorder ref cleared, the download made unless the buffer was
empty or building the blob failed); each of the two updaters of steps 2 and 3
has run to its end or is queued with React; the calls of step 4 and of step 5
are the last calls made; the channel reference is cleared, the UI state is
reset and the reset of the guard flag is scheduled.  This holds whatever
`track.stop()` and `pc.close()` do: they are called inside the updaters, where
an exception does not reach `stop()`. -/
theorem stop_catches_recorder_failure (P : Platform) (props : Props) (s : State) (r : RecorderId)
    (hf : s.isCleanupScheduled = false)
    (hr : s.mediaRecorderRef = some r) (hrec : isRecording s r = true)
    (hthrow : P.recorderStopThrows = true)
    (hl : ∀ k, P.stopListeningThrows k = false) (hv : P.leaveThrows = false) :
    (cleanupConnections P props s).2 = false ∧
    (cleanupConnections P props s).1.recordedChunks = [] ∧
    (cleanupConnections P props s).1.mediaRecorderRef = none ∧
    (s.recordedChunks ≠ [] → P.blobThrows = false →
      ∃ m f, Effect.download s.recordedChunks m f ∈ newLog s (cleanupConnections P props s).1) ∧
    ((cleanupConnections P props s).1.localStream = none ∨
      Updater.localStream ∈ (cleanupConnections P props s).1.pendingUpdaters) ∧
    ((cleanupConnections P props s).1.participants = [] ∨
      Updater.participants ∈ (cleanupConnections P props s).1.pendingUpdaters) ∧
    (∃ l, newLog s (cleanupConnections P props s).1 =
      l ++ (channelEffects props s ++ resetEffects)) ∧
    (cleanupConnections P props s).1.presenceChannel = false ∧
    (cleanupConnections P props s).1.isConnecting = true ∧
    (cleanupConnections P props s).1.mediaError = none ∧
    (cleanupConnections P props s).1.isAudioMuted = false ∧
    (cleanupConnections P props s).1.isVideoMuted = false ∧
    (cleanupConnections P props s).1.guardTimers = s.guardTimers + 1 := by
  have hstep := cleanupRecorder_throw P props { s with isCleanupScheduled := true } r hr hrec hthrow
  obtain ⟨X1, M1, B1, C1, l1, h1, -⟩ :=
    cleanupRecorder_shape P props { s with isCleanupScheduled := true }
  obtain ⟨X0, hX0⟩ := setRecorderHandlers_shape r .cleanup { s with isCleanupScheduled := true }
  have f1 : (cleanupRecorder P props { s with isCleanupScheduled := true }).recordedChunks = [] := by
    rw [hstep]; exact downloadRecording_chunks P props _
  have f2 : (cleanupRecorder P props { s with isCleanupScheduled := true }).mediaRecorderRef =
      none := by
    rw [hstep]
  have f3 : (cleanupRecorder P props { s with isCleanupScheduled := true }).log = s.log ++ l1 := by
    rw [h1]
  have f4 : (cleanupRecorder P props { s with isCleanupScheduled := true }).presenceChannel =
      s.presenceChannel := by
    rw [h1]
  have f5 : (cleanupRecorder P props { s with isCleanupScheduled := true }).guardTimers =
      s.guardTimers := by
    rw [h1]
  have f6 : s.recordedChunks ≠ [] → P.blobThrows = false →
      ∃ m f, Effect.download s.recordedChunks m f ∈ l1 := by
    intro hne hb
    obtain ⟨m, f, hm⟩ := cleanupRecorder_throw_download P props
      { s with isCleanupScheduled := true } r hr hrec hthrow hne hb
    refine ⟨m, f, ?_⟩
    have hl1 : newLog { s with isCleanupScheduled := true }
        (cleanupRecorder P props { s with isCleanupScheduled := true }) = l1 :=
      newLog_of_append f3
    rw [hl1] at hm
    exact hm
  unfold cleanupConnections
  simp only [hf, Bool.false_eq_true, ↓reduceIte]
  generalize cleanupRecorder P props { s with isCleanupScheduled := true } = s1 at f1 f2 f3 f4 f5 ⊢
  generalize (!s.pendingUpdaters.isEmpty || (s1.showResumeGenerator != s.showResumeGenerator)) = d1
  obtain ⟨LS, T, Q2, l2, h2, -, hLS⟩ := setLocalStreamUpdater_shape P d1 s1
  generalize setLocalStreamUpdater P d1 s1 = x2 at h2 ⊢
  obtain ⟨R, X, Q3, l3, h3, -, hR⟩ := setParticipantsUpdater_shape P x2.2 x2.1
  generalize setParticipantsUpdater P x2.2 x2.1 = x3 at h3 ⊢
  rw [cleanupChannel_ok P props hl hv]
  simp only [Bool.false_eq_true, ↓reduceIte]
  rw [resetUi_shape, h3, h2]
  refine ⟨trivial, f1, f2, ?_, ?_, ?_, ?_, rfl, rfl, rfl, rfl, rfl, ?_⟩
  · intro hne hb
    obtain ⟨m, f, hm⟩ := f6 hne hb
    refine ⟨m, f, ?_⟩
    simp only [newLog, f3, List.append_assoc, List.drop_left]
    exact List.mem_append_left _ hm
  · rcases hLS with h | h
    · exact Or.inl h
    · exact Or.inr (by simp [h])
  · rcases hR with h | h
    · exact Or.inl h
    · exact Or.inr (by simp [h])
  · refine ⟨l1 ++ (l2 ++ l3), ?_⟩
    simp [newLog, f3, f4, channelEffects, resetEffects, List.append_assoc]
  · simp [f5]

theorem stop_catches_recorder_failure_witness :
    (cleanupConnections recorderStopThrowsPlatform demoProps callWithBob).2 = false ∧
    (cleanupConnections recorderStopThrowsPlatform demoProps callWithBob).1.isConnecting = true ∧
    (cleanupConnections recorderStopThrowsPlatform demoProps callWithBob).1.guardTimers = 1 ∧
    (cleanupConnections recorderStopThrowsPlatform demoProps callWithBob).1.mediaRecorderRef
      = none ∧
    (cleanupConnections recorderStopThrowsPlatform demoProps callWithBob).1.pendingUpdaters =
      [.localStream, .participants] ∧
    (cleanupConnections recorderStopThrowsPlatform demoProps callWithBob).1.presenceChannel =
      false := by
  have w := stop_catches_recorder_failure recorderStopThrowsPlatform demoProps callWithBob 0
    (by decide) (by decide) (by decide) rfl (fun _ => rfl) rfl
  exact ⟨w.1, w.2.2.2.2.2.2.2.2.1, w.2.2.2.2.2.2.2.2.2.2.2.2, w.2.2.1, by decide,
    w.2.2.2.2.2.2.2.1⟩

/-- C5 as stated fails: with a platform on which `echo.leave` throws, `stop()`
called on the active session `activeSession` ends by that exception, the UI
state is not reset (`isConnecting` stays `false`), no reset of the guard flag
is scheduled, and the flag stays set. -/
theorem stop_best_effort_counterexample :
    activeSession.isCleanupScheduled = false ∧ activeSession.isConnecting = false ∧
    (cleanupConnections leaveThrowsPlatform demoProps activeSession).2 = true ∧
    (cleanupConnections leaveThrowsPlatform demoProps activeSession).1.isConnecting = false ∧
    (cleanupConnections leaveThrowsPlatform demoProps activeSession).1.guardTimers = 0 ∧
    (cleanupConnections leaveThrowsPlatform demoProps activeSession).1.isCleanupScheduled = true := by
  decide

/-! ### C2 -/

/-- C2 at two interleavings of one session (recorder 0 recording, user `me`).
First: a chunk, `stop()`, then the recorder fires `error`, a last chunk and
`stop`: two download artifacts are produced.  Second: a chunk, the recorder
fires `error` (the handler stops the recorder), `stop()`, a last chunk, the
recorder's `stop`: one artifact, and the last chunk stays in the buffer,
never finalized. -/
theorem recording_not_finalized_once :
    downloads (run Platform.nominal demoProps "me"
        [.recorderData 0 5, .stop, .recorderError 0, .recorderData 0 7, .recorderStop 0]
        sessionStart).log = [[5], [7]] ∧
    downloads (run Platform.nominal demoProps "me"
        [.recorderData 0 5, .recorderError 0, .stop, .recorderData 0 7, .recorderStop 0]
        sessionStart).log = [[5]] ∧
    (run Platform.nominal demoProps "me"
        [.recorderData 0 5, .recorderError 0, .stop, .recorderData 0 7, .recorderStop 0]
        sessionStart).recordedChunks = [7] := by
  decide

/-! ### C10 -/

/-- C10 at the events `here [bob]`, `here [bob]`, `leaving bob` of one session:
afterwards `bob` is not in the registry, yet the connection created for `bob`
by the first `here` (connection 0) was never closed. -/
theorem registry_invariant_broken :
    regHas (run Platform.nominal demoProps "me"
        [.here [{ id := "bob", name := none }], .here [{ id := "bob", name := none }],
         .leaving { id := "bob", name := none }] sessionStart).participants "bob" = false ∧
    hasLiveConn (run Platform.nominal demoProps "me"
        [.here [{ id := "bob", name := none }], .here [{ id := "bob", name := none }],
         .leaving { id := "bob", name := none }] sessionStart) "bob" = true ∧
    ((run Platform.nominal demoProps "me"
        [.here [{ id := "bob", name := none }], .here [{ id := "bob", name := none }],
         .leaving { id := "bob", name := none }] sessionStart).pcs.map
      (fun c => (c.remoteUserId, c.signalingState))) =
      [("bob", .haveLocalOffer), ("bob", .closed)] := by
  decide

/-! ### C6 -/

theorem handleAnswer_shape (senderId : UserId) (answer : Option Sdp) (s : State) :
    ∃ X, handleAnswer senderId answer s = { s with pcs := X } := by
  unfold handleAnswer
  split
  · split
    · split
      · split
        · exact ⟨_, rfl⟩
        · exact ⟨s.pcs, rfl⟩
      · exact ⟨s.pcs, rfl⟩
    · exact ⟨s.pcs, rfl⟩
  · exact ⟨s.pcs, rfl⟩

/-- C6. Stale-answer rejection in `handleAnswer`.  Whatever the answer, only
the connection store can differ afterwards (registry, log and all else are
unchanged).  If the registry has no connection for the sender, or that
connection is not in `have-local-offer`, the state is unchanged altogether.
If the sender's connection is in `have-local-offer` and the payload is an SDP
answer, that connection, and no other, gets the answer as remote description
and becomes `stable`. -/
theorem handleAnswer_stale_rejected (senderId : UserId) (answer : Option Sdp) (s : State) :
    handleAnswer senderId answer s = { s with pcs := (handleAnswer senderId answer s).pcs } ∧
    ((∀ p c, connOf s.participants senderId = some p → s.pcs[p]? = some c →
        c.signalingState ≠ .haveLocalOffer) →
      handleAnswer senderId answer s = s) ∧
    (∀ p c a, connOf s.participants senderId = some p → s.pcs[p]? = some c →
        c.signalingState = .haveLocalOffer → answer = some a → a.type = .answer →
      (handleAnswer senderId answer s).pcs =
        s.pcs.set p { c with signalingState := .stable, remoteDescription := some a }) := by
  refine ⟨?_, ?_, ?_⟩
  · obtain ⟨X, h⟩ := handleAnswer_shape senderId answer s
    rw [h]
  · intro h
    unfold handleAnswer
    cases h1 : (regGet s.participants senderId).bind (fun e => e.pc) with
    | none => rfl
    | some p =>
      cases h2 : s.pcs[p]? with
      | none => simp only [h2]
      | some c =>
        have := h p c h1 h2
        simp [h2, this]
  · intro p c a h1 h2 h3 h4 h5
    unfold handleAnswer
    unfold connOf at h1
    simp [h1, h2, h3, h4, pcSetRemoteDescription, h5, setPc]

theorem handleAnswer_stale_rejected_witness :
    (handleAnswer "bob" bobAnswer callWithBob).pcs.map (fun c => c.signalingState) = [.stable] ∧
    handleAnswer "bob" bobAnswer (handleAnswer "bob" bobAnswer callWithBob) =
      handleAnswer "bob" bobAnswer callWithBob ∧
    handleAnswer "carol" bobAnswer callWithBob = callWithBob := by
  have w1 := (handleAnswer_stale_rejected "bob" bobAnswer
    (handleAnswer "bob" bobAnswer callWithBob)).2.1
  have w2 := (handleAnswer_stale_rejected "carol" bobAnswer callWithBob).2.1
  refine ⟨by decide, w1 ?_, w2 ?_⟩
  · intro p c hp hc
    have hp0 : p = 0 := by
      have : connOf (handleAnswer "bob" bobAnswer callWithBob).participants "bob" = some 0 := by
        decide
      rw [this] at hp
      exact (Option.some.inj hp).symm
    subst hp0
    have : (handleAnswer "bob" bobAnswer callWithBob).pcs[0]?.map (fun c => c.signalingState)
        = some .stable := by decide
    rw [hc] at this
    simp only [Option.map_some', Option.some.injEq] at this
    rw [this]
    decide
  · intro p c hp
    have : connOf callWithBob.participants "carol" = none := by decide
    rw [this] at hp
    cases hp

/-! ### Registry -/

theorem regGet_append (a b : Registry) (m : UserId) :
    regGet (a ++ b) m = (regGet a m).orElse (fun _ => regGet b m) := by
  induction a with
  | nil => simp [regGet]
  | cons e es ih =>
    by_cases h : e.1 = m
    · simp [regGet, h]
    · simp [regGet, h, ih]

theorem regGet_map_set (r : Registry) (k m : UserId) (v : Participant) :
    regGet (r.map (fun e => if e.1 = k then (k, v) else e)) m =
      if m = k then (if regHas r k then some v else none) else regGet r m := by
  induction r with
  | nil => simp [regGet, regHas]
  | cons e es ih =>
    by_cases hk : e.1 = k
    · by_cases hm : m = k
      · simp [regGet, regHas, hk, hm]
      · have hkm : ¬ k = m := fun h => hm h.symm
        simp only [regHas] at ih
        simp [regGet, hk, hm, hkm, ih]
    · by_cases hm : m = k
      · subst hm
        simp only [regHas, ↓reduceIte] at ih
        simp [regGet, regHas, hk, ih]
      · simp only [regHas] at ih
        by_cases hem : e.1 = m
        · simp [regGet, hk, hem, hm]
        · simp [regGet, hk, hem, hm, ih]

theorem regGet_regSet (r : Registry) (k m : UserId) (v : Participant) :
    regGet (regSet r k v) m = if m = k then some v else regGet r m := by
  unfold regSet
  cases hh : regHas r k with
  | true =>
    simp only [↓reduceIte, regGet_map_set, hh]
  | false =>
    have hnone : regGet r k = none := by
      simpa [regHas] using hh
    simp only [Bool.false_eq_true, ↓reduceIte, regGet_append]
    by_cases hm : m = k
    · subst hm
      simp [hnone, regGet]
    · have hkm : ¬ k = m := fun h => hm h.symm
      cases hg : regGet r m <;> simp [regGet, hm, hkm]

theorem regGet_regErase (r : Registry) (k m : UserId) :
    regGet (regErase r k) m = if m = k then none else regGet r m := by
  induction r with
  | nil => simp [regErase, regGet]
  | cons e es ih =>
    unfold regErase at ih ⊢
    by_cases hk : e.1 = k
    · have h1 : List.filter (fun e => decide (e.1 ≠ k)) (e :: es) =
          List.filter (fun e => decide (e.1 ≠ k)) es := by
        simp [List.filter_cons, hk]
      rw [h1, ih]
      by_cases hm : m = k
      · simp [hm]
      · have hem : ¬ e.1 = m := fun h => hm (h.symm.trans hk)
        simp [hm, regGet, hem]
    · have h1 : List.filter (fun e => decide (e.1 ≠ k)) (e :: es) =
          e :: List.filter (fun e => decide (e.1 ≠ k)) es := by
        simp [List.filter_cons, hk]
      rw [h1]
      by_cases hem : e.1 = m
      · have hm : ¬ m = k := fun h => hk (hem.trans h)
        simp [regGet, hem, hm]
      · simp only [regGet, hem, ↓reduceIte, ih]

/-! ### Creating connections -/

theorem addLocalTrack_shape (P : Platform) (c : PeerConn) (t : TrackId) :
    ∃ S, addLocalTrack P c t = { c with senders := S } := by
  unfold addLocalTrack
  split
  · exact ⟨c.senders, rfl⟩
  · split
    · exact ⟨c.senders, rfl⟩
    · exact ⟨_, rfl⟩

theorem foldl_addLocalTrack_shape (P : Platform) (stream : MediaStream) (c : PeerConn) :
    ∃ S, stream.foldl (addLocalTrack P) c = { c with senders := S } := by
  induction stream generalizing c with
  | nil => exact ⟨c.senders, rfl⟩
  | cons t ts ih =>
    obtain ⟨S1, h1⟩ := addLocalTrack_shape P c t
    obtain ⟨S, h⟩ := ih (addLocalTrack P c t)
    exact ⟨S, by rw [List.foldl_cons, h, h1]⟩

theorem newConn_shape (P : Platform) (remoteUserId : UserId) (stream : MediaStream) :
    ∃ S, newConn P remoteUserId stream = { PeerConn.fresh remoteUserId with senders := S } :=
  foldl_addLocalTrack_shape P stream (PeerConn.fresh remoteUserId)

theorem newConn_state (P : Platform) (remoteUserId : UserId) (stream : MediaStream) :
    (newConn P remoteUserId stream).signalingState = .stable ∧
    (newConn P remoteUserId stream).localDescription = none ∧
    (newConn P remoteUserId stream).remoteDescription = none ∧
    (newConn P remoteUserId stream).remoteUserId = remoteUserId := by
  obtain ⟨S, h⟩ := newConn_shape P remoteUserId stream
  rw [h]
  exact ⟨rfl, rfl, rfl, rfl⟩

theorem createPeerConnection_ok (P : Platform) (remoteUserId : UserId) (stream : MediaStream)
    (s : State) (h : P.pcCtorThrows remoteUserId = false) :
    createPeerConnection P remoteUserId (some stream) s =
      ({ s with pcs := s.pcs ++ [newConn P remoteUserId stream] }, some s.pcs.length) := by
  simp [createPeerConnection, h]

/-! ### C8 -/

/-- C8. The `joining` handler, session active, local stream acquired, member
other than self, connection constructor not throwing.  Afterwards the registry
has an entry with a connection for the member: the existing one (state
unchanged) if there was one, otherwise a new entry `{id, name, pc, stream:
null}` whose connection is the newly created one, stable and without local
description.  In both cases the log is unchanged: no whisper, no offer, no
other call.  A `joining` event for the local id changes nothing. -/
theorem joining_creates_entry_without_offer (P : Platform) (self : UserId) (user : User)
    (s : State) (stream : MediaStream)
    (hact : s.isEffectActive = true) (hstream : s.acquiredStream = some stream)
    (hne : user.id ≠ self) (hctor : P.pcCtorThrows user.id = false) :
    (∃ e p, regGet (onJoining P self user s).participants user.id = some e ∧ e.pc = some p) ∧
    (∀ p, connOf s.participants user.id = some p → onJoining P self user s = s) ∧
    (connOf s.participants user.id = none →
      onJoining P self user s =
        { s with
          pcs := s.pcs ++ [newConn P user.id stream],
          participants := regSet s.participants user.id
            ({ id := user.id, name := displayName user, pc := some s.pcs.length,
               stream := none }) } ∧
      (newConn P user.id stream).signalingState = .stable ∧
      (newConn P user.id stream).localDescription = none) ∧
    (onJoining P self user s).log = s.log ∧
    (∀ (u : User) (s0 : State), u.id = self → onJoining P self u s0 = s0) := by
  have hA : ∀ p, connOf s.participants user.id = some p → onJoining P self user s = s := by
    intro p hp
    unfold connOf at hp
    simp [onJoining, hact, hstream, hne, hp]
  have hB : connOf s.participants user.id = none →
      onJoining P self user s =
        { s with
          pcs := s.pcs ++ [newConn P user.id stream],
          participants := regSet s.participants user.id
            ({ id := user.id, name := displayName user, pc := some s.pcs.length,
               stream := none }) } := by
    intro hp
    unfold connOf at hp
    simp [onJoining, hact, hstream, hne, hp, createPeerConnection_ok P user.id stream s hctor]
  refine ⟨?_, hA, ?_, ?_, ?_⟩
  · cases hp : connOf s.participants user.id with
    | some p =>
      rw [hA p hp]
      unfold connOf at hp
      cases hg : regGet s.participants user.id with
      | none => simp [hg] at hp
      | some e =>
        rw [hg] at hp
        exact ⟨e, p, rfl, by simpa using hp⟩
    | none =>
      rw [hB hp]
      exact ⟨{ id := user.id, name := displayName user, pc := some s.pcs.length, stream := none },
        s.pcs.length, by simp [regGet_regSet], rfl⟩
  · intro hp
    exact ⟨hB hp, (newConn_state P user.id stream).1, (newConn_state P user.id stream).2.1⟩
  · cases hp : connOf s.participants user.id with
    | some p => rw [hA p hp]
    | none => rw [hB hp]
  · intro u s0 hu
    simp [onJoining, hu]

theorem joining_creates_entry_without_offer_witness :
    connOf (onJoining Platform.nominal "me" { id := "carol", name := some "Carol" }
      callWithBob).participants "carol" = some 1 ∧
    (onJoining Platform.nominal "me" { id := "carol", name := some "Carol" } callWithBob).log =
      callWithBob.log ∧
    onJoining Platform.nominal "me" { id := "bob", name := none } callWithBob = callWithBob := by
  have w := joining_creates_entry_without_offer Platform.nominal "me"
    { id := "carol", name := some "Carol" } callWithBob [0, 1] (by decide) (by decide)
    (by decide) rfl
  have w2 := joining_creates_entry_without_offer Platform.nominal "me"
    { id := "bob", name := none } callWithBob [0, 1] (by decide) (by decide) (by decide) rfl
  exact ⟨by decide, w.2.2.2.1, w2.2.1 0 (by decide)⟩

/-! ### C9 -/

theorem onJoining_fresh (P : Platform) (self : UserId) (user : User) (s : State)
    (stream : MediaStream)
    (hact : s.isEffectActive = true) (hstream : s.acquiredStream = some stream)
    (hne : user.id ≠ self) (hctor : P.pcCtorThrows user.id = false)
    (hp : connOf s.participants user.id = none) :
    onJoining P self user s =
      { s with
        pcs := s.pcs ++ [newConn P user.id stream],
        participants := regSet s.participants user.id
          ({ id := user.id, name := displayName user, pc := some s.pcs.length,
             stream := none }) } := by
  unfold connOf at hp
  simp [onJoining, hact, hstream, hne, hp, createPeerConnection_ok P user.id stream s hctor]

theorem onLeaving_ok (P : Platform) (self : UserId) (user : User) (s : State)
    (hact : s.isEffectActive = true) (hne : user.id ≠ self)
    (hclose : ∀ p, P.pcCloseThrows p = false) :
    onLeaving P self user s =
      { s with
        pcs := match connOf s.participants user.id with
          | some p => modifyAt s.pcs p PeerConn.close
          | none => s.pcs,
        log := match connOf s.participants user.id with
          | some p => s.log ++ [Effect.pcClose p]
          | none => s.log,
        participants := regErase s.participants user.id,
        participantVideoRefs := s.participantVideoRefs.filter (fun k => k ≠ user.id) } := by
  unfold connOf
  cases hp : (regGet s.participants user.id).bind (fun e => e.pc) with
  | none => simp [onLeaving, hact, hne, hp]
  | some p => simp [onLeaving, hact, hne, hp, closePc, hclose, State.emit]

/-- C9. Leave-then-reconnect, session active, local stream acquired, member
other than self, `close` and the connection constructor not throwing, the
member's connection (if any) being an object of the store.  After `leaving`:
the member's connection is closed (and nothing else in it changed), the
registry no longer has the member, and every other entry is unchanged.  After
a following `joining` for the same id: the registry has an entry for the
member whose connection is the one just created, at a new index of the store,
stable; it is not the closed connection. -/
theorem leave_then_rejoin (P : Platform) (self : UserId) (user : User) (s : State)
    (stream : MediaStream)
    (hact : s.isEffectActive = true) (hstream : s.acquiredStream = some stream)
    (hne : user.id ≠ self)
    (hclose : ∀ p, P.pcCloseThrows p = false) (hctor : P.pcCtorThrows user.id = false)
    (hvalid : ∀ p, connOf s.participants user.id = some p → p < s.pcs.length) :
    (∀ p c, connOf s.participants user.id = some p → s.pcs[p]? = some c →
      (onLeaving P self user s).pcs[p]? = some c.close ∧
      c.close.signalingState = .closed ∧
      Effect.pcClose p ∈ newLog s (onLeaving P self user s)) ∧
    regGet (onLeaving P self user s).participants user.id = none ∧
    (onLeaving P self user s).participants = regErase s.participants user.id ∧
    (∀ y, y ≠ user.id →
      regGet (onLeaving P self user s).participants y = regGet s.participants y) ∧
    (∃ e, regGet (onJoining P self user (onLeaving P self user s)).participants user.id = some e ∧
      e.pc = some s.pcs.length ∧ e.stream = none) ∧
    (onJoining P self user (onLeaving P self user s)).pcs[s.pcs.length]? =
      some (newConn P user.id stream) ∧
    (newConn P user.id stream).signalingState = .stable ∧
    (∀ p, connOf s.participants user.id = some p →
      p ≠ s.pcs.length ∧
      ((onJoining P self user (onLeaving P self user s)).pcs[p]?).map
        (fun c => c.signalingState) = some .closed) := by
  have hL := onLeaving_ok P self user s hact hne hclose
  have hlen : (onLeaving P self user s).pcs.length = s.pcs.length := by
    rw [hL]
    cases connOf s.participants user.id <;> simp [length_modifyAt]
  have hnone : connOf (onLeaving P self user s).participants user.id = none := by
    rw [hL]
    simp [connOf, regGet_regErase]
  have hJ := onJoining_fresh P self user (onLeaving P self user s) stream
    (by rw [hL]; exact hact) (by rw [hL]; exact hstream) hne hctor hnone
  refine ⟨?_, ?_, ?_, ?_, ?_, ?_, (newConn_state P user.id stream).1, ?_⟩
  · intro p c hp hc
    refine ⟨?_, rfl, ?_⟩
    · rw [hL]
      simp [hp, getElem?_modifyAt, hc]
    · rw [hL]
      simp [hp, newLog]
  · rw [hL]
    simp [regGet_regErase]
  · rw [hL]
  · intro y hy
    rw [hL]
    simp [regGet_regErase, hy]
  · rw [hJ, hlen]
    exact ⟨{ id := user.id, name := displayName user, pc := some s.pcs.length, stream := none },
      by simp [regGet_regSet], rfl, rfl⟩
  · rw [hJ]
    simp only
    rw [← hlen]
    simp
  · intro p hp
    have hlt := hvalid p hp
    refine ⟨Nat.ne_of_lt hlt, ?_⟩
    rw [hJ]
    simp only
    have hlt1 : p < (onLeaving P self user s).pcs.length := by rw [hlen]; exact hlt
    rw [List.getElem?_append_left hlt1, hL]
    simp only [hp, getElem?_modifyAt, ↓reduceIte]
    obtain ⟨c, hc⟩ : ∃ c, s.pcs[p]? = some c := ⟨s.pcs[p], List.getElem?_eq_getElem hlt⟩
    simp [hc, PeerConn.close]

theorem leave_then_rejoin_witness :
    regHas (onLeaving Platform.nominal "me" { id := "bob", name := none }
      callWithBob).participants "bob" = false ∧
    connOf (onJoining Platform.nominal "me" { id := "bob", name := none }
      (onLeaving Platform.nominal "me" { id := "bob", name := none }
        callWithBob)).participants "bob" = some 1 ∧
    ((onJoining Platform.nominal "me" { id := "bob", name := none }
      (onLeaving Platform.nominal "me" { id := "bob", name := none }
        callWithBob)).pcs[0]?).map (fun c => c.signalingState) = some .closed := by
  have w := leave_then_rejoin Platform.nominal "me" { id := "bob", name := none } callWithBob
    [0, 1] (by decide) (by decide) (by decide) (fun _ => rfl) rfl
    (by
      intro p hp
      have h0 : connOf callWithBob.participants "bob" = some 0 := by decide
      rw [h0] at hp
      have : p = 0 := (Option.some.inj hp).symm
      subst this
      decide)
  refine ⟨?_, by decide, (w.2.2.2.2.2.2.2 0 (by decide)).2⟩
  simp [regHas, w.2.1]

/-! ### C7 -/

theorem sendOffer_new (P : Platform) (self remoteUserId : UserId) (stream : MediaStream)
    (s : State) (hch : s.presenceChannel = true) :
    sendOffer P self (some s.pcs.length) remoteUserId
        { s with pcs := s.pcs ++ [newConn P remoteUserId stream] } =
      { s with pcs := s.pcs ++ [offeredConn P s.pcs.length remoteUserId stream],
               log := s.log ++ [offerWhisper P self s.pcs.length remoteUserId] } := by
  obtain ⟨S, hS⟩ := newConn_shape P remoteUserId stream
  unfold sendOffer offeredConn offerWhisper
  simp [hS, PeerConn.fresh, pcCreateOffer, pcSetLocalDescription, whisperIfJoined, setPc, hch,
    State.emit]

theorem hereLoop_cons_other (P : Platform) (self : UserId) (u : User) (us : List User)
    (s : State) (setup : Registry) (stream : MediaStream)
    (hstream : s.acquiredStream = some stream) (hch : s.presenceChannel = true)
    (hctor : P.pcCtorThrows u.id = false) (hne : u.id ≠ self) :
    hereLoop P self (u :: us) s setup =
      hereLoop P self us
        { s with pcs := s.pcs ++ [offeredConn P s.pcs.length u.id stream],
                 log := s.log ++ [offerWhisper P self s.pcs.length u.id] }
        (regSet setup u.id (memberEntry u s.pcs.length)) := by
  rw [hereLoop, if_pos hne, hstream, createPeerConnection_ok P u.id stream s hctor]
  simp only
  rw [sendOffer_new P self u.id stream s hch, hstream]
  rfl

theorem hereLoop_cons_self (P : Platform) (self : UserId) (u : User) (us : List User)
    (s : State) (setup : Registry) (he : u.id = self) :
    hereLoop P self (u :: us) s setup = hereLoop P self us s setup := by
  rw [hereLoop]
  simp [he]

theorem regHas_cons (e : UserId × Participant) (es : Registry) (m : UserId) :
    regHas (e :: es) m = (decide (e.1 = m) || regHas es m) := by
  by_cases h : e.1 = m <;> simp [regHas, regGet, h]

theorem regHas_regSet (r : Registry) (k m : UserId) (v : Participant) :
    regHas (regSet r k v) m = (decide (m = k) || regHas r m) := by
  by_cases h : m = k <;> simp [regHas, regGet_regSet, h]

theorem mem_regSet {r : Registry} {k : UserId} {v : Participant} {x : UserId × Participant}
    (h : x ∈ regSet r k v) : x = (k, v) ∨ x ∈ r := by
  unfold regSet at h
  split at h
  · rcases List.mem_map.mp h with ⟨y, hy, hxy⟩
    by_cases hk : y.1 = k
    · left; simpa [hk] using hxy.symm
    · right; simp [hk] at hxy; rw [← hxy]; exact hy
  · rcases List.mem_append.mp h with h | h
    · exact Or.inr h
    · left; simpa using h

theorem regGet_regMerge_of_not_has (r setup : Registry) (m : UserId)
    (h : regHas setup m = false) : regGet (regMerge r setup) m = regGet r m := by
  induction setup generalizing r with
  | nil => rfl
  | cons e es ih =>
    rw [regHas_cons] at h
    simp only [Bool.or_eq_false_iff, decide_eq_false_iff_not] at h
    rw [regMerge, ih _ h.2, regGet_regSet]
    have : ¬ m = e.1 := fun hh => h.1 hh.symm
    simp [this]

theorem regGet_regMerge_of_has (r setup : Registry) (m : UserId)
    (h : regHas setup m = true) : ∃ e, regGet (regMerge r setup) m = some e ∧ (m, e) ∈ setup := by
  induction setup generalizing r with
  | nil => simp [regHas, regGet] at h
  | cons e es ih =>
    rw [regMerge]
    cases hes : regHas es m with
    | true =>
      obtain ⟨x, hx, hmem⟩ := ih (regSet r e.1 e.2) hes
      exact ⟨x, hx, List.mem_cons_of_mem _ hmem⟩
    | false =>
      rw [regHas_cons, hes] at h
      simp only [Bool.or_false, decide_eq_true_eq] at h
      rw [regGet_regMerge_of_not_has _ _ _ hes, regGet_regSet]
      refine ⟨e.2, by simp [h], ?_⟩
      rw [← h]
      exact List.mem_cons_self _ _

theorem hereLoop_spec (P : Platform) (self : UserId) (stream : MediaStream)
    (hctor : ∀ u, P.pcCtorThrows u = false)
    (users : List User) (s : State) (setup : Registry)
    (hstream : s.acquiredStream = some stream) (hch : s.presenceChannel = true) :
    ∃ newPcs l,
      (hereLoop P self users s setup).1 = { s with pcs := s.pcs ++ newPcs, log := s.log ++ l } ∧
      (∀ m, l.countP (isOfferTo m) =
        users.countP (fun u => decide (u.id ≠ self) && decide (u.id = m))) ∧
      (∀ e ∈ l, isWhisper e = true) ∧
      (∀ m, regHas (hereLoop P self users s setup).2 m =
        (regHas setup m || users.any (fun u => decide (u.id ≠ self) && decide (u.id = m)))) ∧
      (∀ k e, (k, e) ∈ (hereLoop P self users s setup).2 → (k, e) ∈ setup ∨
        ∃ u ∈ users, u.id ≠ self ∧ k = u.id ∧ ∃ p, e = memberEntry u p ∧ s.pcs.length ≤ p ∧
          (s.pcs ++ newPcs)[p]? = some (offeredConn P p u.id stream)) := by
  induction users generalizing s setup with
  | nil =>
    refine ⟨[], [], by simp [hereLoop], by simp, by simp, by simp [hereLoop], ?_⟩
    intro k e h
    exact Or.inl (by simpa [hereLoop] using h)
  | cons u us ih =>
    by_cases he : u.id = self
    · rw [hereLoop_cons_self P self u us s setup he]
      obtain ⟨newPcs, l, h1, h2, h3, h4, h5⟩ := ih s setup hstream hch
      refine ⟨newPcs, l, h1, ?_, h3, ?_, ?_⟩
      · intro m
        rw [h2 m, List.countP_cons]
        simp [he]
      · intro m
        rw [h4 m]
        simp [he]
      · intro k e hk
        rcases h5 k e hk with h | ⟨u', hu', r⟩
        · exact Or.inl h
        · exact Or.inr ⟨u', List.mem_cons_of_mem _ hu', r⟩
    · rw [hereLoop_cons_other P self u us s setup stream hstream hch (hctor u.id) he]
      obtain ⟨newPcs, l, h1, h2, h3, h4, h5⟩ := ih
        { s with pcs := s.pcs ++ [offeredConn P s.pcs.length u.id stream],
                 log := s.log ++ [offerWhisper P self s.pcs.length u.id] }
        (regSet setup u.id (memberEntry u s.pcs.length)) hstream hch
      refine ⟨offeredConn P s.pcs.length u.id stream :: newPcs,
        offerWhisper P self s.pcs.length u.id :: l, ?_, ?_, ?_, ?_, ?_⟩
      · rw [h1]; simp
      · intro m
        rw [List.countP_cons, List.countP_cons, h2 m]
        by_cases hm : u.id = m
        · subst hm
          simp [he, offerWhisper, isOfferTo]
        · simp [he, hm, offerWhisper, isOfferTo]
      · intro e hmem
        rcases List.mem_cons.mp hmem with rfl | hmem
        · rfl
        · exact h3 e hmem
      · intro m
        rw [h4 m, regHas_regSet]
        by_cases hm : u.id = m
        · subst hm
          simp [he]
        · have : ¬ m = u.id := fun h => hm h.symm
          simp [he, hm, this]
      · intro k e hk
        rcases h5 k e hk with h | ⟨u', hu', hne', hk', p, hp, hle, hget⟩
        · rcases mem_regSet h with h | h
          · right
            refine ⟨u, List.mem_cons_self _ _, he, ?_, s.pcs.length, ?_, le_refl _, ?_⟩
            · exact (Prod.mk.inj h).1
            · exact (Prod.mk.inj h).2
            · rw [List.getElem?_append_right (le_refl _)]
              simp
          · exact Or.inl h
        · right
          refine ⟨u', List.mem_cons_of_mem _ hu', hne', hk', p, hp, ?_, ?_⟩
          · simp only [List.length_append, List.length_singleton] at hle
            omega
          · simpa using hget

theorem onHere_ok (P : Platform) (self : UserId) (users : List User) (s : State)
    (stream : MediaStream)
    (hact : s.isEffectActive = true) (hstream : s.acquiredStream = some stream) :
    onHere P self users s =
      setIsConnecting false
        { (hereLoop P self users s []).1 with
          participants := regMerge (hereLoop P self users s []).1.participants
            (hereLoop P self users s []).2 } := by
  simp [onHere, hact, hstream]

/-- C7. The `here` handler, session active, local stream acquired, channel
joined, connection constructor not throwing, snapshot listing each member
once.  For every member other than self the registry gets the entry `{id,
name, pc, stream: null}` whose connection was created by this handler and now
holds the offer as local description, and exactly one offer whisper addressed
to that member is sent.  The entry of the local id is as before and no offer
is addressed to it.  `isConnecting` is cleared, whatever the snapshot lists. -/
theorem here_offers_to_everyone_else (P : Platform) (self : UserId) (users : List User)
    (s : State) (stream : MediaStream)
    (hact : s.isEffectActive = true) (hstream : s.acquiredStream = some stream)
    (hch : s.presenceChannel = true) (hctor : ∀ u, P.pcCtorThrows u = false)
    (hnodup : (users.map User.id).Nodup) :
    (∀ u ∈ users, u.id ≠ self →
      (∃ p, regGet (onHere P self users s).participants u.id = some (memberEntry u p) ∧
        s.pcs.length ≤ p ∧
        (onHere P self users s).pcs[p]? = some (offeredConn P p u.id stream)) ∧
      (newLog s (onHere P self users s)).countP (isOfferTo u.id) = 1) ∧
    regGet (onHere P self users s).participants self = regGet s.participants self ∧
    (newLog s (onHere P self users s)).countP (isOfferTo self) = 0 ∧
    (onHere P self users s).isConnecting = false := by
  obtain ⟨newPcs, l, h1, h2, -, h4, h5⟩ := hereLoop_spec P self stream hctor users s [] hstream hch
  have hS : onHere P self users s =
      { s with pcs := s.pcs ++ newPcs,
               log := s.log ++ l ++ [Effect.ui (.isConnecting false)],
               participants := regMerge s.participants (hereLoop P self users s []).2,
               isConnecting := false } := by
    rw [onHere_ok P self users s stream hact hstream, h1]
    simp [setIsConnecting, State.emit]
  have hlog : newLog s (onHere P self users s) = l ++ [Effect.ui (.isConnecting false)] := by
    rw [hS]; simp [newLog]
  have hcount : ∀ m, (newLog s (onHere P self users s)).countP (isOfferTo m) =
      users.countP (fun u => decide (u.id ≠ self) && decide (u.id = m)) := by
    intro m
    rw [hlog, List.countP_append, h2 m]
    simp [isOfferTo]
  refine ⟨?_, ?_, ?_, by rw [hS]⟩
  · intro u hu hne
    refine ⟨?_, ?_⟩
    · have hhas : regHas (hereLoop P self users s []).2 u.id = true := by
        rw [h4 u.id]
        simp only [Bool.or_eq_true, List.any_eq_true]
        exact Or.inr ⟨u, hu, by simp [hne]⟩
      obtain ⟨e, hget, hmem⟩ := regGet_regMerge_of_has s.participants _ u.id hhas
      rcases h5 u.id e hmem with h | ⟨u', hu', -, hk', p, hp, hle, hpc⟩
      · cases h
      · have huu : u = u' :=
          List.inj_on_of_nodup_map hnodup hu hu' hk'
        subst huu
        refine ⟨p, ?_, hle, ?_⟩
        · rw [hS]; simp only; rw [hget, hp]
        · rw [hS]; exact hpc
    · rw [hcount u.id]
      have h3 : users.countP (fun x => decide (x.id ≠ self) && decide (x.id = u.id)) =
          (users.map User.id).count u.id := by
        rw [List.count, List.countP_map]
        apply List.countP_congr
        intro x _
        by_cases hx : x.id = u.id
        · simp [hx, hne]
        · simp [hx]
      rw [h3]
      exact List.count_eq_one_of_mem hnodup (List.mem_map.mpr ⟨u, hu, rfl⟩)
  · rw [hS]
    simp only
    apply regGet_regMerge_of_not_has
    rw [h4 self]
    simp [regHas, regGet]
  · rw [hcount self]
    rw [List.countP_eq_zero]
    intro x _
    by_cases hx : x.id = self <;> simp [hx]

theorem here_offers_to_everyone_else_witness :
    connOf (onHere Platform.nominal "me"
      [{ id := "me", name := none }, { id := "carol", name := some "Carol" }]
      callWithBob).participants "carol" = some 1 ∧
    (newLog callWithBob (onHere Platform.nominal "me"
      [{ id := "me", name := none }, { id := "carol", name := some "Carol" }]
      callWithBob)).countP (isOfferTo "carol") = 1 ∧
    (newLog callWithBob (onHere Platform.nominal "me"
      [{ id := "me", name := none }, { id := "carol", name := some "Carol" }]
      callWithBob)).countP (isOfferTo "me") = 0 ∧
    (onHere Platform.nominal "me" [] sessionStart).isConnecting = false := by
  have w := here_offers_to_everyone_else Platform.nominal "me"
    [{ id := "me", name := none }, { id := "carol", name := some "Carol" }]
    callWithBob [0, 1] (by decide) (by decide) (by decide) (fun _ => rfl) (by decide)
  have w0 := here_offers_to_everyone_else Platform.nominal "me" [] sessionStart [0, 1]
    (by decide) (by decide) (by decide) (fun _ => rfl) (by decide)
  exact ⟨by decide, (w.1 { id := "carol", name := some "Carol" } (by decide) (by decide)).2,
    w.2.2.1, w0.2.2.2⟩

/-! ### C11 -/

/-- C11 at the `here` snapshot `[bob]` delivered to the session `callWithBob`,
where `bob` is in the registry with connection 0: the handler creates a second
connection for `bob` (connection 1), makes the registry entry point to it, and
leaves connection 0 open, so `bob` has two live connections. -/
theorem here_recreates_existing_connection :
    connOf callWithBob.participants "bob" = some 0 ∧
    callWithBob.pcs.length = 1 ∧
    (onHere Platform.nominal "me" [{ id := "bob", name := some "Bob" }] callWithBob).pcs.map
      (fun c => (c.remoteUserId, c.signalingState)) =
      [("bob", .haveLocalOffer), ("bob", .haveLocalOffer)] ∧
    connOf (onHere Platform.nominal "me" [{ id := "bob", name := some "Bob" }]
      callWithBob).participants "bob" = some 1 := by
  decide

/-! ### C12 -/

/-- C12. Echo suppression: a whisper of any kind whose `senderId` is the local
id leaves the state as it is: registry, connections and log unchanged, no
connection created, nothing queued, nothing sent. -/
theorem own_whisper_ignored (P : Platform) (self : UserId) (w : Whisper) (s : State)
    (h : w.senderId = self) : onWhisper P self w s = s := by
  simp [onWhisper, h]

theorem own_whisper_ignored_witness :
    echoedOffer.senderId = "me" ∧ onWhisper Platform.nominal "me" echoedOffer callWithBob = callWithBob :=
  ⟨rfl, own_whisper_ignored Platform.nominal "me" echoedOffer callWithBob rfl⟩

/-! ### C18 -/

/-- C18 at the event `leaving bob` of the session `callWithBob`: the handler
calls `close` on `bob`'s connection without detaching any handler first (the
only call logged is the close), and the closed connection still has its four
handlers attached.  Teardown, the other closing path, detaches them (in its
updater, which React runs at the render). -/
theorem leaving_closes_without_detaching :
    newLog callWithBob (onLeaving Platform.nominal "me" { id := "bob", name := none }
      callWithBob) = [Effect.pcClose 0] ∧
    ((onLeaving Platform.nominal "me" { id := "bob", name := none } callWithBob).pcs.map
      (fun c => (c.signalingState, c.onicecandidate, c.ontrack,
        c.oniceconnectionstatechange, c.onconnectionstatechange))) =
      [(.closed, true, true, true, true)] ∧
    regHas (onLeaving Platform.nominal "me" { id := "bob", name := none }
      callWithBob).participants "bob" = false ∧
    ((render Platform.nominal
        (cleanupConnections Platform.nominal demoProps callWithBob).1).pcs.map
      (fun c => (c.signalingState, c.onicecandidate, c.ontrack,
        c.oniceconnectionstatechange, c.onconnectionstatechange))) =
      [(.closed, false, false, false, false)] := by
  decide

/-! ### C16 -/

theorem addLocalTrack_senders (P : Platform) (c : PeerConn) (t : TrackId) :
    (addLocalTrack P c t).senders =
      if t ∈ c.senders ∨ P.addTrackThrows t = true then c.senders else c.senders ++ [t] := by
  unfold addLocalTrack
  by_cases h1 : t ∈ c.senders
  · simp [h1]
  · cases h2 : P.addTrackThrows t <;> simp [h1, h2]

theorem foldl_addLocalTrack_nodup (P : Platform) (stream : MediaStream) (c : PeerConn)
    (hc : c.senders.Nodup) :
    (stream.foldl (addLocalTrack P) c).senders.Nodup ∧
    (∀ t, t ∈ (stream.foldl (addLocalTrack P) c).senders → t ∈ c.senders ∨ t ∈ stream) ∧
    (∀ t, t ∈ c.senders → t ∈ (stream.foldl (addLocalTrack P) c).senders) ∧
    ((∀ t, P.addTrackThrows t = false) →
      ∀ t, t ∈ stream → t ∈ (stream.foldl (addLocalTrack P) c).senders) := by
  induction stream generalizing c with
  | nil => simp [hc]
  | cons a as ih =>
    have hs := addLocalTrack_senders P c a
    have hnd : (addLocalTrack P c a).senders.Nodup := by
      rw [hs]
      split
      · exact hc
      · rename_i h
        have hna : a ∉ c.senders := fun hm => h (Or.inl hm)
        exact List.Nodup.append hc (List.nodup_singleton a) (by simpa using hna)
    obtain ⟨i1, i2, i3, i4⟩ := ih (addLocalTrack P c a) hnd
    have hsub : ∀ t, t ∈ (addLocalTrack P c a).senders → t ∈ c.senders ∨ t = a := by
      intro t ht
      rw [hs] at ht
      split at ht
      · exact Or.inl ht
      · simpa using ht
    have hsup : ∀ t, t ∈ c.senders → t ∈ (addLocalTrack P c a).senders := by
      intro t ht
      rw [hs]
      split
      · exact ht
      · exact List.mem_append_left _ ht
    refine ⟨i1, ?_, ?_, ?_⟩
    · intro t ht
      rcases i2 t ht with h | h
      · rcases hsub t h with h | h
        · exact Or.inl h
        · exact Or.inr (by simp [h])
      · exact Or.inr (List.mem_cons_of_mem _ h)
    · intro t ht
      exact i3 t (hsup t ht)
    · intro hno t ht
      rcases List.mem_cons.mp ht with rfl | ht
      · apply i3
        rw [hs]
        by_cases hm : t ∈ c.senders
        · simp [hm]
        · simp [hm, hno t]
      · exact i4 hno t ht

/-- C16. Local track dedup in `createPeerConnection`.  On any platform and for
any stream, also one that lists a track several times, the senders of the
connection returned are pairwise distinct and are tracks of the stream; when
`addTrack` does not throw, every track of the stream has a sender, exactly
one.  Attaching a track that already has a sender leaves the connection as it
is. -/
theorem local_tracks_added_once (P : Platform) (remoteUserId : UserId) (stream : MediaStream) :
    (newConn P remoteUserId stream).senders.Nodup ∧
    (∀ t, t ∈ (newConn P remoteUserId stream).senders → t ∈ stream) ∧
    ((∀ t, P.addTrackThrows t = false) →
      ∀ t, t ∈ stream → (newConn P remoteUserId stream).senders.count t = 1) ∧
    (∀ (c : PeerConn) (t : TrackId), t ∈ c.senders → addLocalTrack P c t = c) ∧
    (∀ (s : State), P.pcCtorThrows remoteUserId = false →
      (createPeerConnection P remoteUserId (some stream) s).1.pcs[s.pcs.length]? =
        some (newConn P remoteUserId stream)) := by
  obtain ⟨h1, h2, -, h4⟩ := foldl_addLocalTrack_nodup P stream (PeerConn.fresh remoteUserId)
    (by simp [PeerConn.fresh])
  refine ⟨h1, ?_, ?_, ?_, ?_⟩
  · intro t ht
    rcases h2 t ht with h | h
    · simp [PeerConn.fresh] at h
    · exact h
  · intro hno t ht
    exact List.count_eq_one_of_mem h1 (h4 hno t ht)
  · intro c t ht
    simp [addLocalTrack, ht]
  · intro s hs
    rw [createPeerConnection_ok P remoteUserId stream s hs]
    simp

theorem local_tracks_added_once_witness :
    (newConn Platform.nominal "bob" [0, 1, 0, 1, 1]).senders = [0, 1] ∧
    (newConn Platform.nominal "bob" [0, 1, 0, 1, 1]).senders.count 1 = 1 := by
  have w := local_tracks_added_once Platform.nominal "bob" [0, 1, 0, 1, 1]
  exact ⟨by decide, w.2.2.1 (fun _ => rfl) 1 (by decide)⟩

/-! ### C17 -/

theorem regSet_regSet_same (r : Registry) (k : UserId) (v : Participant) :
    regSet (regSet r k v) k v = regSet r k v := by
  have hhas : regHas (regSet r k v) k = true := by
    simp [regHas, regGet_regSet]
  conv_lhs => rw [regSet, if_pos hhas]
  unfold regSet
  cases h : regHas r k with
  | true =>
    simp only [↓reduceIte, List.map_map]
    apply List.map_congr_left
    intro e _
    by_cases he : e.1 = k <;> simp [he]
  | false =>
    have hnone : ∀ e ∈ r, ¬ e.1 = k := by
      intro e he hk
      have : regHas r k = true := by
        clear h hhas
        induction r with
        | nil => cases he
        | cons x xs ih =>
          rcases List.mem_cons.mp he with rfl | hmem
          · simp [regHas, regGet, hk]
          · by_cases hx : x.1 = k
            · simp [regHas, regGet, hx]
            · have := ih hmem
              simpa [regHas, regGet, hx] using this
      rw [h] at this
      cases this
    simp only [Bool.false_eq_true, ↓reduceIte, List.map_append, List.map_cons, List.map_nil]
    congr 1
    conv_rhs => rw [← List.map_id r]
    apply List.map_congr_left
    intro e he
    simp [hnone e he]

/-- C17. The `ontrack` handler for participant `remoteUserId`.  If the
participant is not in the registry the state is unchanged.  If it is, with
entry `e`, the registry becomes the registry with that entry replaced by `e`
with its stream set (created when absent) to the old tracks plus the new one
if it was not there; all else in the state is unchanged, every other entry is
as before, the track is in the stream, exactly once when the stream had no
duplicate; and delivering the same track a second time changes nothing. -/
theorem remote_track_added_once (remoteUserId : UserId) (track : Nat) (s : State) :
    (regGet s.participants remoteUserId = none → onTrack remoteUserId track s = s) ∧
    (∀ e, regGet s.participants remoteUserId = some e →
      onTrack remoteUserId track s =
        { s with participants :=
            regSet s.participants remoteUserId (e.withStream (withTrack e.stream track)) } ∧
      regGet (onTrack remoteUserId track s).participants remoteUserId =
        some (e.withStream (withTrack e.stream track)) ∧
      track ∈ withTrack e.stream track ∧
      (∀ t, t ∈ withTrack e.stream track ↔ t ∈ e.stream.getD [] ∨ t = track) ∧
      ((e.stream.getD []).Nodup →
        (withTrack e.stream track).count track = 1 ∧ (withTrack e.stream track).Nodup)) ∧
    (∀ y, y ≠ remoteUserId →
      regGet (onTrack remoteUserId track s).participants y = regGet s.participants y) ∧
    onTrack remoteUserId track (onTrack remoteUserId track s) = onTrack remoteUserId track s := by
  have hstep : ∀ (s0 : State) (e : Participant), regGet s0.participants remoteUserId = some e →
      onTrack remoteUserId track s0 =
        { s0 with participants :=
            regSet s0.participants remoteUserId (e.withStream (withTrack e.stream track)) } := by
    intro s0 e he
    simp [onTrack, he, withTrack, Participant.withStream]
  have hnone : ∀ s0 : State, regGet s0.participants remoteUserId = none →
      onTrack remoteUserId track s0 = s0 := by
    intro s0 h0
    simp [onTrack, h0]
  have hmem : ∀ (o : Option (List Nat)) (t : Nat),
      t ∈ withTrack o track ↔ t ∈ o.getD [] ∨ t = track := by
    intro o t
    unfold withTrack
    by_cases hc : track ∈ o.getD []
    · have hb : (o.getD []).contains track = true := by simpa using hc
      simp only [hb, ↓reduceIte]
      constructor
      · exact Or.inl
      · rintro (h | rfl)
        · exact h
        · exact hc
    · simp [hc]
  have hidem : ∀ o : Option (List Nat), withTrack (some (withTrack o track)) track =
      withTrack o track := by
    intro o
    have : track ∈ withTrack o track := (hmem o track).mpr (Or.inr rfl)
    conv_lhs => rw [withTrack]
    simp [this]
  refine ⟨hnone s, ?_, ?_, ?_⟩
  · intro e he
    refine ⟨hstep s e he, ?_, (hmem e.stream track).mpr (Or.inr rfl), hmem e.stream, ?_⟩
    · rw [hstep s e he]
      simp [regGet_regSet]
    · intro hnd
      have hnd2 : (withTrack e.stream track).Nodup := by
        unfold withTrack
        by_cases hc : track ∈ e.stream.getD []
        · simpa [hc] using hnd
        · have hb : (e.stream.getD []).contains track = false := by simpa using hc
          simp only [hb, Bool.false_eq_true, ↓reduceIte]
          exact List.Nodup.append hnd (List.nodup_singleton track) (by simpa using hc)
      exact ⟨List.count_eq_one_of_mem hnd2 ((hmem e.stream track).mpr (Or.inr rfl)), hnd2⟩
  · intro y hy
    cases he : regGet s.participants remoteUserId with
    | none => rw [hnone s he]
    | some e =>
      rw [hstep s e he]
      simp [regGet_regSet, hy]
  · cases he : regGet s.participants remoteUserId with
    | none => rw [hnone s he, hnone s he]
    | some e =>
      have h1 := hstep s e he
      have he2 : regGet (onTrack remoteUserId track s).participants remoteUserId =
          some (e.withStream (withTrack e.stream track)) := by
        rw [h1]; simp [regGet_regSet]
      rw [hstep _ _ he2, h1]
      simp only [Participant.withStream, hidem, regSet_regSet_same]

theorem remote_track_added_once_witness :
    (regGet callWithBobTrack.participants "bob").map (fun e => e.stream) = some (some [11]) ∧
    onTrack "bob" 11 callWithBobTrack = callWithBobTrack ∧
    onTrack "carol" 11 callWithBob = callWithBob := by
  have w := remote_track_added_once "bob" 11 callWithBob
  have w2 := remote_track_added_once "carol" 11 callWithBob
  exact ⟨by decide, w.2.2.2, w2.1 (by decide)⟩

/-! ### C19 -/

theorem createPeerConnection_cases (P : Platform) (remoteUserId : UserId)
    (stream : Option MediaStream) (s : State) :
    createPeerConnection P remoteUserId stream s = (s, none) ∨
    ∃ st, stream = some st ∧
      createPeerConnection P remoteUserId stream s =
        ({ s with pcs := s.pcs ++ [newConn P remoteUserId st] }, some s.pcs.length) := by
  unfold createPeerConnection
  cases stream with
  | none => exact Or.inl rfl
  | some st =>
    cases h : P.pcCtorThrows remoteUserId with
    | true => exact Or.inl (by simp)
    | false => exact Or.inr ⟨st, rfl, by simp⟩

/-- C19. `sendOffer` is invoked on stable connections only.  Its one call site
is the loop of the `here` handler; in every iteration of that loop, from any
state and on any platform, either `createPeerConnection` returns no connection
and `sendOffer` is not called, or `sendOffer` is called for the connection
just returned, in the state just returned, in which that connection is
`stable` with no local and no remote description; the call then leaves a
pending local offer on it.  For the local id the loop calls nothing. -/
theorem sendOffer_only_when_stable (P : Platform) (self : UserId) (u : User) (us : List User)
    (s : State) (setup : Registry) :
    (u.id ≠ self →
      (createPeerConnection P u.id s.acquiredStream s = (s, none) ∧
        hereLoop P self (u :: us) s setup = hereLoop P self us s setup) ∨
      (∃ s1 pc c, createPeerConnection P u.id s.acquiredStream s = (s1, some pc) ∧
        s1.pcs[pc]? = some c ∧ c.signalingState = .stable ∧
        c.localDescription = none ∧ c.remoteDescription = none ∧
        ((sendOffer P self (some pc) u.id s1).pcs[pc]?).map (fun x => x.signalingState) =
          some .haveLocalOffer ∧
        hereLoop P self (u :: us) s setup =
          hereLoop P self us (sendOffer P self (some pc) u.id s1)
            (regSet setup u.id (memberEntry u pc)))) ∧
    (u.id = self → hereLoop P self (u :: us) s setup = hereLoop P self us s setup) := by
  refine ⟨?_, hereLoop_cons_self P self u us s setup⟩
  intro hne
  rcases createPeerConnection_cases P u.id s.acquiredStream s with h | ⟨st, hst, h⟩
  · left
    refine ⟨h, ?_⟩
    rw [hereLoop, if_pos hne, h]
  · right
    obtain ⟨h1, h2, h3, -⟩ := newConn_state P u.id st
    obtain ⟨S, hS⟩ := newConn_shape P u.id st
    refine ⟨_, s.pcs.length, newConn P u.id st, h, by simp, h1, h2, h3, ?_, ?_⟩
    · unfold sendOffer
      simp [hS, PeerConn.fresh, pcCreateOffer, pcSetLocalDescription, whisperIfJoined, setPc,
        State.emit]
      split <;> simp
    · rw [hereLoop, if_pos hne, h]
      rfl

theorem sendOffer_only_when_stable_witness :
    ((createPeerConnection Platform.nominal "carol" callWithBob.acquiredStream
      callWithBob).1.pcs[1]?).map (fun c => c.signalingState) = some .stable ∧
    hereLoop Platform.nominal "me" [{ id := "me", name := none }] callWithBob [] =
      hereLoop Platform.nominal "me" [] callWithBob [] := by
  have w := sendOffer_only_when_stable Platform.nominal "me" { id := "me", name := none } []
    callWithBob []
  exact ⟨by decide, w.2 rfl⟩

/-! ### C20 -/

theorem setEnabled_shape (b : Bool) (ts : List TrackId) (s : State) :
    setEnabled b ts s = { s with tracks := enableAll b ts s.tracks } := by
  induction ts generalizing s with
  | nil => rfl
  | cons t ts ih =>
    rw [setEnabled, ih]
    rfl

theorem getElem?_enableAll (b : Bool) (ts : List TrackId) (tracks : List Track) (i : Nat) :
    (enableAll b ts tracks)[i]? =
      if i ∈ ts then (tracks[i]?).map (Track.withEnabled b) else tracks[i]? :=
  getElem?_foldl_modifyAt (Track.withEnabled b) (fun _ => rfl) ts tracks i

theorem length_enableAll (b : Bool) (ts : List TrackId) (tracks : List Track) :
    (enableAll b ts tracks).length = tracks.length := by
  induction ts generalizing tracks with
  | nil => rfl
  | cons t ts ih =>
    unfold enableAll
    rw [List.foldl_cons]
    exact (ih _).trans (length_modifyAt _ _ _)

theorem mem_tracksOfKind (k : TrackKind) (s : State) (stream : MediaStream) (i : TrackId) :
    i ∈ tracksOfKind k s stream ↔ i ∈ stream ∧ ∃ tr, s.tracks[i]? = some tr ∧ tr.kind = k := by
  cases k <;>
  · simp only [tracksOfKind, getAudioTracks, getVideoTracks, List.mem_filter]
    constructor
    · rintro ⟨h1, h2⟩
      refine ⟨h1, ?_⟩
      cases h : s.tracks[i]? with
      | none => simp [h] at h2
      | some tr => exact ⟨tr, rfl, by simpa [h] using h2⟩
    · rintro ⟨h1, tr, h2, h3⟩
      exact ⟨h1, by simp [h2, h3]⟩

theorem tracksOfKind_congr (k : TrackKind) (s s1 : State) (stream : MediaStream)
    (h : ∀ i : Nat, (s1.tracks[i]?).map Track.kind = (s.tracks[i]?).map Track.kind) :
    tracksOfKind k s1 stream = tracksOfKind k s stream := by
  cases k <;>
  · simp only [tracksOfKind, getAudioTracks, getVideoTracks]
    apply List.filter_congr
    intro i _
    have hi := h i
    cases h1 : s1.tracks[i]? <;> cases h2 : s.tracks[i]? <;> simp [h1, h2] at hi ⊢
    rw [hi]

theorem toggle_frame_trans (a b c : State)
    (h1 : ({ b with
        tracks := a.tracks, isAudioMuted := a.isAudioMuted,
        isVideoMuted := a.isVideoMuted, log := a.log } : State) = a)
    (h2 : ({ c with
        tracks := b.tracks, isAudioMuted := b.isAudioMuted,
        isVideoMuted := b.isVideoMuted, log := b.log } : State) = b)
    (ht : c.tracks = a.tracks) (hA : c.isAudioMuted = a.isAudioMuted)
    (hV : c.isVideoMuted = a.isVideoMuted) :
    ({ c with log := a.log } : State) = a := by
  cases a
  cases b
  cases c
  simp only [State.mk.injEq] at h1 h2 ht hA hV ⊢
  simp_all

theorem toggled_noop_of_no_stream (k : TrackKind) (s : State) (h : s.localStream = none) :
    toggled k s = s := by
  cases k <;> simp [toggled, toggleAudio, toggleVideo, h]

theorem toggled_noop_of_no_track (k : TrackKind) (s : State) (st : MediaStream)
    (h : s.localStream = some st) (h0 : tracksOfKind k s st = []) : toggled k s = s := by
  cases k <;> simp [toggled, toggleAudio, toggleVideo, h, tracksOfKind] at h0 ⊢ <;> simp [h0]

theorem toggled_shape (k : TrackKind) (s : State) (st : MediaStream)
    (h : s.localStream = some st) (h0 : tracksOfKind k s st ≠ []) :
    (toggled k s).tracks = enableAll (mutedFlag k s) (tracksOfKind k s st) s.tracks ∧
    mutedFlag k (toggled k s) = !mutedFlag k s ∧
    (∀ k2, k2 ≠ k → mutedFlag k2 (toggled k s) = mutedFlag k2 s) ∧
    (toggled k s).localStream = some st ∧
    ({ (toggled k s) with
        tracks := s.tracks, isAudioMuted := s.isAudioMuted,
        isVideoMuted := s.isVideoMuted, log := s.log } : State) = s ∧
    (∀ e ∈ newLog s (toggled k s), ∃ u, e = Effect.ui u) := by
  cases k
  · have h0' : ¬ (getAudioTracks s st).length = 0 := fun hl => h0 (List.length_eq_zero.mp hl)
    have hs : toggled .audio s =
        { s with tracks := enableAll s.isAudioMuted (getAudioTracks s st) s.tracks,
                 isAudioMuted := !s.isAudioMuted,
                 log := s.log ++ [Effect.ui (.isAudioMuted (!s.isAudioMuted))] } := by
      simp [toggled, toggleAudio, h, h0', setEnabled_shape, setIsAudioMuted, State.emit]
    rw [hs]
    refine ⟨rfl, rfl, ?_, h, ?_, ?_⟩
    · intro k2 hk2
      cases k2
      · exact absurd rfl hk2
      · rfl
    · rfl
    · intro e he
      simp [newLog] at he
      exact ⟨_, he⟩
  · have h0' : ¬ (getVideoTracks s st).length = 0 := fun hl => h0 (List.length_eq_zero.mp hl)
    have hs : toggled .video s =
        { s with tracks := enableAll s.isVideoMuted (getVideoTracks s st) s.tracks,
                 isVideoMuted := !s.isVideoMuted,
                 log := s.log ++ [Effect.ui (.isVideoMuted (!s.isVideoMuted))] } := by
      simp [toggled, toggleVideo, h, h0', setEnabled_shape, setIsVideoMuted, State.emit]
    rw [hs]
    refine ⟨rfl, rfl, ?_, h, ?_, ?_⟩
    · intro k2 hk2
      cases k2
      · rfl
      · exact absurd rfl hk2
    · rfl
    · intro e he
      simp [newLog] at he
      exact ⟨_, he⟩

/-- C20. Mute toggling, for either kind `k` (audio: `toggleAudio`, video:
`toggleVideo`).  The toggle is a no-op when the local stream is absent or has
no track of kind `k`.  Otherwise it sets `enabled` of every track of kind `k`
of the stream to the previous muted value and of no other track, negates the
muted flag of kind `k`, keeps the other kind's muted flag and tracks, keeps
the stream, the number of tracks and every track's kind and `ended` (no track
is stopped or removed), changes nothing else in the state and only calls a UI
setter.  If the tracks of kind `k` were enabled exactly when not muted,
toggling twice restores the track store and the muted flag: the state is the
original one but for the log. -/
theorem mute_toggle (k : TrackKind) (s : State) :
    (s.localStream = none → toggled k s = s) ∧
    (∀ st, s.localStream = some st → tracksOfKind k s st = [] → toggled k s = s) ∧
    (∀ st, s.localStream = some st → tracksOfKind k s st ≠ [] →
      (∀ i : Nat, (toggled k s).tracks[i]? =
        if i ∈ tracksOfKind k s st then (s.tracks[i]?).map (Track.withEnabled (mutedFlag k s))
        else s.tracks[i]?) ∧
      mutedFlag k (toggled k s) = !mutedFlag k s ∧
      (toggled k s).localStream = some st ∧
      (toggled k s).tracks.length = s.tracks.length ∧
      (∀ i : Nat, ((toggled k s).tracks[i]?).map (fun tr => (tr.kind, tr.ended)) =
        (s.tracks[i]?).map (fun tr => (tr.kind, tr.ended))) ∧
      (∀ k2, k2 ≠ k → mutedFlag k2 (toggled k s) = mutedFlag k2 s ∧
        ∀ i ∈ tracksOfKind k2 s st, (toggled k s).tracks[i]? = s.tracks[i]?) ∧
      ({ (toggled k s) with
          tracks := s.tracks, isAudioMuted := s.isAudioMuted,
          isVideoMuted := s.isVideoMuted, log := s.log } : State) = s ∧
      (∀ e ∈ newLog s (toggled k s), ∃ u, e = Effect.ui u) ∧
      ((∀ i ∈ tracksOfKind k s st, ∀ tr, s.tracks[i]? = some tr →
          tr.enabled = !mutedFlag k s) →
        (toggled k (toggled k s)).tracks = s.tracks ∧
        mutedFlag k (toggled k (toggled k s)) = mutedFlag k s ∧
        ({ (toggled k (toggled k s)) with log := s.log } : State) = s)) := by
  refine ⟨toggled_noop_of_no_stream k s, toggled_noop_of_no_track k s, ?_⟩
  intro st hst hne
  obtain ⟨t1, t2, t3, t4, t5, t6⟩ := toggled_shape k s st hst hne
  have hget : ∀ i : Nat, (toggled k s).tracks[i]? =
      if i ∈ tracksOfKind k s st then (s.tracks[i]?).map (Track.withEnabled (mutedFlag k s))
      else s.tracks[i]? := by
    intro i
    rw [t1, getElem?_enableAll]
  have hkind : ∀ i : Nat, ((toggled k s).tracks[i]?).map Track.kind =
      (s.tracks[i]?).map Track.kind := by
    intro i
    rw [hget i]
    split
    · cases s.tracks[i]? <;> rfl
    · rfl
  have hsame : tracksOfKind k (toggled k s) st = tracksOfKind k s st :=
    tracksOfKind_congr k s (toggled k s) st hkind
  refine ⟨hget, t2, t4, by rw [t1, length_enableAll], ?_, ?_, t5, t6, ?_⟩
  · intro i
    rw [hget i]
    split
    · cases s.tracks[i]? <;> rfl
    · rfl
  · intro k2 hk2
    refine ⟨t3 k2 hk2, ?_⟩
    intro i hi
    rw [hget i]
    have hnot : i ∉ tracksOfKind k s st := by
      intro hmem
      obtain ⟨-, tr, h1, h2⟩ := (mem_tracksOfKind k s st i).mp hmem
      obtain ⟨-, tr2, h3, h4⟩ := (mem_tracksOfKind k2 s st i).mp hi
      rw [h1] at h3
      cases h3
      exact hk2 (h4.symm.trans h2)
    simp [hnot]
  · intro hcons
    have hne2 : tracksOfKind k (toggled k s) st ≠ [] := by rw [hsame]; exact hne
    obtain ⟨u1, u2, u3, u4, u5, -⟩ := toggled_shape k (toggled k s) st t4 hne2
    have htracks : (toggled k (toggled k s)).tracks = s.tracks := by
      apply List.ext_getElem?
      intro i
      rw [u1, getElem?_enableAll, hsame, hget i, t2]
      by_cases hi : i ∈ tracksOfKind k s st
      · simp only [hi, ↓reduceIte]
        cases htr : s.tracks[i]? with
        | none => rfl
        | some tr =>
          have he := hcons i hi tr htr
          simp only [Option.map_some', Option.some.injEq]
          cases tr
          simp only [Track.withEnabled] at he ⊢
          rw [he]
      · simp only [hi, ↓reduceIte]
    have hflag : mutedFlag k (toggled k (toggled k s)) = mutedFlag k s := by
      rw [u2, t2, Bool.not_not]
    refine ⟨htracks, hflag, ?_⟩
    have hA : (toggled k (toggled k s)).isAudioMuted = s.isAudioMuted := by
      cases k
      · exact hflag
      · exact (u3 .audio (by decide)).trans (t3 .audio (by decide))
    have hV : (toggled k (toggled k s)).isVideoMuted = s.isVideoMuted := by
      cases k
      · exact (u3 .video (by decide)).trans (t3 .video (by decide))
      · exact hflag
    exact toggle_frame_trans s (toggled k s) (toggled k (toggled k s)) t5 u5 htracks hA hV

theorem mute_toggle_witness :
    (mutedSession.tracks.map (fun tr => (tr.kind, tr.enabled, tr.ended))) =
      [(.audio, false, false), (.video, true, false)] ∧
    mutedSession.isAudioMuted = true ∧ mutedSession.isVideoMuted = false ∧
    (toggleAudio mutedSession).tracks = sessionStart.tracks ∧
    toggleAudio State.mounted = State.mounted := by
  have w := mute_toggle .audio sessionStart
  have w2 := (w.2.2 [0, 1] (by decide) (by decide)).2.2.2.2.2.2.2.2 (by decide)
  exact ⟨by decide, by decide, by decide, w2.1, (mute_toggle .audio State.mounted).1 rfl⟩

/-! ### C15 -/

theorem getElem?_setPc_ne (p q : PcId) (c : PeerConn) (s : State) (h : p ≠ q) :
    (setPc p c s).pcs[q]? = s.pcs[q]? := by
  simp [setPc, List.getElem?_set, h]

theorem setPc_shape (p : PcId) (c : PeerConn) (s : State) :
    setPc p c s = { s with pcs := (setPc p c s).pcs } := rfl

theorem handleAnswer_other_pcs (senderId : UserId) (answer : Option Sdp) (s : State)
    (q : PcId) (h : connOf s.participants senderId ≠ some q) :
    (handleAnswer senderId answer s).pcs[q]? = s.pcs[q]? := by
  unfold handleAnswer
  unfold connOf at h
  split
  · rename_i p hp
    have hpq : p ≠ q := fun e => h (by rw [hp, e])
    split
    · split
      · split
        · exact getElem?_setPc_ne p q _ s hpq
        · rfl
      · rfl
    · rfl
  · rfl

theorem handleIceCandidate_shape (senderId : UserId) (candidate : Option Nat) (s : State) :
    ∃ X, handleIceCandidate senderId candidate s = { s with pcs := X } := by
  unfold handleIceCandidate
  split
  · split
    · split
      · split
        · exact ⟨_, rfl⟩
        · exact ⟨s.pcs, rfl⟩
      · exact ⟨s.pcs, rfl⟩
    · exact ⟨s.pcs, rfl⟩
  · exact ⟨s.pcs, rfl⟩

theorem handleIceCandidate_other_pcs (senderId : UserId) (candidate : Option Nat) (s : State)
    (q : PcId) (h : connOf s.participants senderId ≠ some q) :
    (handleIceCandidate senderId candidate s).pcs[q]? = s.pcs[q]? := by
  unfold handleIceCandidate
  unfold connOf at h
  split
  · rename_i p cand hp
    have hpq : p ≠ q := fun e => h (by rw [hp, e])
    split
    · split
      · split
        · exact getElem?_setPc_ne p q _ s hpq
        · rfl
      · rfl
    · rfl
  · rfl

/-- The entry `handleOffer` queues for its `setTimeout` callback. -/
theorem handleOffer_shape (P : Platform) (senderId : UserId) (offer : Option Sdp)
    (stream : Option MediaStream) (s : State) :
    ∃ R X pc, handleOffer P senderId offer stream s =
        { s with participants := R, pcs := s.pcs ++ X,
                 pendingOffers := s.pendingOffers ++
                   [({ senderId := senderId, offer := offer, pc := pc } : PendingOffer)] } ∧
      (∀ y, y ≠ senderId → regGet R y = regGet s.participants y) := by
  unfold handleOffer
  cases hc : (regGet s.participants senderId).bind (fun e => e.pc) with
  | some p =>
    exact ⟨s.participants, [], some p, by simp, fun _ _ => rfl⟩
  | none =>
    rcases createPeerConnection_cases P senderId stream s with h | ⟨st, -, h⟩
    · exact ⟨s.participants, [], none, by simp [h], fun _ _ => rfl⟩
    · refine ⟨regSet s.participants senderId
          ({ id := senderId, name := defaultName senderId, pc := some s.pcs.length,
             stream := none }),
        [newConn P senderId st], some s.pcs.length, by simp only [h], ?_⟩
      intro y hy
      simp [regGet_regSet, hy]

theorem answerOffer_shape (P : Platform) (self : UserId) (p : PcId) (senderId : UserId)
    (offer : Option Sdp) (s : State) :
    ∃ X l, answerOffer P self p senderId offer s = { s with pcs := X, log := s.log ++ l } ∧
      (∀ e ∈ l, ∃ w : Whisper, e = Effect.whisper w ∧ w.kind = .answer ∧ w.senderId = self ∧
        w.recipientId = senderId) ∧
      (∀ q : PcId, p ≠ q → X[q]? = s.pcs[q]?) := by
  unfold answerOffer
  cases hc : s.pcs[p]? with
  | none => exact ⟨s.pcs, [], by simp, by simp, fun _ _ => rfl⟩
  | some c =>
    cases ho : offer with
    | none => exact ⟨s.pcs, [], by simp, by simp, fun _ _ => rfl⟩
    | some offer =>
      simp only
      cases h1 : pcSetRemoteDescription offer c with
      | none => exact ⟨s.pcs, [], by simp, by simp, fun _ _ => rfl⟩
      | some c1 =>
        simp only
        cases h2 : pcCreateAnswer P p c1 with
        | none =>
          refine ⟨_, [], by simp [setPc]; rfl, by simp, ?_⟩
          intro q hq
          simp [List.getElem?_set, hq]
        | some answer =>
          simp only
          cases h3 : pcSetLocalDescription answer c1 with
          | none =>
            refine ⟨_, [], by simp [setPc]; rfl, by simp, ?_⟩
            intro q hq
            simp [List.getElem?_set, hq]
          | some c2 =>
            simp only
            unfold whisperIfJoined
            cases hch : s.presenceChannel with
            | false =>
              refine ⟨_, [], by simp [setPc, hch]; rfl, by simp, ?_⟩
              intro q hq
              simp [List.getElem?_set, hq]
            | true =>
              refine ⟨_, [_], by simp [setPc, hch, State.emit]; exact ⟨rfl, rfl⟩, ?_, ?_⟩
              · intro e he
                simp only [List.mem_singleton] at he
                exact ⟨_, he, rfl, rfl, rfl⟩
              · intro q hq
                simp [List.getElem?_set, hq]

theorem offerTimerFires_shape (P : Platform) (self : UserId) (s : State) (po : PendingOffer)
    (rest : List PendingOffer) (h : s.pendingOffers = po :: rest) :
    ∃ X l, offerTimerFires P self s = { s with pendingOffers := rest, pcs := X, log := s.log ++ l } ∧
      (∀ e ∈ l, ∃ w : Whisper, e = Effect.whisper w ∧ w.kind = .answer ∧ w.senderId = self ∧
        w.recipientId = po.senderId) ∧
      (∀ q : PcId, connOf s.closureParticipants po.senderId ≠ some q → po.pc ≠ some q →
        X[q]? = s.pcs[q]?) := by
  unfold offerTimerFires
  rw [h]
  simp only
  cases hcl : (regGet s.closureParticipants po.senderId).bind (fun e => e.pc) with
  | none =>
    cases hpc : po.pc with
    | none => exact ⟨s.pcs, [], by simp, by simp, fun _ _ _ => rfl⟩
    | some p =>
      simp only
      obtain ⟨X, l, h1, h2, h3⟩ := answerOffer_shape P self p po.senderId po.offer
        { s with pendingOffers := rest }
      refine ⟨X, l, by rw [h1], h2, ?_⟩
      intro q _ hq
      exact h3 q (fun e => hq (by rw [e]))
  | some p =>
    simp only
    obtain ⟨X, l, h1, h2, h3⟩ := answerOffer_shape P self p po.senderId po.offer
      { s with pendingOffers := rest }
    refine ⟨X, l, by rw [h1], h2, ?_⟩
    intro q hq _
    exact h3 q (fun e => hq (by simp [connOf, hcl, e]))

theorem onWhisper_shape (P : Platform) (self : UserId) (w : Whisper) (s : State) :
    ∃ R X Q, onWhisper P self w s =
        { s with participants := R, pcs := X, pendingOffers := Q } ∧
      (∀ y, y ≠ w.senderId → regGet R y = regGet s.participants y) ∧
      (∀ (q : PcId) (c : PeerConn), s.pcs[q]? = some c →
        connOf s.participants w.senderId ≠ some q → X[q]? = some c) := by
  unfold onWhisper
  cases hg : (s.isEffectActive && decide (w.senderId ≠ self)) with
  | false =>
    exact ⟨s.participants, s.pcs, s.pendingOffers, by simp, fun _ _ => rfl, fun _ _ h _ => h⟩
  | true =>
    simp only [↓reduceIte]
    cases hk : w.kind with
    | offer =>
      simp only
      obtain ⟨R, X, pc, h1, h2⟩ :=
        handleOffer_shape P w.senderId w.sdpField s.acquiredStream s
      refine ⟨R, s.pcs ++ X, _, h1, h2, ?_⟩
      intro q c hq _
      have hlt : q < s.pcs.length := (List.getElem?_eq_some_iff.mp hq).1
      rw [List.getElem?_append_left hlt]
      exact hq
    | answer =>
      simp only
      obtain ⟨X, h1⟩ := handleAnswer_shape w.senderId w.sdpField s
      refine ⟨s.participants, X, s.pendingOffers, by rw [h1], fun _ _ => rfl, ?_⟩
      intro q c hq hne
      have := handleAnswer_other_pcs w.senderId w.sdpField s q hne
      rw [h1] at this
      simp only at this
      rw [this]
      exact hq
    | candidate =>
      simp only
      obtain ⟨X, h1⟩ := handleIceCandidate_shape w.senderId w.candidateField s
      refine ⟨s.participants, X, s.pendingOffers, by rw [h1], fun _ _ => rfl, ?_⟩
      intro q c hq hne
      have := handleIceCandidate_other_pcs w.senderId w.candidateField s q hne
      rw [h1] at this
      simp only at this
      rw [this]
      exact hq

/-- C15. Per-peer isolation.  For every state, platform and whisper from a
sender (any kind, any payload, whether or not its processing succeeds): the
callback changes at most the registry, the connection store and the queue of
pending offers; every registry entry of another participant is as before;
every connection other than the sender's is as before; local stream, channel
reference and subscription, recorder and log are untouched.  The deferred part
of an offer (the `setTimeout` callback) changes at most the connection it
works on, which is the sender's, and the log, by at most an answer whisper
addressed to the sender; the registry and all else stay. -/
theorem whisper_isolated (P : Platform) (self : UserId) (w : Whisper) (s : State) :
    (∀ y, y ≠ w.senderId →
      regGet (onWhisper P self w s).participants y = regGet s.participants y) ∧
    (∀ (q : PcId) (c : PeerConn), s.pcs[q]? = some c →
      connOf s.participants w.senderId ≠ some q → (onWhisper P self w s).pcs[q]? = some c) ∧
    ({ (onWhisper P self w s) with
        participants := s.participants, pcs := s.pcs,
        pendingOffers := s.pendingOffers } : State) = s ∧
    ((onWhisper P self w s).localStream = s.localStream ∧
      (onWhisper P self w s).presenceChannel = s.presenceChannel ∧
      (onWhisper P self w s).subscribed = s.subscribed ∧
      (onWhisper P self w s).mediaRecorderRef = s.mediaRecorderRef ∧
      (onWhisper P self w s).recorders = s.recorders ∧
      (onWhisper P self w s).log = s.log) ∧
    (∀ po rest, s.pendingOffers = po :: rest →
      (offerTimerFires P self s).participants = s.participants ∧
      (∀ q : PcId, connOf s.closureParticipants po.senderId ≠ some q → po.pc ≠ some q →
        (offerTimerFires P self s).pcs[q]? = s.pcs[q]?) ∧
      ({ (offerTimerFires P self s) with
          pcs := s.pcs, pendingOffers := s.pendingOffers, log := s.log } : State) = s ∧
      (∀ e ∈ newLog s (offerTimerFires P self s), ∃ a : Whisper, e = Effect.whisper a ∧
        a.kind = .answer ∧ a.recipientId = po.senderId)) := by
  obtain ⟨R, X, Q, h1, h2, h3⟩ := onWhisper_shape P self w s
  refine ⟨?_, ?_, ?_, ?_, ?_⟩
  · intro y hy
    rw [h1]
    exact h2 y hy
  · intro q c hq hne
    rw [h1]
    exact h3 q c hq hne
  · rw [h1]
  · rw [h1]
    exact ⟨rfl, rfl, rfl, rfl, rfl, rfl⟩
  · intro po rest hp
    obtain ⟨X2, l, g1, g2, g3⟩ := offerTimerFires_shape P self s po rest hp
    refine ⟨by rw [g1], ?_, ?_, ?_⟩
    · intro q hq1 hq2
      rw [g1]
      exact g3 q hq1 hq2
    · rw [g1]
    · intro e he
      rw [g1] at he
      simp only [newLog, List.drop_left] at he
      obtain ⟨a, ha, hk, -, hr⟩ := g2 e he
      exact ⟨a, ha, hk, hr⟩

theorem whisper_isolated_witness :
    regGet (onWhisper Platform.nominal "me" badOffer callWithBobAndCarol).participants "carol" =
      regGet callWithBobAndCarol.participants "carol" ∧
    (offerTimerFires Platform.nominal "me"
      (onWhisper Platform.nominal "me" badOffer callWithBobAndCarol)).pcs[1]? =
      callWithBobAndCarol.pcs[1]? ∧
    newLog callWithBobAndCarol (offerTimerFires Platform.nominal "me"
      (onWhisper Platform.nominal "me" badOffer callWithBobAndCarol)) = [] := by
  have w := whisper_isolated Platform.nominal "me" badOffer callWithBobAndCarol
  exact ⟨w.1 "carol" (by decide), by decide, by decide⟩

/-! ### C13 -/

theorem answerOffer_stable (P : Platform) (self : UserId) (p : PcId) (senderId : UserId)
    (o : Sdp) (s : State) (c : PeerConn)
    (hc : s.pcs[p]? = some c) (hst : c.signalingState = .stable) (ho : o.type = .offer)
    (hch : s.presenceChannel = true) :
    answerOffer P self p senderId (some o) s =
      { s with pcs := s.pcs.set p (answered P p o c),
               log := s.log ++ [answerWhisper P self p senderId] } := by
  unfold answerOffer
  simp [hc, pcSetRemoteDescription, ho, hst, pcCreateAnswer, pcSetLocalDescription,
    whisperIfJoined, setPc, hch, State.emit, answered, answerWhisper]

/-- C13. `handleOffer` with its `setTimeout` callback run right after it, for
an SDP offer `o` from `senderId`, no other offer pending, the effect's
snapshot of the registry having no connection for the sender, channel joined.
If the registry has a connection for the sender (taken in the stable state),
it is used: the registry is unchanged.  If it has none and one can be created,
the new connection is stored and the entry `{id, name, pc, stream: null}` is
added.  In both cases the connection ends with the offer as remote description
and the answer as local description, and the log grows by exactly one effect:
the answer whisper with `senderId` the local id and `recipientId` the sender.
If there is no connection and none is created (no local stream, or the
constructor throws), the state is unchanged: no entry, no answer. -/
theorem handleOffer_answers (P : Platform) (self senderId : UserId) (o : Sdp)
    (stream : Option MediaStream) (s : State)
    (hq : s.pendingOffers = []) (hcl : connOf s.closureParticipants senderId = none)
    (hch : s.presenceChannel = true) (ho : o.type = .offer) :
    (∀ p c, connOf s.participants senderId = some p → s.pcs[p]? = some c →
      c.signalingState = .stable →
      offerTimerFires P self (handleOffer P senderId (some o) stream s) =
        { s with pcs := s.pcs.set p (answered P p o c),
                 log := s.log ++ [answerWhisper P self p senderId] }) ∧
    (∀ st, connOf s.participants senderId = none → stream = some st →
      P.pcCtorThrows senderId = false →
      offerTimerFires P self (handleOffer P senderId (some o) stream s) =
        { s with participants := regSet s.participants senderId (offerEntry senderId s.pcs.length),
                 pcs := s.pcs ++ [answered P s.pcs.length o (newConn P senderId st)],
                 log := s.log ++ [answerWhisper P self s.pcs.length senderId] }) ∧
    (connOf s.participants senderId = none →
      (stream = none ∨ P.pcCtorThrows senderId = true) →
      offerTimerFires P self (handleOffer P senderId (some o) stream s) = s) := by
  unfold connOf at hcl
  refine ⟨?_, ?_, ?_⟩
  · intro p c hp hc hst
    unfold connOf at hp
    have h1 : handleOffer P senderId (some o) stream s =
        { s with pendingOffers := [{ senderId := senderId, offer := some o, pc := some p }] } := by
      simp [handleOffer, hp, hq]
    rw [h1]
    unfold offerTimerFires
    simp only [hcl]
    have h2 := answerOffer_stable P self p senderId o { s with pendingOffers := [] } c hc hst
      ho hch
    rw [h2]
    simp [hq]
  · intro st hp hs hctor
    unfold connOf at hp
    have h1 : handleOffer P senderId (some o) stream s =
        { s with participants := regSet s.participants senderId (offerEntry senderId s.pcs.length),
                 pcs := s.pcs ++ [newConn P senderId st],
                 pendingOffers :=
                   [{ senderId := senderId, offer := some o, pc := some s.pcs.length }] } := by
      simp [handleOffer, hp, hq, hs, createPeerConnection_ok P senderId st s hctor, offerEntry]
    rw [h1]
    unfold offerTimerFires
    simp only [hcl]
    have h2 := answerOffer_stable P self s.pcs.length senderId o
      { s with participants := regSet s.participants senderId (offerEntry senderId s.pcs.length),
               pcs := s.pcs ++ [newConn P senderId st],
               pendingOffers := [] }
      (newConn P senderId st) (by simp) (newConn_state P senderId st).1 ho hch
    rw [h2]
    simp [hq]
  · intro hp hno
    unfold connOf at hp
    have hcr : createPeerConnection P senderId stream s = (s, none) := by
      rcases hno with h | h
      · simp [createPeerConnection, h]
      · cases stream <;> simp [createPeerConnection, h]
    have h1 : handleOffer P senderId (some o) stream s =
        { s with pendingOffers := [{ senderId := senderId, offer := some o, pc := none }] } := by
      simp [handleOffer, hp, hq, hcr]
    rw [h1]
    unfold offerTimerFires
    simp only [hcl]
    rw [← hq]

theorem handleOffer_answers_witness :
    newLog callWithBob (offerTimerFires Platform.nominal "me"
      (handleOffer Platform.nominal "carol" (some carolOffer) (some [0, 1]) callWithBob)) =
      [answerWhisper Platform.nominal "me" 1 "carol"] ∧
    regGet (offerTimerFires Platform.nominal "me"
      (handleOffer Platform.nominal "carol" (some carolOffer) (some [0, 1])
        callWithBob)).participants "carol" = some (offerEntry "carol" 1) ∧
    offerTimerFires Platform.nominal "me"
      (handleOffer Platform.nominal "carol" (some carolOffer) none callWithBob) = callWithBob := by
  have w := handleOffer_answers Platform.nominal "me" "carol" carolOffer (some [0, 1])
    callWithBob (by decide) (by decide) (by decide) rfl
  have w0 := handleOffer_answers Platform.nominal "me" "carol" carolOffer none
    callWithBob (by decide) (by decide) (by decide) rfl
  have e := w.2.1 [0, 1] (by decide) rfl rfl
  refine ⟨?_, ?_, w0.2.2 (by decide) (Or.inl rfl)⟩
  · rw [e]
    simp [newLog]
    decide
  · rw [e]
    simp only [regGet_regSet, ↓reduceIte]
    decide

/-! ### C14 -/

/-- C14. The mesh scenario on a platform without failures, each whisper
delivered to its addressee only, in order.  After A started alone, B joined
and offered and A answered, both ends are stable with both descriptions set.
After C joined and offered to A and B and both answered, every node has
exactly the two other ids in its registry, every connection of every node is
stable with both descriptions set, and no node has a connection beyond these
two. -/
theorem mesh_scenario_full_mesh :
    meshView pairScenario.1 = [("B", some .stable)] ∧
    meshView pairScenario.2 = [("A", some .stable)] ∧
    allNegotiated pairScenario.1 = true ∧ allNegotiated pairScenario.2 = true ∧
    meshView meshScenario.1 = [("B", some .stable), ("C", some .stable)] ∧
    meshView meshScenario.2.1 = [("A", some .stable), ("C", some .stable)] ∧
    meshView meshScenario.2.2 = [("A", some .stable), ("B", some .stable)] ∧
    allNegotiated meshScenario.1 = true ∧ allNegotiated meshScenario.2.1 = true ∧
    allNegotiated meshScenario.2.2 = true ∧
    meshScenario.1.pcs.length = 2 ∧ meshScenario.2.1.pcs.length = 2 ∧
    meshScenario.2.2.pcs.length = 2 := by
  decide

/-! ### What the handlers leave alone -/

theorem quiet_refl (P : Platform) (props : Props) (s : State) : Quiet P props s s :=
  ⟨rfl, id, id, [], by simp, by simp⟩

theorem Quiet.then_quiet {P : Platform} {props : Props} {a b c : State}
    (h1 : Quiet P props a b) (h2 : Quiet P props b c) : Quiet P props a c := by
  obtain ⟨r1, s1, p1, l1, e1, a1⟩ := h1
  obtain ⟨r2, s2, p2, l2, e2, a2⟩ := h2
  refine ⟨r2.trans r1, fun h => s1 (s2 h), fun h => p1 (p2 h), l1 ++ l2, ?_, ?_⟩
  · rw [e2, e1, List.append_assoc]
  · intro e he
    rcases List.mem_append.1 he with h | h
    · exact a1 e h
    · exact a2 e h

theorem quiet_of_eq {P : Platform} {props : Props} {s s1 : State} (l : List Effect)
    (hr : s1.recorders.length = s.recorders.length) (hs : s1.subscribed = s.subscribed)
    (hp : s1.presenceChannel = s.presenceChannel) (hl : s1.log = s.log ++ l)
    (ha : ∀ e ∈ l, handlerEffect P props e = true) : Quiet P props s s1 :=
  ⟨hr, fun h => hs ▸ h, fun h => hp ▸ h, l, hl, ha⟩

theorem still_refl (P : Platform) (props : Props) (s : State) : Still P props s s :=
  ⟨quiet_refl P props s, rfl⟩

theorem Still.then_still {P : Platform} {props : Props} {a b c : State}
    (h1 : Still P props a b) (h2 : Still P props b c) : Still P props a c :=
  ⟨h1.1.then_quiet h2.1, h2.2.trans h1.2⟩

theorem still_of_eq {P : Platform} {props : Props} {s s1 : State} (l : List Effect)
    (hr : s1.recorders.length = s.recorders.length) (hs : s1.subscribed = s.subscribed)
    (hp : s1.presenceChannel = s.presenceChannel) (hf : s1.isCleanupScheduled = s.isCleanupScheduled)
    (hl : s1.log = s.log ++ l)
    (ha : ∀ e ∈ l, handlerEffect P props e = true) : Still P props s s1 :=
  ⟨quiet_of_eq l hr hs hp hl ha, hf⟩

theorem handlerEffect_of_phase (P : Platform) (props : Props) (e : Effect)
    (h : 2 ≤ teardownPhase e) : handlerEffect P props e = true := by
  cases e <;> simp_all [handlerEffect, teardownPhase]

theorem handlerEffect_whisper (P : Platform) (props : Props) (e : Effect)
    (h : isWhisper e = true) : handlerEffect P props e = true := by
  cases e <;> simp_all [handlerEffect, isWhisper]

theorem onMediaRejected_still (P : Platform) (props : Props) (error : MediaError) (s : State) :
    Still P props s (onMediaRejected error s) := by
  unfold onMediaRejected
  split
  · exact still_refl P props s
  · exact still_of_eq
      [.ui (.mediaError (some { name := error.name, message := error.message })),
       .ui (.isConnecting false)] rfl rfl rfl rfl
      (by simp [setIsConnecting, setMediaError, State.emit]) (by simp [handlerEffect])

theorem onChannelError_still (P : Platform) (props : Props) (s : State) :
    Still P props s (onChannelError s) := by
  unfold onChannelError
  split
  · exact still_of_eq [.ui (.mediaError (some
        { name := "ChannelError", message := "Connection to meeting server failed." }))]
      rfl rfl rfl rfl (by simp [setMediaError, State.emit]) (by simp [handlerEffect])
  · exact still_refl P props s

theorem onWhisper_still (P : Platform) (props : Props) (self : UserId) (w : Whisper) (s : State) :
    Still P props s (onWhisper P self w s) := by
  obtain ⟨R, X, Q, h, -, -⟩ := onWhisper_shape P self w s
  rw [h]
  exact still_of_eq [] rfl rfl rfl rfl (by simp) (by simp)

theorem downloadRecording_still (P : Platform) (props : Props) (s : State) :
    Still P props s (downloadRecording P props s) := by
  unfold downloadRecording
  by_cases h0 : s.recordedChunks.length = 0
  · simp only [h0, ↓reduceIte]
    split
    · exact still_of_eq [.ui (.showResumeGenerator true)] rfl rfl rfl rfl
        (by simp [setShowResumeGenerator, State.emit]) (by simp [handlerEffect])
    · exact still_refl P props s
  · simp only [h0, ↓reduceIte]
    cases hb : P.blobThrows <;> cases hc : (s.isEffectActive || props.visible)
    · exact still_of_eq
        [.download s.recordedChunks (downloadMimeType P) (downloadFilename P props)]
        rfl rfl rfl rfl
        (by simp [hc, State.emit]) (by simp [handlerEffect])
    · exact still_of_eq
        [.download s.recordedChunks (downloadMimeType P) (downloadFilename P props),
         .ui (.showResumeGenerator true)]
        rfl rfl rfl rfl
        (by simp [hc, setShowResumeGenerator, State.emit]) (by simp [handlerEffect])
    · exact still_of_eq [] rfl rfl rfl rfl (by simp [hc]) (by simp)
    · exact still_of_eq [.ui (.showResumeGenerator true)] rfl rfl rfl rfl
        (by simp [hc, setShowResumeGenerator, State.emit]) (by simp [handlerEffect])

theorem setRecorderState_still (P : Platform) (props : Props) (r : RecorderId)
    (st : RecorderState) (s : State) : Still P props s (setRecorderState r st s) :=
  still_of_eq [] (by simp [setRecorderState, length_modifyAt]) rfl rfl rfl
    (by simp [setRecorderState]) (by simp)

theorem setRecorderHandlers_still (P : Platform) (props : Props) (r : RecorderId)
    (h : HandlerSrc) (s : State) : Still P props s (setRecorderHandlers r h s) :=
  still_of_eq [] (by simp [setRecorderHandlers, length_modifyAt]) rfl rfl rfl
    (by simp [setRecorderHandlers]) (by simp)

theorem emit_still (P : Platform) (props : Props) (e : Effect) (s : State)
    (h : handlerEffect P props e = true) : Still P props s (s.emit e) :=
  still_of_eq [e] rfl rfl rfl rfl rfl (by simpa using h)

theorem clearRecorderRef_still (P : Platform) (props : Props) (s : State) :
    Still P props s { s with mediaRecorderRef := none } :=
  still_of_eq [] rfl rfl rfl rfl (by simp) (by simp)

theorem cleanupRecorder_still (P : Platform) (props : Props) (s : State) :
    Still P props s (cleanupRecorder P props s) := by
  unfold cleanupRecorder
  split
  · split
    · split
      · exact ((setRecorderHandlers_still P props _ _ s).then_still
          (downloadRecording_still P props _)).then_still (clearRecorderRef_still P props _)
      · exact ((setRecorderHandlers_still P props _ _ s).then_still
          (setRecorderState_still P props _ _ _)).then_still
          (emit_still P props _ _ (by simp [handlerEffect]))
    · exact clearRecorderRef_still P props s
  · exact (downloadRecording_still P props s).then_still (clearRecorderRef_still P props _)

theorem cleanupLocalStream_still (P : Platform) (props : Props) (s : State) :
    Still P props s (cleanupLocalStream P s).1 := by
  obtain ⟨X, Y, l, h, hp⟩ := cleanupLocalStream_shape P s
  rw [h]
  exact still_of_eq l rfl rfl rfl rfl rfl
    (fun e he => handlerEffect_of_phase P props e (by rw [hp e he]))

theorem cleanupParticipants_still (P : Platform) (props : Props) (s : State) :
    Still P props s (cleanupParticipants P s).1 := by
  obtain ⟨R, X, l, h, hp⟩ := cleanupParticipants_shape P s
  rw [h]
  exact still_of_eq l rfl rfl rfl rfl rfl
    (fun e he => handlerEffect_of_phase P props e (by rw [hp e he]; decide))

theorem stopListening_still (P : Platform) (props : Props) (k : WhisperKind) (s : State) :
    Still P props s (stopListeningForWhisper P k s).1 := by
  unfold stopListeningForWhisper
  split
  · exact still_refl P props s
  · exact still_of_eq [.stopListening k] rfl rfl rfl rfl rfl (by simp [handlerEffect])

theorem echoLeave_still (P : Platform) (props : Props) (s : State) :
    Still P props s (echoLeave P props s).1 := by
  unfold echoLeave
  split
  · split
    · exact still_refl P props s
    · exact ⟨⟨rfl, by simp [State.emit], id, [.leave (meetingChannelName props)], rfl,
        by simp [handlerEffect]⟩, rfl⟩
  · exact still_refl P props s

theorem cleanupChannel_still (P : Platform) (props : Props) (s : State) :
    Still P props s (cleanupChannel P props s).1 := by
  unfold cleanupChannel
  by_cases hc : s.presenceChannel = true
  · simp only [hc, ↓reduceIte]
    have r1 := stopListening_still P props .offer s
    cases t1 : (stopListeningForWhisper P .offer s).2 with
    | true => simpa using r1
    | false =>
      simp only [Bool.false_eq_true, ↓reduceIte]
      have r2 := r1.then_still (stopListening_still P props .answer _)
      generalize (stopListeningForWhisper P .offer s).1 = s1 at r2 ⊢
      cases t2 : (stopListeningForWhisper P .answer s1).2 with
      | true => simpa using r2
      | false =>
        simp only [Bool.false_eq_true, ↓reduceIte]
        have r3 := r2.then_still (stopListening_still P props .candidate _)
        generalize (stopListeningForWhisper P .answer s1).1 = s2 at r3 ⊢
        cases t3 : (stopListeningForWhisper P .candidate s2).2 with
        | true => simpa using r3
        | false =>
          simp only [Bool.false_eq_true, ↓reduceIte]
          have r4 := r3.then_still (echoLeave_still P props _)
          generalize (stopListeningForWhisper P .candidate s2).1 = s3 at r4 ⊢
          cases t4 : (echoLeave P props s3).2 with
          | true => simpa using r4
          | false =>
            simp only [Bool.false_eq_true, ↓reduceIte]
            refine r4.then_still ⟨⟨rfl, id, by simp, [], by simp, by simp⟩, rfl⟩
  · simp only [hc, Bool.false_eq_true, ↓reduceIte]
    exact still_refl P props s

theorem resetUi_still (P : Platform) (props : Props) (s : State) :
    Still P props s (resetUi s) := by
  rw [resetUi_shape]
  exact still_of_eq _ rfl rfl rfl rfl rfl (by simp [handlerEffect])

theorem cleanupConnections_quiet (P : Platform) (props : Props) (s : State) :
    Quiet P props s (cleanupConnections P props s).1 := by
  cases hf : s.isCleanupScheduled with
  | true => rw [cleanupConnections_guarded P props s hf]; exact quiet_refl P props s
  | false =>
    have h0 : Quiet P props s { s with isCleanupScheduled := true } :=
      quiet_of_eq [] rfl rfl rfl (by simp) (by simp)
    have h1 := (cleanupRecorder_still P props { s with isCleanupScheduled := true }).1
    have h2 := cleanupConnections_steps P props (Quiet P props)
      (fun _ _ _ => Quiet.then_quiet)
      (fun u a => quiet_of_eq [] rfl rfl rfl (by simp [enqueueUpdater]) (by simp))
      (fun a => (cleanupLocalStream_still P props a).1)
      (fun a => (cleanupParticipants_still P props a).1)
      (fun a => (cleanupChannel_still P props a).1) (fun a => (resetUi_still P props a).1) s hf
    exact (h0.then_quiet h1).then_quiet h2

theorem handleLeaveCall_quiet (P : Platform) (props : Props) (s : State) :
    Quiet P props s (handleLeaveCall P props s).1 := by
  unfold handleLeaveCall
  have h := cleanupConnections_quiet P props s
  cases t : (cleanupConnections P props s).2 with
  | true => simp only [t, ↓reduceIte]; exact h
  | false =>
    simp only [t, Bool.false_eq_true, ↓reduceIte]
    exact h.then_quiet (emit_still P props .onClose _ (by simp [handlerEffect])).1

theorem handleLeaveCall_flag (P : Platform) (props : Props) (s : State) :
    (handleLeaveCall P props s).1.isCleanupScheduled = true := by
  unfold handleLeaveCall
  have h := cleanupConnections_flag P props s
  cases t : (cleanupConnections P props s).2 with
  | true => simp only [t, ↓reduceIte]; exact h
  | false => simp only [t, Bool.false_eq_true, ↓reduceIte]; exact h

theorem guardTimerFires_quiet (P : Platform) (props : Props) (s : State) :
    Quiet P props s (guardTimerFires s) := by
  unfold guardTimerFires
  split
  · exact quiet_refl P props s
  · exact quiet_of_eq [] rfl rfl rfl (by simp) (by simp)

theorem setFields_still (P : Platform) (props : Props) (s : State) (R : Registry)
    (X : List PeerConn) (V : List UserId) :
    Still P props s { s with participants := R, pcs := X, participantVideoRefs := V } :=
  still_of_eq [] rfl rfl rfl rfl (by simp) (by simp)

theorem createPeerConnection_still (P : Platform) (props : Props) (remoteUserId : UserId)
    (stream : Option MediaStream) (s : State) :
    Still P props s (createPeerConnection P remoteUserId stream s).1 := by
  rcases createPeerConnection_cases P remoteUserId stream s with h | ⟨st, -, h⟩
  · rw [h]; exact still_refl P props s
  · rw [h]; exact still_of_eq [] rfl rfl rfl rfl (by simp) (by simp)

theorem whisperIfJoined_still (P : Platform) (props : Props) (w : Whisper) (s : State) :
    Still P props s (whisperIfJoined w s) := by
  unfold whisperIfJoined
  split
  · exact emit_still P props _ s (by simp [handlerEffect])
  · exact still_refl P props s

theorem setPc_still (P : Platform) (props : Props) (p : PcId) (c : PeerConn) (s : State) :
    Still P props s (setPc p c s) :=
  still_of_eq [] rfl rfl rfl rfl (by simp [setPc]) (by simp)

theorem sendOffer_still (P : Platform) (props : Props) (self : UserId) (pc : Option PcId)
    (remoteUserId : UserId) (s : State) :
    Still P props s (sendOffer P self pc remoteUserId s) := by
  unfold sendOffer
  split
  · exact still_refl P props s
  · split
    · exact still_refl P props s
    · split
      · exact still_refl P props s
      · split
        · exact still_refl P props s
        · exact (setPc_still P props _ _ s).then_still (whisperIfJoined_still P props _ _)

theorem hereLoop_still (P : Platform) (props : Props) (self : UserId) (users : List User) :
    ∀ (s : State) (setup : Registry), Still P props s (hereLoop P self users s setup).1 := by
  induction users with
  | nil => intro s setup; exact still_refl P props s
  | cons user users ih =>
    intro s setup
    unfold hereLoop
    split
    · have hc := createPeerConnection_still P props user.id s.acquiredStream s
      split
      · rename_i s1 pc heq
        rw [heq] at hc
        exact (hc.then_still (sendOffer_still P props self (some pc) user.id s1)).then_still (ih _ _)
      · rename_i s1 heq
        rw [heq] at hc
        exact hc.then_still (ih _ _)
    · exact ih _ _

theorem onHere_still (P : Platform) (props : Props) (self : UserId) (users : List User)
    (s : State) : Still P props s (onHere P self users s) := by
  unfold onHere
  split
  · exact still_refl P props s
  · refine (hereLoop_still P props self users s []).then_still ?_
    exact still_of_eq [.ui (.isConnecting false)] rfl rfl rfl rfl
      (by simp [setIsConnecting, State.emit]) (by simp [handlerEffect])

theorem onJoining_still (P : Platform) (props : Props) (self : UserId) (user : User)
    (s : State) : Still P props s (onJoining P self user s) := by
  unfold onJoining
  split
  · exact still_refl P props s
  · split
    · exact still_refl P props s
    · have hc := createPeerConnection_still P props user.id s.acquiredStream s
      split
      · rename_i s1 pc heq
        rw [heq] at hc
        exact hc.then_still (still_of_eq [] rfl rfl rfl rfl (by simp) (by simp))
      · rename_i s1 heq
        rw [heq] at hc
        exact hc

theorem closePc_still (P : Platform) (props : Props) (p : PcId) (s : State) :
    Still P props s (closePc P p s).1 := by
  obtain ⟨X, l, h, hp⟩ := closePc_shape P p s
  rw [h]
  exact still_of_eq l rfl rfl rfl rfl rfl
    (fun e he => handlerEffect_of_phase P props e (by rw [hp e he]; decide))

theorem onLeaving_still (P : Platform) (props : Props) (self : UserId) (user : User)
    (s : State) : Still P props s (onLeaving P self user s) := by
  unfold onLeaving
  split
  · exact still_refl P props s
  · have hr : Still P props s
        (match (regGet s.participants user.id).bind (fun e => e.pc) with
          | some p => closePc P p s
          | none => (s, false)).1 := by
      split
      · exact closePc_still P props _ s
      · exact still_refl P props s
    simp only
    split
    · exact hr
    · exact hr.then_still (setFields_still P props _ _ _ _)

theorem onTrack_still (P : Platform) (props : Props) (remoteUserId : UserId) (track : Nat)
    (s : State) : Still P props s (onTrack remoteUserId track s) := by
  unfold onTrack
  split
  · exact still_refl P props s
  · exact still_of_eq [] rfl rfl rfl rfl (by simp) (by simp)

theorem pcTrackEvent_still (P : Platform) (props : Props) (p : PcId) (track : Nat)
    (s : State) : Still P props s (pcTrackEvent p track s) := by
  unfold pcTrackEvent
  split
  · split
    · exact onTrack_still P props _ _ s
    · exact still_refl P props s
  · exact still_refl P props s

theorem pcIceEvent_still (P : Platform) (props : Props) (self : UserId) (p : PcId)
    (candidate : Option Nat) (s : State) : Still P props s (pcIceEvent self p candidate s) := by
  unfold pcIceEvent
  split
  · split
    · unfold onIceCandidate
      split
      · exact whisperIfJoined_still P props _ s
      · exact still_refl P props s
    · exact still_refl P props s
  · exact still_refl P props s

theorem recorderDataEvent_still (P : Platform) (props : Props) (r : RecorderId) (size : Nat)
    (s : State) : Still P props s (recorderDataEvent r size s) := by
  unfold recorderDataEvent
  split
  · unfold onDataAvailable
    split
    · exact still_of_eq [] rfl rfl rfl rfl (by simp) (by simp)
    · exact still_refl P props s
  · exact still_refl P props s

theorem onStopFromCleanup_still (P : Platform) (props : Props) (s : State) :
    Still P props s (onStopFromCleanup P props s) :=
  (downloadRecording_still P props s).then_still (clearRecorderRef_still P props _)

theorem onStopFromStart_still (P : Platform) (props : Props) (s : State) :
    Still P props s (onStopFromStart P props s) := by
  unfold onStopFromStart
  simp only
  split
  · exact (downloadRecording_still P props s).then_still (clearRecorderRef_still P props _)
  · exact clearRecorderRef_still P props s

theorem onErrorFromStart_still (P : Platform) (props : Props) (s : State) :
    Still P props s (onErrorFromStart P props s) := by
  unfold onErrorFromStart
  simp only
  refine Still.then_still ?_ (clearRecorderRef_still P props _)
  split
  · split
    · split
      · exact still_refl P props s
      · exact (setRecorderState_still P props _ _ s).then_still
          (emit_still P props _ _ (by simp [handlerEffect]))
    · split
      · exact downloadRecording_still P props s
      · exact still_refl P props s
  · split
    · exact downloadRecording_still P props s
    · exact still_refl P props s

theorem recorderStopEvent_still (P : Platform) (props : Props) (r : RecorderId) (s : State) :
    Still P props s (recorderStopEvent P props r s) := by
  unfold recorderStopEvent
  split
  · simp only
    split
    · exact (setRecorderState_still P props r .inactive s).then_still (onStopFromStart_still P props _)
    · exact (setRecorderState_still P props r .inactive s).then_still
        (onStopFromCleanup_still P props _)
  · exact still_refl P props s

theorem recorderErrorEvent_still (P : Platform) (props : Props) (r : RecorderId) (s : State) :
    Still P props s (recorderErrorEvent P props r s) := by
  unfold recorderErrorEvent
  split
  · split
    · exact onErrorFromStart_still P props s
    · exact onStopFromCleanup_still P props s
  · exact still_refl P props s

theorem setEnabled_still (P : Platform) (props : Props) (b : Bool) (ts : List TrackId)
    (s : State) : Still P props s (setEnabled b ts s) := by
  rw [setEnabled_shape]
  exact still_of_eq [] rfl rfl rfl rfl (by simp) (by simp)

theorem toggleAudio_still (P : Platform) (props : Props) (s : State) :
    Still P props s (toggleAudio s) := by
  unfold toggleAudio
  split
  · exact still_refl P props s
  · simp only
    split
    · exact still_refl P props s
    · exact (setEnabled_still P props _ _ s).then_still
        (still_of_eq [.ui (.isAudioMuted (!s.isAudioMuted))] rfl rfl rfl rfl
          (by simp [setIsAudioMuted, State.emit, setEnabled_shape]) (by simp [handlerEffect]))

theorem toggleVideo_still (P : Platform) (props : Props) (s : State) :
    Still P props s (toggleVideo s) := by
  unfold toggleVideo
  split
  · exact still_refl P props s
  · simp only
    split
    · exact still_refl P props s
    · exact (setEnabled_still P props _ _ s).then_still
        (still_of_eq [.ui (.isVideoMuted (!s.isVideoMuted))] rfl rfl rfl rfl
          (by simp [setIsVideoMuted, State.emit, setEnabled_shape]) (by simp [handlerEffect]))

theorem offerTimerFires_still (P : Platform) (props : Props) (self : UserId) (s : State) :
    Still P props s (offerTimerFires P self s) := by
  cases hq : s.pendingOffers with
  | nil => simp [offerTimerFires, hq]; exact still_refl P props s
  | cons po rest =>
    obtain ⟨X, l, h, hw, -⟩ := offerTimerFires_shape P self s po rest hq
    rw [h]
    refine still_of_eq l rfl rfl rfl rfl rfl ?_
    intro e he
    obtain ⟨w, rfl, -⟩ := hw e he
    simp [handlerEffect]

/-- Every event but the media callback is `Quiet`. -/
theorem step_quiet (P : Platform) (props : Props) (self : UserId) (ev : Event) (s : State)
    (h : ∀ tr, ev ≠ .mediaResolved tr) : Quiet P props s (step P props self ev s) := by
  cases ev with
  | mediaResolved tr => exact absurd rfl (h tr)
  | mediaRejected error => exact (onMediaRejected_still P props error s).1
  | here users =>
    simp only [step]; split
    · exact (onHere_still P props self users s).1
    · exact quiet_refl P props s
  | joining user =>
    simp only [step]; split
    · exact (onJoining_still P props self user s).1
    · exact quiet_refl P props s
  | leaving user =>
    simp only [step]; split
    · exact (onLeaving_still P props self user s).1
    · exact quiet_refl P props s
  | whisper w =>
    simp only [step]; split
    · exact (onWhisper_still P props self w s).1
    · exact quiet_refl P props s
  | channelError =>
    simp only [step]; split
    · exact (onChannelError_still P props s).1
    · exact quiet_refl P props s
  | remoteTrack p track => exact (pcTrackEvent_still P props p track s).1
  | iceCandidate p candidate => exact (pcIceEvent_still P props self p candidate s).1
  | recorderData r size => exact (recorderDataEvent_still P props r size s).1
  | recorderStop r => exact (recorderStopEvent_still P props r s).1
  | recorderError r => exact (recorderErrorEvent_still P props r s).1
  | toggleAudio => exact (toggleAudio_still P props s).1
  | toggleVideo => exact (toggleVideo_still P props s).1
  | stop => exact handleLeaveCall_quiet P props s
  | offerTimer => exact (offerTimerFires_still P props self s).1
  | guardTimer => exact guardTimerFires_quiet P props s

/-- A run in which the media callback does not occur is `Quiet`. -/
theorem run_quiet (P : Platform) (props : Props) (self : UserId) (es : List Event) :
    ∀ s : State, (∀ tr, Event.mediaResolved tr ∉ es) →
      Quiet P props s (run P props self es s) := by
  induction es with
  | nil => intro s _; exact quiet_refl P props s
  | cons ev es ih =>
    intro s h
    simp only [run]
    refine (step_quiet P props self ev s ?_).then_quiet (ih _ ?_)
    · intro tr hev
      exact h tr (by simp [hev])
    · intro tr hm
      exact h tr (by simp [hm])

theorem startRecording_shape (P : Platform) (stream : Option MediaStream) (s : State) :
    ∃ X M C, startRecording P stream s =
      { s with recorders := X, mediaRecorderRef := M, recordedChunks := C } := by
  unfold startRecording
  split
  · exact ⟨_, _, _, rfl⟩
  · split
    · exact ⟨_, _, _, rfl⟩
    · simp only
      split
      · exact ⟨_, _, _, rfl⟩
      · split
        · exact ⟨_, _, _, rfl⟩
        · split
          · exact ⟨_, _, _, rfl⟩
          · exact ⟨_, _, _, rfl⟩

/-- The media callback: what it does to the guard flag and to the log. -/
theorem onMediaResolved_frame (P : Platform) (props : Props) (newTracks : List Track)
    (s : State) :
    (onMediaResolved P props newTracks s).isCleanupScheduled = s.isCleanupScheduled ∧
    ∃ l, (onMediaResolved P props newTracks s).log = s.log ++ l ∧
      ∀ e ∈ l, e ≠ .getUserMedia ∧ ∀ c m f, e ≠ .download c m f := by
  unfold onMediaResolved
  simp only
  split
  · obtain ⟨X, l, h, hp⟩ := stopTracks_shape P
      (List.range' s.tracks.length newTracks.length) { s with tracks := s.tracks ++ newTracks }
    rw [h]
    refine ⟨rfl, l, rfl, ?_⟩
    intro e he
    have := hp e he
    constructor
    · rintro rfl; simp [teardownPhase] at this
    · rintro c m f rfl; simp [teardownPhase] at this
  · obtain ⟨X, M, C, h⟩ := startRecording_shape P
      (some (List.range' s.tracks.length newTracks.length))
      (setMediaError none
        { s with tracks := s.tracks ++ newTracks,
                 acquiredStream := some (List.range' s.tracks.length newTracks.length),
                 localStream := some (List.range' s.tracks.length newTracks.length) })
    rw [h]
    split
    · refine ⟨rfl, [.ui (.mediaError none), .ui (.isConnecting false),
        .ui (.mediaError (some ⟨"ChannelJoinError", "Could not connect to the meeting channel."⟩))],
        ?_, ?_⟩
      · simp [setMediaError, setIsConnecting, State.emit]
      · simp
    · refine ⟨rfl, [.ui (.mediaError none), .join (meetingChannelName props)], ?_, ?_⟩
      · simp [setMediaError, State.emit]
      · simp

/-- No handler but the cooldown timer clears a guard flag that is set. -/
theorem step_keeps_guard (P : Platform) (props : Props) (self : UserId) (ev : Event)
    (s : State) (hev : ev ≠ .guardTimer) (h : s.isCleanupScheduled = true) :
    (step P props self ev s).isCleanupScheduled = true := by
  cases ev with
  | guardTimer => exact absurd rfl hev
  | mediaResolved tr => exact (onMediaResolved_frame P props tr s).1.trans h
  | mediaRejected error => exact (onMediaRejected_still P props error s).2.trans h
  | here users =>
    simp only [step]; split
    · exact (onHere_still P props self users s).2.trans h
    · exact h
  | joining user =>
    simp only [step]; split
    · exact (onJoining_still P props self user s).2.trans h
    · exact h
  | leaving user =>
    simp only [step]; split
    · exact (onLeaving_still P props self user s).2.trans h
    · exact h
  | whisper w =>
    simp only [step]; split
    · exact (onWhisper_still P props self w s).2.trans h
    · exact h
  | channelError =>
    simp only [step]; split
    · exact (onChannelError_still P props s).2.trans h
    · exact h
  | remoteTrack p track => exact (pcTrackEvent_still P props p track s).2.trans h
  | iceCandidate p candidate => exact (pcIceEvent_still P props self p candidate s).2.trans h
  | recorderData r size => exact (recorderDataEvent_still P props r size s).2.trans h
  | recorderStop r => exact (recorderStopEvent_still P props r s).2.trans h
  | recorderError r => exact (recorderErrorEvent_still P props r s).2.trans h
  | toggleAudio => exact (toggleAudio_still P props s).2.trans h
  | toggleVideo => exact (toggleVideo_still P props s).2.trans h
  | stop => exact handleLeaveCall_flag P props s
  | offerTimer => exact (offerTimerFires_still P props self s).2.trans h

/-! ### C21 -/

/-- When the effect requested the media devices it is active, and it left the
recorders, the channel reference and the subscription as they were. -/
theorem effectInit_requested (props : Props) (currentUser : Option UserId) (s : State)
    (h : (effectInit props currentUser s).2 = true) :
    (effectInit props currentUser s).1.isEffectActive = true ∧
    (effectInit props currentUser s).1.localStream = none ∧
    (effectInit props currentUser s).1.recorders = s.recorders ∧
    (effectInit props currentUser s).1.subscribed = s.subscribed ∧
    (effectInit props currentUser s).1.presenceChannel = s.presenceChannel := by
  unfold effectInit at h ⊢
  simp only at h ⊢
  split at h
  · simp at h
  · split at h
    · simp at h
    · rename_i h1 h2
      simp only [h1, h2, Bool.false_eq_true, ↓reduceIte]
      exact ⟨rfl, rfl, rfl, rfl, rfl⟩

/-- C21: media denial.  When the effect has requested the media devices and the
request fails with `error`, the `catch` callback reports exactly
`{ name: error.name, message: error.message }`, leaves the local stream null
and clears the connecting flag, changing nothing else; and in every run of
events that follows (the settled promise does not resolve) no recorder is
created, no channel is joined or subscribed to, and the media devices are not
requested again. -/
theorem media_denial (P : Platform) (props : Props) (self : UserId)
    (currentUser : Option UserId) (s : State) (error : MediaError) (es : List Event)
    (hstart : (effectInit props currentUser s).2 = true)
    (hes : ∀ tr, Event.mediaResolved tr ∉ es) :
    onMediaRejected error (effectInit props currentUser s).1 =
      { (effectInit props currentUser s).1 with
        mediaError := some { name := error.name, message := error.message },
        localStream := none,
        isConnecting := false,
        log := (effectInit props currentUser s).1.log ++
          [.ui (.mediaError (some { name := error.name, message := error.message })),
           .ui (.isConnecting false)] } ∧
    (run P props self es (onMediaRejected error (effectInit props currentUser s).1)).recorders.length
      = s.recorders.length ∧
    (s.subscribed = false →
      (run P props self es
        (onMediaRejected error (effectInit props currentUser s).1)).subscribed = false) ∧
    (s.presenceChannel = false →
      (run P props self es
        (onMediaRejected error (effectInit props currentUser s).1)).presenceChannel = false) ∧
    (∀ e ∈ newLog (effectInit props currentUser s).1
        (run P props self es (onMediaRejected error (effectInit props currentUser s).1)),
      e ≠ .getUserMedia ∧ ∀ ch, e ≠ .join ch) := by
  obtain ⟨hact, hls, hrec, hsub, hch⟩ := effectInit_requested props currentUser s hstart
  generalize (effectInit props currentUser s).1 = s0 at hact hls hrec hsub hch ⊢
  have hq := ((onMediaRejected_still P props error s0).1).then_quiet
    (run_quiet P props self es (onMediaRejected error s0) hes)
  obtain ⟨qr, qs, qp, l, ql, qa⟩ := hq
  refine ⟨?_, ?_, ?_, ?_, ?_⟩
  · simp [onMediaRejected, hact, setMediaError, setIsConnecting, State.emit]
  · rw [qr, hrec]
  · intro h
    cases hb : (run P props self es (onMediaRejected error s0)).subscribed with
    | false => rfl
    | true => rw [qs hb] at hsub; rw [← hsub] at h; cases h
  · intro h
    cases hb : (run P props self es (onMediaRejected error s0)).presenceChannel with
    | false => rfl
    | true => rw [qp hb] at hch; rw [← hch] at h; cases h
  · intro e he
    rw [newLog_of_append ql] at he
    have := qa e he
    constructor
    · rintro rfl; simp [handlerEffect] at this
    · rintro ch rfl; simp [handlerEffect] at this

theorem media_denial_witness :
    (effectInit demoProps (some "me") State.mounted).2 = true ∧
    (onMediaRejected permissionDenied startingSession).mediaError = some permissionDenied ∧
    (onMediaRejected permissionDenied startingSession).localStream = none ∧
    (onMediaRejected permissionDenied startingSession).isConnecting = false ∧
    (run Platform.nominal demoProps "me" [.here [userA], .toggleAudio, .stop, .guardTimer]
      (onMediaRejected permissionDenied startingSession)).recorders.length = 0 ∧
    (run Platform.nominal demoProps "me" [.here [userA], .toggleAudio, .stop, .guardTimer]
      (onMediaRejected permissionDenied startingSession)).subscribed = false ∧
    Effect.getUserMedia ∉ newLog startingSession
      (run Platform.nominal demoProps "me" [.here [userA], .toggleAudio, .stop, .guardTimer]
        (onMediaRejected permissionDenied startingSession)) := by
  have w := media_denial Platform.nominal demoProps "me" (some "me") State.mounted
    permissionDenied [.here [userA], .toggleAudio, .stop, .guardTimer] (by decide) (by simp)
  refine ⟨by decide, ?_, ?_, ?_, w.2.1, w.2.2.1 rfl, fun h => (w.2.2.2.2 _ h).1 rfl⟩
  · exact congrArg State.mediaError w.1
  · exact congrArg State.localStream w.1
  · exact congrArg State.isConnecting w.1

/-! ### C22 -/

/-- C22: a channel error is not fatal.  While the effect is active and the
channel is subscribed, the error callback sets `mediaError` to an error named
`ChannelError` through one setter call and changes nothing else: the local
stream, the registry, the connections, the recorder, the channel reference,
the subscription and the whisper listeners are as before, and no call of the
teardown is made. -/
theorem channel_error_non_fatal (P : Platform) (props : Props) (self : UserId) (s : State)
    (hact : s.isEffectActive = true) (hsub : s.subscribed = true) :
    step P props self .channelError s =
      { s with
        mediaError := some { name := "ChannelError", message := "Connection to meeting server failed." },
        log := s.log ++ [.ui (.mediaError (some
          { name := "ChannelError", message := "Connection to meeting server failed." }))] } ∧
    (step P props self .channelError s).localStream = s.localStream ∧
    (step P props self .channelError s).participants = s.participants ∧
    (step P props self .channelError s).pcs = s.pcs ∧
    (step P props self .channelError s).tracks = s.tracks ∧
    (step P props self .channelError s).mediaRecorderRef = s.mediaRecorderRef ∧
    (step P props self .channelError s).recorders = s.recorders ∧
    (step P props self .channelError s).recordedChunks = s.recordedChunks ∧
    (step P props self .channelError s).presenceChannel = s.presenceChannel ∧
    (step P props self .channelError s).subscribed = s.subscribed ∧
    (step P props self .channelError s).whisperListeners = s.whisperListeners ∧
    (step P props self .channelError s).isCleanupScheduled = s.isCleanupScheduled ∧
    (∀ e ∈ newLog s (step P props self .channelError s), ∃ err, e = .ui (.mediaError err)) := by
  have h : step P props self .channelError s =
      { s with
        mediaError := some { name := "ChannelError", message := "Connection to meeting server failed." },
        log := s.log ++ [.ui (.mediaError (some
          { name := "ChannelError", message := "Connection to meeting server failed." }))] } := by
    simp [step, hsub, onChannelError, hact, setMediaError, State.emit]
  refine ⟨h, ?_, ?_, ?_, ?_, ?_, ?_, ?_, ?_, ?_, ?_, ?_, ?_⟩
  all_goals rw [h]
  intro e he
  simp [newLog] at he
  exact ⟨_, he⟩

theorem channel_error_non_fatal_witness :
    callWithBob.isEffectActive = true ∧ callWithBob.subscribed = true ∧
    (step Platform.nominal demoProps "me" .channelError callWithBob).mediaError =
      some { name := "ChannelError", message := "Connection to meeting server failed." } ∧
    (step Platform.nominal demoProps "me" .channelError callWithBob).localStream =
      callWithBob.localStream ∧
    (step Platform.nominal demoProps "me" .channelError callWithBob).participants =
      callWithBob.participants ∧
    (step Platform.nominal demoProps "me" .channelError callWithBob).pcs = callWithBob.pcs ∧
    (step Platform.nominal demoProps "me" .channelError callWithBob).subscribed = true := by
  have w := channel_error_non_fatal Platform.nominal demoProps "me" callWithBob
    (by decide) (by decide)
  exact ⟨by decide, by decide, congrArg State.mediaError w.1, w.2.1, w.2.2.1, w.2.2.2.1,
    w.2.2.2.2.2.2.2.2.2.1.trans (by decide)⟩

/-! ### C23 -/

theorem mem_getAudioTracks (s : State) (stream : MediaStream) (t : TrackId) :
    t ∈ getAudioTracks s stream ↔
      t ∈ stream ∧ ∃ tr, s.tracks[t]? = some tr ∧ tr.kind = .audio := by
  unfold getAudioTracks
  rw [List.mem_filter]
  constructor
  · rintro ⟨h1, h2⟩
    refine ⟨h1, ?_⟩
    cases h : s.tracks[t]? with
    | none => simp [h] at h2
    | some tr => exact ⟨tr, rfl, by simpa [h] using h2⟩
  · rintro ⟨h1, tr, h2, h3⟩
    exact ⟨h1, by simp [h2, h3]⟩

/-- The recorder `startRecording` creates when it passes its guards and the
constructors do not throw. -/
theorem startRecording_created (P : Platform) (st : MediaStream) (s : State)
    (href : s.mediaRecorderRef = none) (haudio : getAudioTracks s st ≠ [])
    (hctor : P.recorderCtorThrows = false) :
    ∃ state ref,
      startRecording P (some st) s =
        { s with
          recorders := s.recorders ++
            [{ state := state, onstop := .start, onerror := .start,
               stream := getAudioTracks s st,
               mimeType := (supportedTypes.find? P.isTypeSupported).getD "" }],
          mediaRecorderRef := ref,
          recordedChunks := [] } ∧
      (P.recorderStartThrows = false → state = .recording ∧ ref = some s.recorders.length) := by
  have hlen : (getAudioTracks s st).length ≠ 0 := by
    intro h; exact haudio (List.length_eq_zero.1 h)
  unfold startRecording
  simp only [href, Option.isSome_none, Bool.false_eq_true, ↓reduceIte, hlen, hctor]
  cases hs : P.recorderStartThrows with
  | true =>
    refine ⟨.inactive, none, ?_, by simp⟩
    simp
  | false =>
    refine ⟨.recording, some s.recorders.length, ?_, fun _ => ⟨rfl, rfl⟩⟩
    simp [setRecorderState, modifyAt]

/-- C23: `startRecording(stream)`.  Without a stream, with a stream that has
no audio track, or with a recorder already referenced, the call changes
nothing (in particular neither the recorder reference nor the buffer).
Otherwise, the constructors not throwing, one recorder is created: its stream
holds exactly the audio tracks of the given stream, so no video track, and
the buffer is reset to empty; when `start` does not throw either, the recorder
is recording and referenced. -/
theorem startRecording_spec (P : Platform) (stream : Option MediaStream) (s : State) :
    ((stream = none ∨ (∃ st, stream = some st ∧ getAudioTracks s st = []) ∨
        s.mediaRecorderRef.isSome = true) →
      startRecording P stream s = s) ∧
    (∀ st, stream = some st → getAudioTracks s st ≠ [] → s.mediaRecorderRef = none →
      P.recorderCtorThrows = false →
      ∃ recorder,
        (startRecording P stream s).recorders = s.recorders ++ [recorder] ∧
        (∀ t, t ∈ recorder.stream ↔
          t ∈ st ∧ ∃ tr, s.tracks[t]? = some tr ∧ tr.kind = .audio) ∧
        (∀ t ∈ recorder.stream, ∀ tr, s.tracks[t]? = some tr → tr.kind ≠ .video) ∧
        (startRecording P stream s).recordedChunks = [] ∧
        (P.recorderStartThrows = false →
          recorder.state = .recording ∧
          (startRecording P stream s).mediaRecorderRef = some s.recorders.length)) := by
  constructor
  · rintro (h | ⟨st, h1, h2⟩ | h)
    · subst h; rfl
    · subst h1
      unfold startRecording
      simp [h2]
    · unfold startRecording
      cases stream with
      | none => rfl
      | some st => simp [h]
  · intro st hst haudio href hctor
    subst hst
    obtain ⟨state, ref, h, hstart⟩ := startRecording_created P st s href haudio hctor
    refine ⟨_, by rw [h], ?_, ?_, by rw [h], ?_⟩
    · intro t
      exact mem_getAudioTracks s st t
    · intro t ht tr htr hk
      obtain ⟨-, tr2, h2, h3⟩ := (mem_getAudioTracks s st t).1 ht
      rw [htr] at h2
      cases h2
      rw [hk] at h3
      cases h3
    · intro hs
      obtain ⟨h1, h2⟩ := hstart hs
      rw [h]
      exact ⟨h1, h2⟩

theorem startRecording_spec_witness :
    startRecording Platform.nominal none tracksOnly = tracksOnly ∧
    startRecording Platform.nominal (some [1]) tracksOnly = tracksOnly ∧
    startRecording Platform.nominal (some [0, 1]) sessionStart = sessionStart ∧
    (startRecording Platform.nominal (some [0, 1]) tracksOnly).recorders.map (fun r => r.stream) =
      [[0]] ∧
    (startRecording Platform.nominal (some [0, 1]) tracksOnly).recordedChunks = [] ∧
    (startRecording Platform.nominal (some [0, 1]) tracksOnly).mediaRecorderRef = some 0 := by
  have w1 := (startRecording_spec Platform.nominal none tracksOnly).1 (Or.inl rfl)
  have w2 := (startRecording_spec Platform.nominal (some [1]) tracksOnly).1
    (Or.inr (Or.inl ⟨[1], rfl, by decide⟩))
  have w3 := (startRecording_spec Platform.nominal (some [0, 1]) sessionStart).1
    (Or.inr (Or.inr (by decide)))
  obtain ⟨recorder, h1, -, -, h4, h5⟩ :=
    (startRecording_spec Platform.nominal (some [0, 1]) tracksOnly).2 [0, 1] rfl
      (by decide) (by decide) rfl
  exact ⟨w1, w2, w3, by decide, h4, (h5 rfl).2⟩

/-! ### C24 -/

theorem PastRecording.then_past {a b c : State} (h1 : PastRecording a b)
    (h2 : PastRecording b c) : PastRecording a c := by
  obtain ⟨a1, a2, a3, a4, a5, l1, e1, p1⟩ := h1
  obtain ⟨b1, b2, b3, b4, b5, l2, e2, p2⟩ := h2
  refine ⟨b1.trans a1, b2.trans a2, b3.trans a3, b4.trans a4, b5.trans a5, l1 ++ l2, ?_, ?_⟩
  · rw [e2, e1, List.append_assoc]
  · intro e he
    rcases List.mem_append.1 he with h | h
    · exact p1 e h
    · exact p2 e h

/-- Steps 2 to 5 of a `cleanupConnections` call that is not guarded, and the
`onClose` of `handleLeaveCall`, as one `PastRecording` transition. -/
theorem handleLeaveCall_past (P : Platform) (props : Props) (s : State)
    (hf : s.isCleanupScheduled = false) :
    PastRecording (cleanupRecorder P props { s with isCleanupScheduled := true })
      (handleLeaveCall P props s).1 := by
  have h := cleanupConnections_steps P props PastRecording
    (fun _ _ _ => PastRecording.then_past)
    (fun u a => ⟨rfl, rfl, rfl, rfl, rfl, [], by simp [enqueueUpdater], by simp⟩)
    (fun a => by
      obtain ⟨X, Y, l, h, hp⟩ := cleanupLocalStream_shape P a
      rw [h]
      exact ⟨rfl, rfl, rfl, rfl, rfl, l, rfl, fun e he => by rw [hp e he]⟩)
    (fun a => by
      obtain ⟨R, X, l, h, hp⟩ := cleanupParticipants_shape P a
      rw [h]
      exact ⟨rfl, rfl, rfl, rfl, rfl, l, rfl, fun e he => by rw [hp e he]; decide⟩)
    (fun a => by
      obtain ⟨C, W, B, l, h, hp⟩ := cleanupChannel_shape P props a
      rw [h]
      exact ⟨rfl, rfl, rfl, rfl, rfl, l, rfl, fun e he => by rw [hp e he]; decide⟩)
    (fun a => by
      rw [resetUi_shape]
      exact ⟨rfl, rfl, rfl, rfl, rfl, _, rfl, fun e he => by
        simp at he
        rcases he with rfl | rfl | rfl | rfl <;> decide⟩)
    s hf
  unfold handleLeaveCall
  cases t : (cleanupConnections P props s).2 with
  | true => simp only [t, ↓reduceIte]; exact h
  | false =>
    simp only [t, Bool.false_eq_true, ↓reduceIte]
    exact h.then_past ⟨rfl, rfl, rfl, rfl, rfl, [.onClose], rfl, by simp [teardownPhase]⟩

theorem downloads_append (l1 l2 : List Effect) :
    downloads (l1 ++ l2) = downloads l1 ++ downloads l2 := by
  simp [downloads, List.filterMap_append]

theorem downloads_of_phase (l : List Effect) (h : ∀ e ∈ l, 2 ≤ teardownPhase e) :
    downloads l = [] := by
  unfold downloads
  rw [List.filterMap_eq_nil_iff]
  intro e he
  have := h e he
  cases e <;> simp_all [teardownPhase]

/-- With an empty buffer `downloadRecording` only raises the completion signal,
when the component may still be updated. -/
theorem downloadRecording_empty (P : Platform) (props : Props) (s : State)
    (hempty : s.recordedChunks = []) (hvis : (s.isEffectActive || props.visible) = true) :
    downloadRecording P props s =
      { s with showResumeGenerator := true,
               log := s.log ++ [.ui (.showResumeGenerator true)] } := by
  unfold downloadRecording
  simp [hempty, hvis, setShowResumeGenerator, State.emit]

/-- Step 1 of `cleanupConnections` on an empty buffer: without a recorder, or
when stopping it throws, the completion signal is raised on the spot; otherwise
the recorder is given the teardown handlers and stopped. -/
theorem cleanupRecorder_empty (P : Platform) (props : Props) (s : State)
    (hempty : s.recordedChunks = []) (hvis : (s.isEffectActive || props.visible) = true)
    (hrec : ∀ r, s.mediaRecorderRef = some r → isRecording s r = true) :
    ((s.mediaRecorderRef = none ∨ P.recorderStopThrows = true) →
      ∃ X, cleanupRecorder P props s =
        { s with recorders := X, mediaRecorderRef := none, showResumeGenerator := true,
                 log := s.log ++ [.ui (.showResumeGenerator true)] }) ∧
    (∀ r, s.mediaRecorderRef = some r → P.recorderStopThrows = false →
      cleanupRecorder P props s =
        { s with
          recorders := modifyAt
            (modifyAt s.recorders r (fun x => { x with onstop := .cleanup, onerror := .cleanup }))
            r (fun x => { x with state := .inactive }),
          log := s.log ++ [.recorderStop r] }) := by
  constructor
  · intro h
    cases hm : s.mediaRecorderRef with
    | none =>
      refine ⟨s.recorders, ?_⟩
      unfold cleanupRecorder
      simp only [hm]
      rw [downloadRecording_empty P props s hempty hvis]
    | some r =>
      rcases h with h | h
      · rw [hm] at h; cases h
      · refine ⟨(setRecorderHandlers r .cleanup s).recorders, ?_⟩
        unfold cleanupRecorder
        simp only [hm, hrec r hm, h, ↓reduceIte]
        rw [downloadRecording_empty P props (setRecorderHandlers r .cleanup s) hempty hvis]
        rfl
  · intro r hm hthrow
    unfold cleanupRecorder
    simp only [hm, hrec r hm, hthrow, ↓reduceIte, Bool.false_eq_true]
    simp [setRecorderState, setRecorderHandlers, State.emit, hm]

/-- C24: empty recording.  Let `stop()` be called with the guard clear, the
buffer empty, the view visible or the effect active, and the referenced
recorder (if any) recording.  Then `stop()` produces no download.  When there
is no recorder, or stopping it throws, `stop()` itself raises the completion
signal (`setShowResumeGenerator(true)`).  Otherwise `stop()` stops the
recorder, and when the recorder then delivers its (empty) last chunk and its
`stop` event, still no download is produced and the signal is raised. -/
theorem empty_recording (P : Platform) (props : Props) (self : UserId) (s : State)
    (hf : s.isCleanupScheduled = false) (hempty : s.recordedChunks = [])
    (hvis : (s.isEffectActive || props.visible) = true)
    (hrec : ∀ r, s.mediaRecorderRef = some r → isRecording s r = true) :
    downloads (newLog s (step P props self .stop s)) = [] ∧
    ((s.mediaRecorderRef = none ∨ P.recorderStopThrows = true) →
      Effect.ui (.showResumeGenerator true) ∈ newLog s (step P props self .stop s) ∧
      (step P props self .stop s).showResumeGenerator = true) ∧
    (∀ r, s.mediaRecorderRef = some r → P.recorderStopThrows = false →
      Effect.recorderStop r ∈ newLog s (step P props self .stop s) ∧
      downloads (newLog s
        (run P props self [.stop, .recorderData r 0, .recorderStop r] s)) = [] ∧
      Effect.ui (.showResumeGenerator true) ∈ newLog (step P props self .stop s)
        (run P props self [.stop, .recorderData r 0, .recorderStop r] s) ∧
      (run P props self [.stop, .recorderData r 0, .recorderStop r] s).showResumeGenerator =
        true) := by
  obtain ⟨t1, t2, t3, t4, t5, l, hl, hp⟩ := handleLeaveCall_past P props s hf
  have hstep : step P props self .stop s = (handleLeaveCall P props s).1 := rfl
  simp only [run, hstep]
  generalize (handleLeaveCall P props s).1 = s1 at t1 t2 t3 t4 t5 hl ⊢
  obtain ⟨hA, hB⟩ := cleanupRecorder_empty P props { s with isCleanupScheduled := true }
    hempty hvis hrec
  have hcase : (s.mediaRecorderRef = none ∨ P.recorderStopThrows = true) ∨
      ∃ r, s.mediaRecorderRef = some r ∧ P.recorderStopThrows = false := by
    cases hm : s.mediaRecorderRef with
    | none => exact Or.inl (Or.inl rfl)
    | some r =>
      cases ht : P.recorderStopThrows with
      | true => exact Or.inl (Or.inr rfl)
      | false => exact Or.inr ⟨r, rfl, rfl⟩
  rcases hcase with h | ⟨r, hm, hthrow⟩
  · obtain ⟨X, hc⟩ := hA h
    rw [hc] at t1 t2 t3 t4 t5 hl
    simp only at t1 t2 t3 t4 t5 hl
    have hlog : newLog s s1 = [.ui (.showResumeGenerator true)] ++ l :=
      newLog_of_append (by rw [hl, List.append_assoc])
    refine ⟨?_, fun _ => ⟨?_, t4⟩, ?_⟩
    · rw [hlog, downloads_append, downloads_of_phase l hp]; rfl
    · rw [hlog]; simp
    · intro r2 hr2 ht2
      rcases h with h | h
      · rw [h] at hr2; cases hr2
      · rw [h] at ht2; cases ht2
  · have hc := hB r hm hthrow
    rw [hc] at t1 t2 t3 t4 t5 hl
    simp only at t1 t2 t3 t4 t5 hl
    obtain ⟨rec, hget⟩ : ∃ rec, s.recorders[r]? = some rec := by
      have hr := hrec r hm
      unfold isRecording at hr
      cases h : s.recorders[r]? with
      | none => simp [h] at hr
      | some rec => exact ⟨rec, rfl⟩
    have hlog : newLog s s1 = [.recorderStop r] ++ l :=
      newLog_of_append (by rw [hl, List.append_assoc])
    have hd1 : downloads (newLog s s1) = [] := by
      rw [hlog, downloads_append, downloads_of_phase l hp]; rfl
    refine ⟨hd1, ?_, ?_⟩
    · intro h
      rcases h with h | h
      · rw [h] at hm; cases hm
      · rw [h] at hthrow; cases hthrow
    intro r2 hr2 _
    rw [hm] at hr2
    cases hr2
    have hget1 : s1.recorders[r]? =
        some { rec with onstop := .cleanup, onerror := .cleanup, state := .inactive } := by
      rw [t2]
      simp [getElem?_modifyAt, hget]
    have hdata : recorderDataEvent r 0 s1 = s1 := by
      simp [recorderDataEvent, hget1, onDataAvailable]
    have hfin : recorderStopEvent P props r s1 =
        { s1 with recorders := modifyAt s1.recorders r (fun x => { x with state := .inactive }),
                  mediaRecorderRef := none, showResumeGenerator := true,
                  log := s1.log ++ [.ui (.showResumeGenerator true)] } := by
      unfold recorderStopEvent
      simp only [hget1, onStopFromCleanup]
      rw [downloadRecording_empty P props (setRecorderState r .inactive s1)
        (t1.trans hempty) (by rw [← hvis, ← t5]; rfl)]
      rfl
    simp only [step, hdata]
    rw [hfin]
    refine ⟨by rw [hlog]; simp, ?_, ?_, rfl⟩
    · have : newLog s
          { s1 with recorders := modifyAt s1.recorders r (fun x => { x with state := .inactive }),
                    mediaRecorderRef := none, showResumeGenerator := true,
                    log := s1.log ++ [.ui (.showResumeGenerator true)] } =
          newLog s s1 ++ [.ui (.showResumeGenerator true)] := by
        rw [hlog]
        exact newLog_of_append (by simp [hl, List.append_assoc])
      rw [this, downloads_append, hd1]
      rfl
    · simp [newLog]

theorem empty_recording_witness :
    activeSession.recordedChunks = [] ∧ activeSession.mediaRecorderRef = some 0 ∧
    downloads (newLog activeSession
      (run Platform.nominal demoProps "me" [.stop, .recorderData 0 0, .recorderStop 0]
        activeSession)) = [] ∧
    (run Platform.nominal demoProps "me" [.stop, .recorderData 0 0, .recorderStop 0]
      activeSession).showResumeGenerator = true ∧
    cameraOnlySession.recordedChunks = [] ∧ cameraOnlySession.mediaRecorderRef = none ∧
    downloads (newLog cameraOnlySession
      (step Platform.nominal demoProps "me" .stop cameraOnlySession)) = [] ∧
    (step Platform.nominal demoProps "me" .stop cameraOnlySession).showResumeGenerator = true := by
  have w1 := empty_recording Platform.nominal demoProps "me" activeSession (by decide)
    (by decide) (by decide)
    (fun r h => by
      have h0 : activeSession.mediaRecorderRef = some 0 := by decide
      rw [h0] at h
      cases h
      decide)
  have w2 := empty_recording Platform.nominal demoProps "me" cameraOnlySession (by decide)
    (by decide) (by decide)
    (fun r h => by
      have h0 : cameraOnlySession.mediaRecorderRef = none := by decide
      rw [h0] at h
      cases h)
  have w3 := w1.2.2 0 (by decide) rfl
  exact ⟨by decide, by decide, w3.2.1, w3.2.2.2, by decide, by decide, w2.1,
    (w2.2.1 (Or.inl (by decide))).2⟩

/-! ### C25 -/

/-- A recorder appended by `startRecording` was created with the first
supported type of the preference list, or with no type. -/
theorem startRecording_mimeType (P : Platform) (stream : Option MediaStream) (s : State)
    (recorder : Recorder)
    (h : (startRecording P stream s).recorders = s.recorders ++ [recorder]) :
    recorder.mimeType = (supportedTypes.find? P.isTypeSupported).getD "" := by
  have hno : s.recorders ≠ s.recorders ++ [recorder] := by
    intro h0
    have := congrArg List.length h0
    simp at this
  unfold startRecording at h
  split at h
  · exact absurd h hno
  · split at h
    · exact absurd h hno
    · simp only at h
      split at h
      · exact absurd h hno
      · split at h
        · exact absurd h hno
        · split at h
          · simp only [List.append_cancel_left_eq, List.cons.injEq, and_true] at h
            rw [← h]
          · simp only [setRecorderState, modifyAt, List.getElem?_concat_length,
              List.append_cancel_left_eq] at h
            have h2 := congrArg (fun l => l.map (fun r => r.mimeType)) h
            simp at h2
            exact h2.symm

theorem fileExtension_eq (mimeType : String) :
    (fileExtension mimeType = "ogg" ∨ fileExtension mimeType = "webm") ∧
    (fileExtension mimeType = "ogg" ↔ isOggType mimeType = true) := by
  unfold fileExtension isOggType
  split
  · rename_i h
    exact ⟨Or.inl rfl, by simp [h]⟩
  · rename_i h
    refine ⟨Or.inr rfl, ?_⟩
    constructor
    · intro h1; exact absurd h1 (by decide)
    · intro h1; exact absurd h1 h

/-- The extension of the download is `ogg` exactly when the type the recorder
is created with is an `audio/ogg` type. -/
theorem fileExtension_download (P : Platform) :
    (fileExtension (downloadMimeType P) = "ogg" ↔
      isOggType ((supportedTypes.find? P.isTypeSupported).getD "") = true) := by
  rw [(fileExtension_eq (downloadMimeType P)).2]
  unfold downloadMimeType
  cases supportedTypes.find? P.isTypeSupported with
  | none => simp only [Option.getD_none]; decide
  | some t => rfl

/-- The downloads in the part of the log one event writes carry the MIME type
and the file name of `downloadRecording`. -/
theorem step_download (P : Platform) (props : Props) (self : UserId) (ev : Event) (s : State)
    (chunks : List Nat) (mimeType filename : String)
    (h : Effect.download chunks mimeType filename ∈ newLog s (step P props self ev s)) :
    mimeType = downloadMimeType P ∧ filename = downloadFilename P props := by
  by_cases hev : ∃ tr, ev = .mediaResolved tr
  · obtain ⟨tr, rfl⟩ := hev
    obtain ⟨-, l, hl, hp⟩ := onMediaResolved_frame P props tr s
    have hs : step P props self (.mediaResolved tr) s = onMediaResolved P props tr s := rfl
    rw [hs, newLog_of_append hl] at h
    exact absurd rfl ((hp _ h).2 chunks mimeType filename)
  · obtain ⟨-, -, -, l, hl, hp⟩ := step_quiet P props self ev s
      (fun tr h0 => hev ⟨tr, h0⟩)
    rw [newLog_of_append hl] at h
    have := hp _ h
    simpa [handlerEffect] using this

/-- C25: the name of the download.  Whenever an event of a session of meeting
`id` produces a download, its file name is
`meeting-audio-` ++ id ++ `-` ++ the decimal time in milliseconds ++ `.` ++ ext,
where ext is `ogg` or `webm`, and is `ogg` exactly when the type a recorder is
started with on this browser is an `audio/ogg` type. -/
theorem download_filename (P : Platform) (props : Props) (self : UserId) (ev : Event)
    (s : State) (chunks : List Nat) (mimeType filename : String) (id : String)
    (hid : props.meetingId = some id) (hne : id ≠ "")
    (h : Effect.download chunks mimeType filename ∈ newLog s (step P props self ev s)) :
    ∃ ext, filename = "meeting-audio-" ++ id ++ "-" ++ toString P.now ++ "." ++ ext ∧
      (ext = "ogg" ∨ ext = "webm") ∧
      (∀ (stream : Option MediaStream) (s0 : State) (recorder : Recorder),
        (startRecording P stream s0).recorders = s0.recorders ++ [recorder] →
        (ext = "ogg" ↔ isOggType recorder.mimeType = true)) := by
  obtain ⟨-, hname⟩ := step_download P props self ev s chunks mimeType filename h
  refine ⟨fileExtension (downloadMimeType P), ?_, (fileExtension_eq _).1, ?_⟩
  · rw [hname]
    simp [downloadFilename, meetingIdOrRec, hid, hne]
  · intro stream s0 recorder hr
    rw [startRecording_mimeType P stream s0 recorder hr]
    exact fileExtension_download P

theorem download_filename_witness :
    Effect.download [5] "audio/ogg;codecs=opus" "meeting-audio-m1-1700000000000.ogg" ∈
      newLog oggStopped (step oggPlatform demoProps "me" (.recorderStop 0) oggStopped) ∧
    (oggStopped.recorders.map (fun r => r.mimeType)) = ["audio/ogg;codecs=opus"] ∧
    ∃ ext, "meeting-audio-m1-1700000000000.ogg" =
        "meeting-audio-" ++ "m1" ++ "-" ++ toString oggPlatform.now ++ "." ++ ext ∧
      (ext = "ogg" ∨ ext = "webm") := by
  have hmem : Effect.download [5] "audio/ogg;codecs=opus" "meeting-audio-m1-1700000000000.ogg" ∈
      newLog oggStopped (step oggPlatform demoProps "me" (.recorderStop 0) oggStopped) := by
    decide
  obtain ⟨ext, h1, h2, -⟩ := download_filename oggPlatform demoProps "me" (.recorderStop 0)
    oggStopped [5] "audio/ogg;codecs=opus" "meeting-audio-m1-1700000000000.ogg" "m1" rfl
    (by decide) hmem
  exact ⟨hmem, by decide, ext, h1, h2⟩

/-! ### C26 -/

/-- The result of `list.find(f)` is the first element that satisfies `f`. -/
theorem find?_first (f : String → Bool) (l : List String) (t : String)
    (h : l.find? f = some t) :
    ∃ i : Nat, l[i]? = some t ∧ f t = true ∧
      ∀ j : Nat, j < i → ∀ u, l[j]? = some u → f u = false := by
  induction l with
  | nil => simp at h
  | cons a l ih =>
    cases ha : f a with
    | true =>
      simp only [List.find?_cons, ha] at h
      cases h
      exact ⟨0, by simp, ha, fun j hj => absurd hj (Nat.not_lt_zero j)⟩
    | false =>
      simp only [List.find?_cons, ha] at h
      obtain ⟨i, h1, h2, h3⟩ := ih h
      refine ⟨i + 1, by simpa using h1, h2, ?_⟩
      intro j hj u hu
      cases j with
      | zero =>
        simp at hu
        rw [← hu]; exact ha
      | succ j =>
        simp at hu
        exact h3 j (Nat.lt_of_succ_lt_succ hj) u hu

/-- The result of `supportedTypes.find(isTypeSupported)`: the first supported
element of the preference list, and `none` exactly when no element is
supported. -/
theorem find_supported (f : String → Bool) :
    (∀ t, supportedTypes.find? f = some t →
      ∃ i : Nat, supportedTypes[i]? = some t ∧ f t = true ∧
        ∀ j : Nat, j < i → ∀ u, supportedTypes[j]? = some u → f u = false) ∧
    (supportedTypes.find? f = none ↔ ∀ t ∈ supportedTypes, f t = false) := by
  constructor
  · intro t ht
    exact find?_first f supportedTypes t ht
  · rw [List.find?_eq_none]
    simp

/-- C26: encoding selection.  For every support predicate of the browser, the
recorder that `startRecording` creates is given the first supported element
of the list `audio/webm;codecs=opus`, `audio/webm`, `audio/ogg;codecs=opus`,
`audio/ogg` (supported, and no earlier element is); when no element is
supported it is given no type (the empty string, for which the code passes
no `mimeType` option). -/
theorem encoding_selection (P : Platform) (st : MediaStream) (s : State)
    (href : s.mediaRecorderRef = none) (haudio : getAudioTracks s st ≠ [])
    (hctor : P.recorderCtorThrows = false) :
    supportedTypes =
      ["audio/webm;codecs=opus", "audio/webm", "audio/ogg;codecs=opus", "audio/ogg"] ∧
    ∃ recorder, (startRecording P (some st) s).recorders = s.recorders ++ [recorder] ∧
      ((∃ i : Nat, supportedTypes[i]? = some recorder.mimeType ∧
          P.isTypeSupported recorder.mimeType = true ∧
          ∀ j : Nat, j < i → ∀ u, supportedTypes[j]? = some u → P.isTypeSupported u = false) ∨
        ((∀ t ∈ supportedTypes, P.isTypeSupported t = false) ∧ recorder.mimeType = "")) := by
  refine ⟨rfl, ?_⟩
  obtain ⟨state, ref, h, -⟩ := startRecording_created P st s href haudio hctor
  refine ⟨_, by rw [h], ?_⟩
  obtain ⟨h1, h2⟩ := find_supported P.isTypeSupported
  cases hfind : supportedTypes.find? P.isTypeSupported with
  | none =>
    right
    exact ⟨h2.1 hfind, rfl⟩
  | some t =>
    left
    exact h1 t hfind

theorem encoding_selection_witness :
    (startRecording oggPlatform (some [0, 1]) tracksOnly).recorders.map (fun r => r.mimeType) =
      ["audio/ogg;codecs=opus"] ∧
    oggPlatform.isTypeSupported "audio/webm;codecs=opus" = false ∧
    oggPlatform.isTypeSupported "audio/webm" = false ∧
    oggPlatform.isTypeSupported "audio/ogg;codecs=opus" = true ∧
    ∃ recorder,
      (startRecording oggPlatform (some [0, 1]) tracksOnly).recorders =
        tracksOnly.recorders ++ [recorder] := by
  obtain ⟨-, recorder, h, -⟩ := encoding_selection oggPlatform [0, 1] tracksOnly rfl
    (by decide) rfl
  exact ⟨by decide, by decide, by decide, by decide, recorder, h⟩

/-! ### C27 -/

theorem effectInit_guard (props : Props) (currentUser : Option UserId) (s : State) :
    (effectInit props currentUser s).1.isCleanupScheduled =
      (if props.visible then false else s.isCleanupScheduled) := by
  unfold effectInit
  cases hv : props.visible
  · simp
  · simp only [Bool.not_true, Bool.false_eq_true, ↓reduceIte]
    split <;> rfl

/-- C27, as the code has it: a guard flag that is set is cleared by the
cooldown timer and by a run of the main effect with the view visible, and by
nothing else: every event handler other than the timer callback (a further
`stop()` included), the effect's cleanup, and a run of the effect with the
view hidden leave it set. -/
theorem guard_flag_reset (P : Platform) (props : Props) (self : UserId) (s : State)
    (h : s.isCleanupScheduled = true) :
    (∀ ev, ev ≠ Event.guardTimer → (step P props self ev s).isCleanupScheduled = true) ∧
    (0 < s.guardTimers → (step P props self .guardTimer s).isCleanupScheduled = false) ∧
    (effectCleanup s).isCleanupScheduled = true ∧
    (∀ props2 currentUser, props2.visible = false →
      (effectRerun props2 currentUser s).1.isCleanupScheduled = true) ∧
    (∀ props2 currentUser, props2.visible = true →
      (effectRerun props2 currentUser s).1.isCleanupScheduled = false) := by
  refine ⟨fun ev hev => step_keeps_guard P props self ev s hev h, ?_, h, ?_, ?_⟩
  · intro hg
    have : s.guardTimers ≠ 0 := Nat.pos_iff_ne_zero.1 hg
    simp [step, guardTimerFires, this]
  · intro props2 currentUser hv
    unfold effectRerun
    rw [effectInit_guard, hv]
    exact h
  · intro props2 currentUser hv
    unfold effectRerun
    rw [effectInit_guard, hv]
    rfl

theorem guard_flag_reset_witness :
    leftSession.isCleanupScheduled = true ∧ leftSession.guardTimers = 1 ∧
    (step Platform.nominal hiddenProps "me" .stop leftSession).isCleanupScheduled = true ∧
    (step Platform.nominal hiddenProps "me" (.mediaResolved demoTracks)
      leftSession).isCleanupScheduled = true ∧
    (step Platform.nominal hiddenProps "me" .guardTimer leftSession).isCleanupScheduled = false ∧
    (effectRerun hiddenProps (some "me") leftSession).1.isCleanupScheduled = true := by
  have w := guard_flag_reset Platform.nominal hiddenProps "me" leftSession (by decide)
  exact ⟨by decide, by decide, w.1 .stop (by decide), w.1 (.mediaResolved demoTracks) (by decide),
    w.2.1 (by decide), w.2.2.2.1 hiddenProps (some "me") rfl⟩

/-- C27 as stated fails: after `stop()` the view is hidden and shown again
while the cooldown timer of that `stop()` is still pending; the effect's
initialisation clears the guard flag, and a second `stop()` runs the teardown
again (it schedules a second timer). -/
theorem guard_flag_reset_counterexample :
    leftSession.isCleanupScheduled = true ∧ leftSession.guardTimers = 1 ∧
    (effectRerun demoProps (some "me") leftSession).1.isCleanupScheduled = false ∧
    (effectRerun demoProps (some "me") leftSession).1.guardTimers = 1 ∧
    (step Platform.nominal demoProps "me" .stop
      (effectRerun demoProps (some "me") leftSession).1).guardTimers = 2 := by
  decide

/-! ### C28 -/

/-- With the effect flag clear the media callback stops every acquired track
and does nothing else (no `track.stop()` throwing). -/
theorem onMediaResolved_inactive (P : Platform) (props : Props) (newTracks : List Track)
    (s : State) (hact : s.isEffectActive = false) (ht : ∀ t, P.trackStopThrows t = false) :
    onMediaResolved P props newTracks s =
      { s with
        tracks := stopAll (List.range' s.tracks.length newTracks.length) (s.tracks ++ newTracks),
        log := s.log ++ (List.range' s.tracks.length newTracks.length).map Effect.trackStop } := by
  unfold onMediaResolved
  simp only [hact, Bool.not_false, ↓reduceIte]
  rw [stopTracks_ok P ht]

/-- C28 at a failing input: the view is hidden while `getUserMedia` is pending.
React runs the effect's cleanup and then the effect again, which marks the
effect active before it checks `visible`; when the media then arrives the
callback stores the stream, starts the recorder and joins the channel, and no
track is stopped.  After an unmount (cleanup only) the tracks are stopped and
nothing else happens. -/
theorem media_after_close_not_discarded :
    (effectCleanup startingSession).isEffectActive = false ∧
    closedWhilePending.isEffectActive = true ∧
    (onMediaResolved Platform.nominal demoProps demoTracks closedWhilePending).localStream =
      some [0, 1] ∧
    (onMediaResolved Platform.nominal demoProps demoTracks closedWhilePending).tracks =
      demoTracks ∧
    (onMediaResolved Platform.nominal demoProps demoTracks closedWhilePending).mediaRecorderRef =
      some 0 ∧
    isRecording (onMediaResolved Platform.nominal demoProps demoTracks closedWhilePending) 0 =
      true ∧
    (onMediaResolved Platform.nominal demoProps demoTracks closedWhilePending).subscribed =
      true ∧
    newLog closedWhilePending
        (onMediaResolved Platform.nominal demoProps demoTracks closedWhilePending) =
      [.ui (.mediaError none), .join "presence-meeting.m1"] ∧
    onMediaResolved Platform.nominal demoProps demoTracks unmountedWhilePending =
      { unmountedWhilePending with
        tracks := demoTracks.map Track.stopped,
        log := unmountedWhilePending.log ++ [.trackStop 0, .trackStop 1] } := by
  decide

/-! ### C29 -/

/-- C29: the recipient of a whisper is not looked at.  For every state, every
whisper `w` (offer, answer or candidate) and every `recipientId`, the whisper
with that recipient is handled exactly as `w`: the handler, the event and
every run that starts with it (the deferred answer to an offer included) end
in the same state, so the same registry, the same connections and the same
messages in the log. -/
theorem whisper_recipient_ignored (P : Platform) (props : Props) (self : UserId) (w : Whisper)
    (recipientId : UserId) (s : State) (es : List Event) :
    onWhisper P self { w with recipientId := recipientId } s = onWhisper P self w s ∧
    step P props self (.whisper { w with recipientId := recipientId }) s =
      step P props self (.whisper w) s ∧
    run P props self (.whisper { w with recipientId := recipientId } :: es) s =
      run P props self (.whisper w :: es) s := by
  have h1 : onWhisper P self { w with recipientId := recipientId } s = onWhisper P self w s :=
    rfl
  have h2 : step P props self (.whisper { w with recipientId := recipientId }) s =
      step P props self (.whisper w) s := rfl
  refine ⟨h1, h2, ?_⟩
  simp only [run]
  rw [h2]

/-! ### C30 -/

/-- C30 at a failing input: the microphone is muted, the view is hidden and
shown again without `stop()`, and the new stream arrives.  The effect's
initialisation clears the stream but not the muted flags, so the audio-muted
flag is still set while the audio track of the new stream is enabled.  On the
way through `stop()`, which resets the flags, the flag and the track agree. -/
theorem mute_flag_stale_after_reopen :
    muteConsistent .audio sessionStart = true ∧
    muteConsistent .audio mutedSession = true ∧
    mutedSession.isAudioMuted = true ∧
    muteConsistent .audio (effectRerun hiddenProps (some "me") mutedSession).1 = true ∧
    reopenedMuted.localStream = some [2, 3] ∧
    reopenedMuted.tracks[2]? = some { kind := .audio, enabled := true, ended := false } ∧
    reopenedMuted.isAudioMuted = true ∧
    muteConsistent .audio reopenedMuted = false ∧
    muteConsistent .video reopenedMuted = true ∧
    reopenedAfterStop.isAudioMuted = false ∧
    muteConsistent .audio reopenedAfterStop = true := by
  decide

end VideoChat
